import Mathlib

/-!
# Course platform API: services and controllers

A shallow embedding of the CRUD modules under `app/` (models, services,
controllers) together with the Go and gorm primitives they call, followed by
the properties of the list/sort/update recipe that every module repeats.

Conventions of the embedding
* Go `string` is `String`, `uint` is `Nat`, `int`/`int64` is `Int` (wrapped
  with `wrapInt` where the source does arithmetic), a pointer is an `Option`.
* A non-nil `error` is a `GoError`; a fallible library call is an `Except`.
* `float64` values are exact rationals, rounded to 53 significant bits where
  the source converts or divides.
* The database handle and the event emitter are outside the program: a service
  takes the answers of the handle as a record of functions and returns, next
  to its result, the list of calls it made, in order.  A controller does the
  same with its service.  Calls to the logger are not recorded.
* The modules are instances of one template; where the source repeats a method
  verbatim in every module (`applySorting`, `GetById`, `GetAll`, the handlers
  of the controllers) the embedding has one definition, with the module or its
  types as parameters.
-/

set_option autoImplicit false

namespace CoursePlatform

/-! ## Go primitives -/

/-- Two's-complement reduction of an integer to the 64-bit Go `int`. -/
def wrapInt (x : Int) : Int :=
  (x + 2 ^ 63) % 2 ^ 64 - 2 ^ 63

/-- Range of the 64-bit Go `int`. -/
def isInt64 (x : Int) : Prop :=
  -(2 ^ 63) ≤ x ∧ x < 2 ^ 63

instance (x : Int) : Decidable (isInt64 x) := by
  unfold isInt64; infer_instance

/-- The two failures of package `strconv` (`ErrSyntax`, `ErrRange`). -/
inductive NumError where
  | ErrSyntax
  | ErrRange
  deriving DecidableEq, Repr

/-- Digit loop of `strconv.ParseUint` in base 10 over the remaining bytes, `n`
being the value read so far: a byte outside `0`..`9` is `ErrSyntax`, a value
that leaves 64 bits or exceeds `maxVal` is `ErrRange`. -/
def ParseUint.loop (maxVal : Nat) : List Char → Nat → Except NumError Nat
  | [], n => .ok n
  | c :: cs, n =>
    if 48 ≤ c.toNat ∧ c.toNat ≤ 57 then
      if n ≥ (2 ^ 64 - 1) / 10 + 1 then .error .ErrRange
      else
        let n1 := n * 10 + (c.toNat - 48)
        if n1 ≥ 2 ^ 64 ∨ n1 > maxVal then .error .ErrRange
        else ParseUint.loop maxVal cs n1
    else .error .ErrSyntax

/-- Model of `strconv.ParseUint(s, 10, bitSize)`: no sign is accepted, the
empty string is `ErrSyntax`. -/
def ParseUint (s : String) (bitSize : Nat) : Except NumError Nat :=
  match s.toList with
  | [] => .error .ErrSyntax
  | cs => ParseUint.loop (2 ^ bitSize - 1) cs 0

/-- Model of `strconv.ParseInt(s, 10, 0)` on a 64-bit platform: an optional
sign, then `ParseUint`; the magnitude must fit the signed range. -/
def ParseInt (s : String) : Except NumError Int :=
  match s.toList with
  | [] => .error .ErrSyntax
  | c :: cs =>
    let neg := c = '-'
    let body := if c = '+' ∨ c = '-' then cs else c :: cs
    match body with
    | [] => .error .ErrSyntax
    | _ =>
      match ParseUint.loop (2 ^ 64 - 1) body 0 with
      | .error e => .error e
      | .ok un =>
        if ¬ neg ∧ un ≥ 2 ^ 63 then .error .ErrRange
        else if neg ∧ un > 2 ^ 63 then .error .ErrRange
        else .ok (if neg then -(un : Int) else (un : Int))

/-- Model of `strconv.Atoi`: its fast path for short strings computes the same
value as `ParseInt(s, 10, 0)`, which it falls back to. -/
def Atoi (s : String) : Except NumError Int :=
  ParseInt s

/-- Model of `strings.Contains(s, substr)`.  Go compares bytes; for an ASCII
`substr` in UTF-8 text, as in the controllers, that is the comparison of
characters made here. -/
def Contains (s substr : String) : Bool :=
  decide (substr.toList <:+: s.toList)

/-- Rounding of a rational to the nearest integer, ties to the even one. -/
def roundHalfEven (q : ℚ) : Int :=
  let f := ⌊q⌋
  let r := q - f
  if r < 1 / 2 then f
  else if 1 / 2 < r then f + 1
  else if f % 2 = 0 then f
  else f + 1

/-- The `float64` nearest to the real number `q` (round to nearest, ties to
even, 53 significant bits), as an exact rational.  The exponent is not bounded:
the value is the IEEE 754 one for magnitudes in the normal range, which holds
every int64 and every quotient of two non-zero int64 values. -/
def roundFloat64 (q : ℚ) : ℚ :=
  if q = 0 then 0
  else
    let e := Int.log 2 |q|
    let ulp : ℚ := 2 ^ (e - 52)
    roundHalfEven (q / ulp) * ulp

/-- Conversion `float64(n)` of an integer. -/
def toFloat64 (n : Int) : ℚ :=
  roundFloat64 n

/-- Division of two finite `float64` values; `none` when the divisor is zero,
where the result is an infinity or NaN. -/
def divFloat64 (a b : ℚ) : Option ℚ :=
  if b = 0 then none else some (roundFloat64 (a / b))

/-- Function `math.Ceil` on a finite value. -/
def mathCeil (q : ℚ) : ℚ :=
  (⌈q⌉ : Int)

/-- Conversion `int(f)` of a finite `float64`: the fraction is discarded; `none`
when the value does not fit in an `int`, where Go leaves the result to the
implementation. -/
def float64ToInt (q : ℚ) : Option Int :=
  let t : Int := if 0 ≤ q then ⌊q⌋ else ⌈q⌉
  if isInt64 t then some t else none

/-! ## gorm statement -/

/-- The clauses a `*gorm.DB` chain has accumulated.  A chain started with
`DB.Model` owns one statement, and each chain method adds its clause to that
statement and returns the same handle. -/
structure Query where
  Model : String
  Select : Option String := none
  Offset : Option Int := none
  Limit : Option Int := none
  Order : List String := []
  deriving DecidableEq, Repr

/-- Chain method `Offset`. -/
def Query.setOffset (q : Query) (offset : Int) : Query :=
  { q with Offset := some offset }

/-- Chain method `Limit`. -/
def Query.setLimit (q : Query) (limit : Int) : Query :=
  { q with Limit := some limit }

/-- Chain method `Order`: the value is appended to the ORDER BY clause. -/
def Query.addOrder (q : Query) (value : String) : Query :=
  { q with Order := q.Order ++ [value] }

/-- Chain method `Select`. -/
def Query.setSelect (q : Query) (columns : String) : Query :=
  { q with Select := some columns }

/-! ## Sorting -/

/-- The modules of the application that have a service. -/
inductive Module where
  | course_certificates
  | course_progress_logs
  | course_tag_relations
  | course_tags
  | enrollments
  | lessons
  | payments
  | reviews
  deriving DecidableEq, Repr

/-- Map literal `validSortFields` of `CourseCertificateService.applySorting`. -/
def CourseCertificateService.validSortFields : List (String × String) :=
  [("id", "id"), ("created_at", "created_at"), ("updated_at", "updated_at"),
   ("certificate_url", "certificate_url"), ("issued_at", "issued_at")]

/-- Map literal `validSortFields` of `CourseProgressLogService.applySorting`. -/
def CourseProgressLogService.validSortFields : List (String × String) :=
  [("id", "id"), ("created_at", "created_at"), ("updated_at", "updated_at"),
   ("completed_at", "completed_at")]

/-- Map literal `validSortFields` of `CourseTagRelationService.applySorting`. -/
def CourseTagRelationService.validSortFields : List (String × String) :=
  [("id", "id"), ("created_at", "created_at"), ("updated_at", "updated_at")]

/-- Map literal `validSortFields` of `CourseTagService.applySorting`. -/
def CourseTagService.validSortFields : List (String × String) :=
  [("id", "id"), ("created_at", "created_at"), ("updated_at", "updated_at"),
   ("name", "name")]

/-- Map literal `validSortFields` of `EnrollmentService.applySorting`. -/
def EnrollmentService.validSortFields : List (String × String) :=
  [("id", "id"), ("created_at", "created_at"), ("updated_at", "updated_at"),
   ("enrolled_at", "enrolled_at"), ("progress", "progress"), ("completed", "completed")]

/-- Map literal `validSortFields` of `LessonService.applySorting`. -/
def LessonService.validSortFields : List (String × String) :=
  [("id", "id"), ("created_at", "created_at"), ("updated_at", "updated_at"),
   ("title", "title"), ("content", "content"), ("video_url", "video_url"),
   ("duration", "duration"), ("order_number", "order_number")]

/-- Map literal `validSortFields` of `PaymentService.applySorting`. -/
def PaymentService.validSortFields : List (String × String) :=
  [("id", "id"), ("created_at", "created_at"), ("updated_at", "updated_at"),
   ("amount", "amount"), ("payment_method", "payment_method"),
   ("payment_status", "payment_status"), ("transaction_id", "transaction_id")]

/-- Map literal `validSortFields` of `ReviewService.applySorting`. -/
def ReviewService.validSortFields : List (String × String) :=
  [("id", "id"), ("created_at", "created_at"), ("updated_at", "updated_at"),
   ("rating", "rating"), ("comment", "comment")]

/-- The map literal `validSortFields` of each service, as key/value pairs. -/
def Module.validSortFields : Module → List (String × String)
  | .course_certificates => CourseCertificateService.validSortFields
  | .course_progress_logs => CourseProgressLogService.validSortFields
  | .course_tag_relations => CourseTagRelationService.validSortFields
  | .course_tags => CourseTagService.validSortFields
  | .enrollments => EnrollmentService.validSortFields
  | .lessons => LessonService.validSortFields
  | .payments => PaymentService.validSortFields
  | .reviews => ReviewService.validSortFields

/-- The local `sortField` of `applySorting`. -/
def sortField (validSortFields : List (String × String)) (sortBy : Option String) : String :=
  match sortBy with
  | none => "id"
  | some s =>
    if s ≠ "" then
      match validSortFields.lookup s with
      | some field => field
      | none => "id"
    else "id"

/-- The local `sortDirection` of `applySorting`. -/
def sortDirection (sortOrder : Option String) : String :=
  match sortOrder with
  | none => "desc"
  | some o => if o = "asc" ∨ o = "desc" then o else "desc"

/-- The value `applySorting` passes to `query.Order`. -/
def orderClause (validSortFields : List (String × String))
    (sortBy sortOrder : Option String) : String :=
  sortField validSortFields sortBy ++ " " ++ sortDirection sortOrder

/-- The method `applySorting` of every service: the statement of `query` after
the call `query.Order(sortField + " " + sortDirection)`. -/
def applySorting (validSortFields : List (String × String)) (query : Query)
    (sortBy sortOrder : Option String) : Query :=
  query.addOrder (orderClause validSortFields sortBy sortOrder)

/-- Method `applySorting` of the service of module `m`. -/
def Module.applySorting (m : Module) (query : Query) (sortBy sortOrder : Option String) : Query :=
  CoursePlatform.applySorting m.validSortFields query sortBy sortOrder

/-! ## Errors and collaborators -/

/-- One entry of `validator.ValidationErrors`. -/
structure ValidationError where
  Field : String
  Tag : String
  Value : String
  Message : String
  deriving DecidableEq, Repr

/-- Type `validator.ValidationErrors`. -/
abbrev ValidationErrors := List ValidationError

/-- A non-nil Go `error`: a library error such as those of gorm, known by
its message, or the value `validator.ValidationErrors` built by a validator. -/
inductive GoError where
  | message (msg : String)
  | validation (errs : ValidationErrors)
  deriving DecidableEq, Repr

/-- Method `Error()`.  `render` is the method `Error` of
`validator.ValidationErrors` (package base/core/validator), taken as given. -/
def GoError.Error (render : ValidationErrors → String) : GoError → String
  | .message msg => msg
  | .validation errs => render errs

/-- What a service method does for its caller: it returns a value, returns a
non-nil error, or does not return because it dereferenced a nil pointer. -/
inductive Result (ρ : Type) where
  | ok (value : ρ)
  | err (e : GoError)
  | nilDereference

/-- A call on the database handle or on the emitter, with its arguments. -/
inductive Call (α : Type) where
  | First (id : Nat)
  | Create (item : α)
  | Save (item : α)
  | Delete (item : α)
  | PreloadFirst (id : Nat)
  | Count (query : Query)
  | Find (query : Query)
  | Emit (event : String) (payload : α)

/-- The answers of the gorm handle for rows of type `α`.  `Create`, `Save` and
`Delete` answer with the item as gorm leaves it (primary key and timestamps
filled in); `PreloadFirst` is `item.Preload(DB).First(item, id)`. -/
structure DB (α : Type) where
  First : Nat → Except GoError α
  Create : α → Except GoError α
  Save : α → Except GoError α
  Delete : α → Except GoError α
  PreloadFirst : Nat → Except GoError α
  Count : Query → Except GoError Int
  Find : Query → Except GoError (List α)

/-- Result of a service method together with the calls it made, in order. -/
structure Outcome (α ρ : Type) where
  result : Result ρ
  calls : List (Call α)

/-! ## Models -/

/-- Type `time.Time`, as an instant counted from the zero time. -/
abbrev Time := Int

/-- Type `gorm.DeletedAt`: a nullable time, `none` for a live row. -/
abbrev DeletedAt := Option Time

/-- Modelled from the spec: `profile.User` (package base/core/app/profile) is
not among the sources; a user is carried by its primary key, which the models
refer to through `UserId`, `StudentId` and `InstructorId`. -/
structure User where
  Id : Nat
  deriving DecidableEq, Repr

mutual
/-- Model `Course`. -/
inductive Course where
  | mk (Id : Nat) (CreatedAt UpdatedAt : Time) (DeletedAt : DeletedAt)
      (Title Slug Description : String) (Price : Int) (Level Language ThumbnailUrl Status : String)
      (Duration : Int) (InstructorId : Nat) (CategoryId : Option Nat)
      (Instructor : Option User) (Category : Option CourseCategory)
/-- Model `CourseCategory`. -/
inductive CourseCategory where
  | mk (Id : Nat) (CreatedAt UpdatedAt : Time) (DeletedAt : DeletedAt)
      (Name Slug Description : String) (Courses : List Course)
end

/-- Model `Lesson`. -/
structure Lesson where
  Id : Nat
  CreatedAt : Time
  UpdatedAt : Time
  DeletedAt : DeletedAt
  Title : String
  Content : String
  VideoUrl : String
  Duration : Int
  OrderNumber : Int
  CourseId : Nat
  Course : Option Course

/-- Request `UpdateLessonRequest`. -/
structure UpdateLessonRequest where
  Title : String
  CourseId : Nat
  Content : String
  VideoUrl : String
  Duration : Int
  OrderNumber : Int
  deriving DecidableEq, Repr

/-- String type `PaymentMethod`. -/
abbrev PaymentMethod := String

/-- String type `PaymentStatus`. -/
abbrev PaymentStatus := String

/-- Model `Payment`. -/
structure Payment where
  Id : Nat
  CreatedAt : Time
  UpdatedAt : Time
  DeletedAt : DeletedAt
  Amount : Int
  PaymentMethod : PaymentMethod
  PaymentStatus : PaymentStatus
  TransactionId : String
  UserId : Nat
  CourseId : Nat
  User : Option User
  Course : Option Course

/-- Request `UpdatePaymentRequest`. -/
structure UpdatePaymentRequest where
  UserId : Nat
  CourseId : Nat
  Amount : Int
  PaymentMethod : PaymentMethod
  PaymentStatus : PaymentStatus
  TransactionId : String
  deriving DecidableEq, Repr

/-- Modelled from the spec: `types.DateTime` (package base/core/types) is not
among the sources; it is an instant like `time.Time`, whose method `IsZero`
holds at the zero instant. -/
abbrev DateTime := Int

/-- Method `IsZero` of `types.DateTime`. -/
def DateTime.IsZero (t : DateTime) : Bool :=
  decide (t = 0)

/-- Formatting `fmt.Sprintf("<entity> #%d", id)` of an unsigned id. -/
def formatId (entity : String) (id : Nat) : String :=
  entity ++ " #" ++ toString id

/-- The types `<Entity>SelectOption`: each has the fields `Id` and `Name`. -/
structure SelectOption where
  Id : Nat
  Name : String
  deriving DecidableEq, Repr

/-- Field `Id` of a course. -/
def Course.Id : Course → Nat
  | .mk id _ _ _ _ _ _ _ _ _ _ _ _ _ _ _ _ => id

/-- Field `CreatedAt` of a course. -/
def Course.CreatedAt : Course → Time
  | .mk _ t _ _ _ _ _ _ _ _ _ _ _ _ _ _ _ => t

/-- Field `UpdatedAt` of a course. -/
def Course.UpdatedAt : Course → Time
  | .mk _ _ t _ _ _ _ _ _ _ _ _ _ _ _ _ _ => t

/-- Field `DeletedAt` of a course. -/
def Course.DeletedAt : Course → DeletedAt
  | .mk _ _ _ d _ _ _ _ _ _ _ _ _ _ _ _ _ => d

/-- Field `Title` of a course. -/
def Course.Title : Course → String
  | .mk _ _ _ _ s _ _ _ _ _ _ _ _ _ _ _ _ => s

/-- Field `Slug` of a course. -/
def Course.Slug : Course → String
  | .mk _ _ _ _ _ s _ _ _ _ _ _ _ _ _ _ _ => s

/-- Field `Description` of a course. -/
def Course.Description : Course → String
  | .mk _ _ _ _ _ _ s _ _ _ _ _ _ _ _ _ _ => s

/-- Field `Price` of a course. -/
def Course.Price : Course → Int
  | .mk _ _ _ _ _ _ _ p _ _ _ _ _ _ _ _ _ => p

/-- Field `Level` of a course. -/
def Course.Level : Course → String
  | .mk _ _ _ _ _ _ _ _ s _ _ _ _ _ _ _ _ => s

/-- Field `Language` of a course. -/
def Course.Language : Course → String
  | .mk _ _ _ _ _ _ _ _ _ s _ _ _ _ _ _ _ => s

/-- Field `ThumbnailUrl` of a course. -/
def Course.ThumbnailUrl : Course → String
  | .mk _ _ _ _ _ _ _ _ _ _ s _ _ _ _ _ _ => s

/-- Field `Status` of a course. -/
def Course.Status : Course → String
  | .mk _ _ _ _ _ _ _ _ _ _ _ s _ _ _ _ _ => s

/-- Field `Duration` of a course. -/
def Course.Duration : Course → Int
  | .mk _ _ _ _ _ _ _ _ _ _ _ _ d _ _ _ _ => d

/-- Field `InstructorId` of a course. -/
def Course.InstructorId : Course → Nat
  | .mk _ _ _ _ _ _ _ _ _ _ _ _ _ i _ _ _ => i

/-- Field `CategoryId` of a course. -/
def Course.CategoryId : Course → Option Nat
  | .mk _ _ _ _ _ _ _ _ _ _ _ _ _ _ c _ _ => c

/-- Field `Instructor` of a course. -/
def Course.Instructor : Course → Option User
  | .mk _ _ _ _ _ _ _ _ _ _ _ _ _ _ _ u _ => u

/-- Field `Category` of a course. -/
def Course.Category : Course → Option CourseCategory
  | .mk _ _ _ _ _ _ _ _ _ _ _ _ _ _ _ _ c => c

/-- Field `Id` of a course category. -/
def CourseCategory.Id : CourseCategory → Nat
  | .mk id _ _ _ _ _ _ _ => id

/-- Field `CreatedAt` of a course category. -/
def CourseCategory.CreatedAt : CourseCategory → Time
  | .mk _ t _ _ _ _ _ _ => t

/-- Field `UpdatedAt` of a course category. -/
def CourseCategory.UpdatedAt : CourseCategory → Time
  | .mk _ _ t _ _ _ _ _ => t

/-- Field `DeletedAt` of a course category. -/
def CourseCategory.DeletedAt : CourseCategory → DeletedAt
  | .mk _ _ _ d _ _ _ _ => d

/-- Field `Name` of a course category. -/
def CourseCategory.Name : CourseCategory → String
  | .mk _ _ _ _ s _ _ _ => s

/-- Field `Slug` of a course category. -/
def CourseCategory.Slug : CourseCategory → String
  | .mk _ _ _ _ _ s _ _ => s

/-- Field `Description` of a course category. -/
def CourseCategory.Description : CourseCategory → String
  | .mk _ _ _ _ _ _ s _ => s

/-- Field `Courses` of a course category. -/
def CourseCategory.Courses : CourseCategory → List Course
  | .mk _ _ _ _ _ _ _ cs => cs

/-- Model `CourseTag`. -/
structure CourseTag where
  Id : Nat
  CreatedAt : Time
  UpdatedAt : Time
  DeletedAt : DeletedAt
  Name : String
  deriving DecidableEq, Repr

/-- Model `Enrollment`. -/
structure Enrollment where
  Id : Nat
  CreatedAt : Time
  UpdatedAt : Time
  DeletedAt : DeletedAt
  EnrolledAt : DateTime
  Progress : Int
  Completed : Bool
  StudentId : Nat
  CourseId : Nat
  Student : Option User
  Course : Option Course

/-- Model `CourseCertificate`. -/
structure CourseCertificate where
  Id : Nat
  CreatedAt : Time
  UpdatedAt : Time
  DeletedAt : DeletedAt
  CertificateUrl : String
  IssuedAt : DateTime
  EnrollmentId : Nat
  Enrollment : Option Enrollment

/-- Model `CourseResource`. -/
structure CourseResource where
  Id : Nat
  CreatedAt : Time
  UpdatedAt : Time
  DeletedAt : DeletedAt
  FileUrl : String
  Title : String
  UploadedAt : DateTime
  CourseId : Nat
  Course : Option Course

/-- Model `CourseProgressLog`. -/
structure CourseProgressLog where
  Id : Nat
  CreatedAt : Time
  UpdatedAt : Time
  DeletedAt : DeletedAt
  CompletedAt : DateTime
  EnrollmentId : Nat
  LessonId : Nat
  Enrollment : Option Enrollment
  Lesson : Option Lesson

/-- Model `CourseTagRelation`. -/
structure CourseTagRelation where
  Id : Nat
  CreatedAt : Time
  UpdatedAt : Time
  DeletedAt : DeletedAt
  CourseId : Nat
  TagId : Nat
  Course : Option Course
  Tag : Option CourseTag

/-- Model `Review`. -/
structure Review where
  Id : Nat
  CreatedAt : Time
  UpdatedAt : Time
  DeletedAt : DeletedAt
  Rating : Int
  Comment : String
  CourseId : Nat
  StudentId : Nat
  Course : Option Course
  Student : Option User

/-- Request `CreateCourseCertificateRequest`. -/
structure CreateCourseCertificateRequest where
  EnrollmentId : Nat
  CertificateUrl : String
  IssuedAt : DateTime
  deriving DecidableEq, Repr

/-- Request `UpdateCourseCertificateRequest`. -/
structure UpdateCourseCertificateRequest where
  EnrollmentId : Nat
  CertificateUrl : String
  IssuedAt : DateTime
  deriving DecidableEq, Repr

/-- Request `UpdateCourseCategoryRequest`. -/
structure UpdateCourseCategoryRequest where
  Name : String
  Slug : String
  Description : String
  deriving DecidableEq, Repr

/-- Request `CreateCourseTagRelationRequest`. -/
structure CreateCourseTagRelationRequest where
  CourseId : Nat
  TagId : Nat
  deriving DecidableEq, Repr

/-- Request `UpdateEnrollmentRequest`; `Completed` is a pointer. -/
structure UpdateEnrollmentRequest where
  StudentId : Nat
  CourseId : Nat
  EnrolledAt : DateTime
  Progress : Int
  Completed : Option Bool
  deriving DecidableEq, Repr

/-! ## Conversions -/

/-- Method `ToSelectOption` of `Lesson`. -/
def Lesson.ToSelectOption : Option Lesson → Option SelectOption
  | none => none
  | some m =>
    let displayName := m.Title
    some { Id := m.Id, Name := displayName }

/-- Method `ToSelectOption` of `Course`. -/
def Course.ToSelectOption : Option Course → Option SelectOption
  | none => none
  | some m =>
    let displayName := m.Title
    some { Id := m.Id, Name := displayName }

/-- Method `ToSelectOption` of `CourseResource`. -/
def CourseResource.ToSelectOption : Option CourseResource → Option SelectOption
  | none => none
  | some m =>
    let displayName := m.Title
    some { Id := m.Id, Name := displayName }

/-- Method `ToSelectOption` of `CourseTag`. -/
def CourseTag.ToSelectOption : Option CourseTag → Option SelectOption
  | none => none
  | some m =>
    let displayName := m.Name
    some { Id := m.Id, Name := displayName }

/-- Method `ToSelectOption` of `CourseCategory`. -/
def CourseCategory.ToSelectOption : Option CourseCategory → Option SelectOption
  | none => none
  | some m =>
    let displayName := m.Name
    some { Id := m.Id, Name := displayName }

/-- Method `ToSelectOption` of `Enrollment`. -/
def Enrollment.ToSelectOption : Option Enrollment → Option SelectOption
  | none => none
  | some m =>
    let displayName := formatId "Enrollment" m.Id
    some { Id := m.Id, Name := displayName }

/-- Method `ToSelectOption` of `CourseProgressLog`. -/
def CourseProgressLog.ToSelectOption : Option CourseProgressLog → Option SelectOption
  | none => none
  | some m =>
    let displayName := formatId "CourseProgressLog" m.Id
    some { Id := m.Id, Name := displayName }

/-- Method `ToSelectOption` of `CourseTagRelation`. -/
def CourseTagRelation.ToSelectOption : Option CourseTagRelation → Option SelectOption
  | none => none
  | some m =>
    let displayName := formatId "CourseTagRelation" m.Id
    some { Id := m.Id, Name := displayName }

/-- Method `ToSelectOption` of `CourseCertificate`. -/
def CourseCertificate.ToSelectOption : Option CourseCertificate → Option SelectOption
  | none => none
  | some m =>
    let displayName := m.CertificateUrl
    some { Id := m.Id, Name := displayName }

/-- Method `ToSelectOption` of `Payment`. -/
def Payment.ToSelectOption : Option Payment → Option SelectOption
  | none => none
  | some m =>
    let displayName := m.TransactionId
    some { Id := m.Id, Name := displayName }

/-- Method `ToSelectOption` of `Review`. -/
def Review.ToSelectOption : Option Review → Option SelectOption
  | none => none
  | some m =>
    let displayName := m.Comment
    some { Id := m.Id, Name := displayName }

/-- Type `CourseCertificateListResponse`. -/
structure CourseCertificateListResponse where
  Id : Nat
  CreatedAt : Time
  UpdatedAt : Time
  DeletedAt : DeletedAt
  CertificateUrl : String
  IssuedAt : DateTime
  deriving DecidableEq, Repr

/-- Method `ToListResponse` of `CourseCertificate`. -/
def CourseCertificate.ToListResponse :
    Option CourseCertificate → Option CourseCertificateListResponse
  | none => none
  | some m =>
    some { Id := m.Id, CreatedAt := m.CreatedAt, UpdatedAt := m.UpdatedAt,
           DeletedAt := m.DeletedAt, CertificateUrl := m.CertificateUrl, IssuedAt := m.IssuedAt }

/-- The function `Validate<Entity>UpdateRequest` of a module
(course_certificates/validator.go and its siblings): `none` is the nil error. -/
def ValidateUpdateRequest {R : Type} (req : Option R) (id : Nat) : Option GoError :=
  match req with
  | none =>
    some (.validation
      [{ Field := "request", Tag := "required", Value := "nil", Message := "request cannot be nil" }])
  | some _ =>
    if id = 0 then
      some (.validation
        [{ Field := "id", Tag := "required", Value := "0", Message := "id cannot be zero" }])
    else none

/-- Modelled from the spec: lessons/validator.go is not among the sources; the
validator checks for a nil request and a zero id, as the validators of the
sibling modules do. -/
def ValidateLessonUpdateRequest (req : Option UpdateLessonRequest) (id : Nat) : Option GoError :=
  ValidateUpdateRequest req id

/-- Modelled from the spec: payments/validator.go is not among the sources; the
validator checks for a nil request and a zero id, as the validators of the
sibling modules do. -/
def ValidatePaymentUpdateRequest (req : Option UpdatePaymentRequest) (id : Nat) : Option GoError :=
  ValidateUpdateRequest req id

/-- Function `ValidateCourseCertificateUpdateRequest`. -/
def ValidateCourseCertificateUpdateRequest (req : Option UpdateCourseCertificateRequest)
    (id : Nat) : Option GoError :=
  ValidateUpdateRequest req id

/-- Function `ValidateCourseCategoryUpdateRequest`. -/
def ValidateCourseCategoryUpdateRequest (req : Option UpdateCourseCategoryRequest)
    (id : Nat) : Option GoError :=
  ValidateUpdateRequest req id

/-- The function `Validate<Entity>CreateRequest` of a module
(course_certificates/validator.go and its siblings).  `validate` is the method
`Validate` of the shared validator (package base/core/validator), taken as
given; the result comes with the requests handed to it, in order. -/
def ValidateCreateRequest {R : Type} (validate : R → Option GoError) (req : Option R) :
    Option GoError × List R :=
  match req with
  | none =>
    (some (.validation
      [{ Field := "request", Tag := "required", Value := "nil", Message := "request cannot be nil" }]),
      [])
  | some r => (validate r, [r])

/-- Function `ValidateCourseCertificateCreateRequest`. -/
def ValidateCourseCertificateCreateRequest
    (validate : CreateCourseCertificateRequest → Option GoError)
    (req : Option CreateCourseCertificateRequest) :
    Option GoError × List CreateCourseCertificateRequest :=
  ValidateCreateRequest validate req

/-- Function `ValidateCourseTagRelationCreateRequest`. -/
def ValidateCourseTagRelationCreateRequest
    (validate : CreateCourseTagRelationRequest → Option GoError)
    (req : Option CreateCourseTagRelationRequest) :
    Option GoError × List CreateCourseTagRelationRequest :=
  ValidateCreateRequest validate req

/-- Modelled from the spec: enrollments/validator.go is not among the sources;
the validator checks for a nil request and a zero id, as the validators of the
sibling modules do. -/
def ValidateEnrollmentUpdateRequest (req : Option UpdateEnrollmentRequest) (id : Nat) :
    Option GoError :=
  ValidateUpdateRequest req id

/-! ## Services -/

/-- The items passed to `DB.Save` among the calls of a service method. -/
def savedItems {α : Type} : List (Call α) → List α
  | [] => []
  | .Save item :: cs => item :: savedItems cs
  | _ :: cs => savedItems cs

/-- The events emitted among the calls of a service method. -/
def emittedEvents {α : Type} : List (Call α) → List String
  | [] => []
  | .Emit event _ :: cs => event :: emittedEvents cs
  | _ :: cs => emittedEvents cs

/-- Method `GetById` of every service. -/
def GetById {α : Type} (db : DB α) (id : Nat) : Outcome α α :=
  match db.PreloadFirst id with
  | .error err => ⟨.err err, [.PreloadFirst id]⟩
  | .ok item => ⟨.ok item, [.PreloadFirst id]⟩

/-- Event name `UpdateLessonEvent`. -/
def LessonService.UpdateLessonEvent : String := "lessons.update"

/-- The block "Update fields directly on the model" of `LessonService.Update`:
the assignments to `item`, in the order of the source. -/
def LessonService.Update.fields (item : Lesson) (req : UpdateLessonRequest) : Lesson :=
  let item := if req.Title ≠ "" then { item with Title := req.Title } else item
  let item := if req.CourseId ≠ 0 then { item with CourseId := req.CourseId } else item
  let item := if req.Content ≠ "" then { item with Content := req.Content } else item
  let item := if req.VideoUrl ≠ "" then { item with VideoUrl := req.VideoUrl } else item
  let item := if req.Duration ≠ 0 then { item with Duration := req.Duration } else item
  let item := if req.OrderNumber ≠ 0 then { item with OrderNumber := req.OrderNumber } else item
  item

/-- Method `LessonService.Update`. -/
def LessonService.Update (db : DB Lesson) (id : Nat) (req : Option UpdateLessonRequest) :
    Outcome Lesson Lesson :=
  match db.First id with
  | .error err => ⟨.err err, [.First id]⟩
  | .ok item =>
    match ValidateLessonUpdateRequest req id with
    | some err => ⟨.err err, [.First id]⟩
    | none =>
      match req with
      | none => ⟨.nilDereference, [.First id]⟩
      | some req =>
        let item := LessonService.Update.fields item req
        match db.Save item with
        | .error err => ⟨.err err, [.First id, .Save item]⟩
        | .ok saved =>
          let got := GetById db saved.Id
          match got.result with
          | .ok result =>
            ⟨.ok result, [.First id, .Save item] ++ got.calls ++ [.Emit UpdateLessonEvent result]⟩
          | .err err => ⟨.err err, [.First id, .Save item] ++ got.calls⟩
          | .nilDereference => ⟨.nilDereference, [.First id, .Save item] ++ got.calls⟩

/-- Event name `UpdatePaymentEvent`. -/
def PaymentService.UpdatePaymentEvent : String := "payments.update"

/-- The block "Update fields directly on the model" of `PaymentService.Update`:
the assignments to `item`, in the order of the source. -/
def PaymentService.Update.fields (item : Payment) (req : UpdatePaymentRequest) : Payment :=
  let item := if req.UserId ≠ 0 then { item with UserId := req.UserId } else item
  let item := if req.CourseId ≠ 0 then { item with CourseId := req.CourseId } else item
  let item :=
    if req.TransactionId ≠ "" then { item with TransactionId := req.TransactionId } else item
  item

/-- Method `PaymentService.Update`. -/
def PaymentService.Update (db : DB Payment) (id : Nat) (req : Option UpdatePaymentRequest) :
    Outcome Payment Payment :=
  match db.First id with
  | .error err => ⟨.err err, [.First id]⟩
  | .ok item =>
    match ValidatePaymentUpdateRequest req id with
    | some err => ⟨.err err, [.First id]⟩
    | none =>
      match req with
      | none => ⟨.nilDereference, [.First id]⟩
      | some req =>
        let item := PaymentService.Update.fields item req
        match db.Save item with
        | .error err => ⟨.err err, [.First id, .Save item]⟩
        | .ok saved =>
          let got := GetById db saved.Id
          match got.result with
          | .ok result =>
            ⟨.ok result, [.First id, .Save item] ++ got.calls ++ [.Emit UpdatePaymentEvent result]⟩
          | .err err => ⟨.err err, [.First id, .Save item] ++ got.calls⟩
          | .nilDereference => ⟨.nilDereference, [.First id, .Save item] ++ got.calls⟩

/-- Type `types.Pagination`.  `TotalPages` is `none` where the conversion of
the quotient to `int` is not defined by the language (a zero limit, or a page
count outside the `int` range). -/
structure Pagination where
  Total : Int
  Page : Int
  PageSize : Int
  TotalPages : Option Int
  deriving DecidableEq, Repr

/-- Type `types.PaginatedResponse`, with `Data` holding list responses of type `β`. -/
structure PaginatedResponse (β : Type) where
  Data : List (Option β)
  Pagination : Pagination

/-- The local `totalPages` of `GetAll`:
`int(math.Ceil(float64(total) / float64(*limit)))`, replaced by 1 when it is 0. -/
def totalPages (total limit : Int) : Option Int :=
  match divFloat64 (toFloat64 total) (toFloat64 limit) with
  | none => none
  | some q =>
    match float64ToInt (mathCeil q) with
    | none => none
    | some n => some (if n = 0 then 1 else n)

/-- Table of the model of each module (`TableName`). -/
def Module.TableName : Module → String
  | .course_certificates => "course_certificates"
  | .course_progress_logs => "course_progress_logs"
  | .course_tag_relations => "course_tag_relations"
  | .course_tags => "course_tags"
  | .enrollments => "enrollments"
  | .lessons => "lessons"
  | .payments => "payments"
  | .reviews => "reviews"

/-- The offset `GetAll` computes, `(*page - 1) * *limit` in `int` arithmetic. -/
def pageOffset (page limit : Int) : Int :=
  wrapInt (wrapInt (page - 1) * limit)

/-- Method `GetAll` of the service of module `m`, with rows of type `α` and
`toListResponse` the method `ToListResponse` of the model. -/
def GetAll {α β : Type} (m : Module) (toListResponse : Option α → Option β) (db : DB α)
    (page limit : Option Int) (sortBy sortOrder : Option String) :
    Outcome α (PaginatedResponse β) :=
  let query : Query := { Model := m.TableName }
  let defaultPage : Int := 1
  let defaultLimit : Int := 10
  let page := match page with
    | none => defaultPage
    | some p => p
  let limit := match limit with
    | none => defaultLimit
    | some l => l
  match db.Count query with
  | .error err => ⟨.err err, [.Count query]⟩
  | .ok total =>
    let offset := pageOffset page limit
    let paged := (query.setOffset offset).setLimit limit
    let sorted := m.applySorting paged sortBy sortOrder
    match db.Find sorted with
    | .error err => ⟨.err err, [.Count query, .Find sorted]⟩
    | .ok items =>
      let responses := items.map (fun item => toListResponse (some item))
      ⟨.ok
        { Data := responses
          Pagination :=
            { Total := total
              Page := page
              PageSize := limit
              TotalPages := totalPages total limit } },
        [.Count query, .Find sorted]⟩

/-- The queries executed by `Find` among the calls of a service method. -/
def foundQueries {α : Type} : List (Call α) → List Query
  | [] => []
  | .Find query :: cs => query :: foundQueries cs
  | _ :: cs => foundQueries cs

/-- The constant `Create<Entity>Event` of each service. -/
def Module.CreateEvent : Module → String
  | .course_certificates => "coursecertificates.create"
  | .course_progress_logs => "courseprogresslogs.create"
  | .course_tag_relations => "coursetagrelations.create"
  | .course_tags => "coursetags.create"
  | .enrollments => "enrollments.create"
  | .lessons => "lessons.create"
  | .payments => "payments.create"
  | .reviews => "reviews.create"

/-- The constant `Update<Entity>Event` of each service. -/
def Module.UpdateEvent : Module → String
  | .course_certificates => "coursecertificates.update"
  | .course_progress_logs => "courseprogresslogs.update"
  | .course_tag_relations => "coursetagrelations.update"
  | .course_tags => "coursetags.update"
  | .enrollments => "enrollments.update"
  | .lessons => "lessons.update"
  | .payments => "payments.update"
  | .reviews => "reviews.update"

/-- The constant `Delete<Entity>Event` of each service. -/
def Module.DeleteEvent : Module → String
  | .course_certificates => "coursecertificates.delete"
  | .course_progress_logs => "courseprogresslogs.delete"
  | .course_tag_relations => "coursetagrelations.delete"
  | .course_tags => "coursetags.delete"
  | .enrollments => "enrollments.delete"
  | .lessons => "lessons.delete"
  | .payments => "payments.delete"
  | .reviews => "reviews.delete"

/-- Method `Create` of the service of module `m`: `build` is the composite
literal that makes the item from the request, `getId` the field `Id` of the
model.  A nil request is dereferenced by the literal. -/
def Create {α C : Type} (m : Module) (build : C → α) (getId : α → Nat) (db : DB α)
    (req : Option C) : Outcome α α :=
  match req with
  | none => ⟨.nilDereference, []⟩
  | some req =>
    let item := build req
    match db.Create item with
    | .error err => ⟨.err err, [.Create item]⟩
    | .ok created =>
      let got := GetById db (getId created)
      ⟨got.result, [.Create item, .Emit m.CreateEvent created] ++ got.calls⟩

/-- Method `Update` of the service of module `m`: `validate` is the function
`Validate<Entity>UpdateRequest` of the module, `fields` the block "Update
fields directly on the model", `getId` the field `Id` of the model. -/
def Update {α U : Type} (m : Module) (validate : Option U → Nat → Option GoError)
    (fields : α → U → α) (getId : α → Nat) (db : DB α) (id : Nat) (req : Option U) :
    Outcome α α :=
  match db.First id with
  | .error err => ⟨.err err, [.First id]⟩
  | .ok item =>
    match validate req id with
    | some err => ⟨.err err, [.First id]⟩
    | none =>
      match req with
      | none => ⟨.nilDereference, [.First id]⟩
      | some req =>
        let item := fields item req
        match db.Save item with
        | .error err => ⟨.err err, [.First id, .Save item]⟩
        | .ok saved =>
          let got := GetById db (getId saved)
          match got.result with
          | .ok result =>
            ⟨.ok result, [.First id, .Save item] ++ got.calls ++ [.Emit m.UpdateEvent result]⟩
          | .err err => ⟨.err err, [.First id, .Save item] ++ got.calls⟩
          | .nilDereference => ⟨.nilDereference, [.First id, .Save item] ++ got.calls⟩

/-- Method `Delete` of the service of module `m`. -/
def Delete {α : Type} (m : Module) (db : DB α) (id : Nat) : Outcome α Unit :=
  match db.First id with
  | .error err => ⟨.err err, [.First id]⟩
  | .ok item =>
    match db.Delete item with
    | .error err => ⟨.err err, [.First id, .Delete item]⟩
    | .ok deleted => ⟨.ok (), [.First id, .Delete item, .Emit m.DeleteEvent deleted]⟩

/-- The columns `GetAllForSelect` of each service selects. -/
def Module.SelectColumns : Module → String
  | .course_tags => "id, name"
  | .lessons => "id, title"
  | _ => "id"

/-- The ordering `GetAllForSelect` of each service asks for. -/
def Module.SelectOrder : Module → String
  | .course_tags => "name ASC"
  | .lessons => "title ASC"
  | _ => "id ASC"

/-- Method `GetAllForSelect` of the service of module `m`. -/
def GetAllForSelect {α : Type} (m : Module) (db : DB α) : Outcome α (List α) :=
  let query : Query := { Model := m.TableName }
  let query := query.setSelect m.SelectColumns
  let query := query.addOrder m.SelectOrder
  match db.Find query with
  | .error err => ⟨.err err, [.Find query]⟩
  | .ok items => ⟨.ok items, [.Find query]⟩

/-- The composite literal of `CourseCertificateService.Create`. -/
def CourseCertificateService.Create.item (req : CreateCourseCertificateRequest) :
    CourseCertificate :=
  { Id := 0, CreatedAt := 0, UpdatedAt := 0, DeletedAt := none,
    CertificateUrl := req.CertificateUrl, IssuedAt := req.IssuedAt,
    EnrollmentId := req.EnrollmentId, Enrollment := none }

/-- Method `CourseCertificateService.Create`. -/
def CourseCertificateService.Create (db : DB CourseCertificate)
    (req : Option CreateCourseCertificateRequest) : Outcome CourseCertificate CourseCertificate :=
  CoursePlatform.Create .course_certificates CourseCertificateService.Create.item (·.Id) db req

/-- The block "Update fields directly on the model" of
`CourseCertificateService.Update`. -/
def CourseCertificateService.Update.fields (item : CourseCertificate)
    (req : UpdateCourseCertificateRequest) : CourseCertificate :=
  let item := if req.EnrollmentId ≠ 0 then { item with EnrollmentId := req.EnrollmentId } else item
  let item :=
    if req.CertificateUrl ≠ "" then { item with CertificateUrl := req.CertificateUrl } else item
  let item := if !req.IssuedAt.IsZero then { item with IssuedAt := req.IssuedAt } else item
  item

/-- Method `CourseCertificateService.Update`. -/
def CourseCertificateService.Update (db : DB CourseCertificate) (id : Nat)
    (req : Option UpdateCourseCertificateRequest) : Outcome CourseCertificate CourseCertificate :=
  CoursePlatform.Update .course_certificates ValidateCourseCertificateUpdateRequest
    CourseCertificateService.Update.fields (·.Id) db id req

/-- Method `CourseCertificateService.Delete`. -/
def CourseCertificateService.Delete (db : DB CourseCertificate) (id : Nat) :
    Outcome CourseCertificate Unit :=
  CoursePlatform.Delete .course_certificates db id

/-- Method `CourseCertificateService.GetAllForSelect`. -/
def CourseCertificateService.GetAllForSelect (db : DB CourseCertificate) :
    Outcome CourseCertificate (List CourseCertificate) :=
  CoursePlatform.GetAllForSelect .course_certificates db

/-- The block "Update fields directly on the model" of
`EnrollmentService.Update`. -/
def EnrollmentService.Update.fields (item : Enrollment) (req : UpdateEnrollmentRequest) :
    Enrollment :=
  let item := if req.StudentId ≠ 0 then { item with StudentId := req.StudentId } else item
  let item := if req.CourseId ≠ 0 then { item with CourseId := req.CourseId } else item
  let item := if !req.EnrolledAt.IsZero then { item with EnrolledAt := req.EnrolledAt } else item
  let item := if req.Progress ≠ 0 then { item with Progress := req.Progress } else item
  let item :=
    match req.Completed with
    | some completed => { item with Completed := completed }
    | none => item
  item

/-- Method `EnrollmentService.Update`. -/
def EnrollmentService.Update (db : DB Enrollment) (id : Nat)
    (req : Option UpdateEnrollmentRequest) : Outcome Enrollment Enrollment :=
  CoursePlatform.Update .enrollments ValidateEnrollmentUpdateRequest
    EnrollmentService.Update.fields (fun item => item.Id) db id req

/-! ## gorm on a table -/

/-- The error `gorm.ErrRecordNotFound`. -/
def ErrRecordNotFound : GoError :=
  .message "record not found"

/-- The error `gorm.ErrMissingWhereClause`. -/
def ErrMissingWhereClause : GoError :=
  .message "WHERE conditions required"

/-- How gorm sees a model with a primary key `Id` and a `gorm.DeletedAt`
field: the two columns, the scan of a row restricted to a list of selected
columns (the other fields keep their zero value), the ordering of rows by a
column, and the loading of the relations named by `Preload`. -/
structure Schema (α : Type) where
  Id : α → Nat
  DeletedAt : α → DeletedAt
  setDeletedAt : α → Time → α
  select : List String → α → α
  le : String → α → α → Bool
  preload : α → α

/-- The column names of a SELECT list such as `"id, title"`. -/
def splitColumns.go : List Char → List Char → List String
  | [], cur => [String.mk cur.reverse]
  | c :: cs, cur =>
    if c = ',' then String.mk cur.reverse :: splitColumns.go cs []
    else if c = ' ' then splitColumns.go cs cur
    else splitColumns.go cs (c :: cur)

/-- The column names of a SELECT list such as `"id, title"`. -/
def splitColumns (columns : String) : List String :=
  splitColumns.go columns.toList []

/-- An ORDER BY value such as `"id desc"`: the column and whether the
direction is descending (SQL keywords are case-insensitive). -/
def parseOrder (value : String) : String × Bool :=
  let column := value.toList.takeWhile (fun c => c ≠ ' ')
  let direction := (value.toList.dropWhile (fun c => c ≠ ' ')).drop 1
  (String.mk column, decide (String.mk (direction.map Char.toLower) = "desc"))

/-- Whether row `a` may come before row `b` under the ORDER BY values, the
first value being the most significant. -/
def orderLE {α : Type} (S : Schema α) : List String → α → α → Bool
  | [], _, _ => true
  | value :: values, a, b =>
    let column := (parseOrder value).1
    let x := if (parseOrder value).2 then b else a
    let y := if (parseOrder value).2 then a else b
    if S.le column x y && S.le column y x then orderLE S values a b
    else S.le column x y

/-- The rows a query finds in a table: the rows that are not soft-deleted,
in the order of the ORDER BY values, after OFFSET (when positive) and LIMIT
(when not negative), scanned into the selected columns. -/
def gormFind {α : Type} (S : Schema α) (table : List α) (q : Query) : List α :=
  let live := table.filter (fun r => decide (S.DeletedAt r = none))
  let sorted := live.insertionSort (fun a b => orderLE S q.Order a b = true)
  let skipped := match q.Offset with
    | some o => if o > 0 then sorted.drop o.toNat else sorted
    | none => sorted
  let limited := match q.Limit with
    | some l => if l ≥ 0 then skipped.take l.toNat else skipped
    | none => skipped
  match q.Select with
  | some columns => limited.map (S.select (splitColumns columns))
  | none => limited

/-- The row `First(item, id)` finds: the row with that primary key, unless
it is soft-deleted. -/
def gormFirst {α : Type} (S : Schema α) (table : List α) (id : Nat) : Except GoError α :=
  match table.find? (fun r => decide (S.Id r = id ∧ S.DeletedAt r = none)) with
  | some r => .ok r
  | none => .error ErrRecordNotFound

/-- The table after `Delete(item)` on a model with a `gorm.DeletedAt` field:
no row is removed; the rows with the primary key of the item that are not yet
soft-deleted get the current time as `DeletedAt`. -/
def softDelete {α : Type} (S : Schema α) (now : Time) (id : Nat) (table : List α) : List α :=
  table.map (fun r => if S.Id r = id ∧ S.DeletedAt r = none then S.setDeletedAt r now else r)

/-- The answers of a gorm handle on a table in state `table` at time `now`:
lookups see the rows that are not soft-deleted; `Delete` refuses an item
without primary key and otherwise answers with the item marked deleted, the
table becoming `softDelete S now (S.Id item) table`.  `Create` and `Save` are
answered by `base`. -/
def gormDB {α : Type} (S : Schema α) (table : List α) (now : Time) (base : DB α) : DB α :=
  { First := gormFirst S table
    Create := base.Create
    Save := base.Save
    Delete := fun item =>
      if S.Id item = 0 then .error ErrMissingWhereClause else .ok (S.setDeletedAt item now)
    PreloadFirst := fun id =>
      match gormFirst S table id with
      | .ok r => .ok (S.preload r)
      | .error err => .error err
    Count := fun _ => .ok ((table.filter (fun r => decide (S.DeletedAt r = none))).length : Int)
    Find := fun q => .ok (gormFind S table q) }

/-- The items passed to `DB.Create`, `DB.Save` or `DB.Delete` among the calls
of a service method: the calls that change the table. -/
def mutations {α : Type} : List (Call α) → List (Call α)
  | [] => []
  | .Create item :: cs => .Create item :: mutations cs
  | .Save item :: cs => .Save item :: mutations cs
  | .Delete item :: cs => .Delete item :: mutations cs
  | _ :: cs => mutations cs

/-- Table `course_certificates` as gorm sees it; `enrollments` is the table
the relation `Enrollment` is preloaded from. -/
def CourseCertificate.schema (enrollments : List CoursePlatform.Enrollment) : Schema CourseCertificate :=
  { Id := fun r => r.Id
    DeletedAt := fun r => r.DeletedAt
    setDeletedAt := fun r t => { r with DeletedAt := some t }
    select := fun columns r =>
      { Id := if "id" ∈ columns then r.Id else 0
        CreatedAt := if "created_at" ∈ columns then r.CreatedAt else 0
        UpdatedAt := if "updated_at" ∈ columns then r.UpdatedAt else 0
        DeletedAt := if "deleted_at" ∈ columns then r.DeletedAt else none
        CertificateUrl := if "certificate_url" ∈ columns then r.CertificateUrl else ""
        IssuedAt := if "issued_at" ∈ columns then r.IssuedAt else 0
        EnrollmentId := if "enrollment_id" ∈ columns then r.EnrollmentId else 0
        Enrollment := none }
    le := fun column a b =>
      if column = "id" then decide (a.Id ≤ b.Id)
      else if column = "created_at" then decide (a.CreatedAt ≤ b.CreatedAt)
      else if column = "updated_at" then decide (a.UpdatedAt ≤ b.UpdatedAt)
      else if column = "certificate_url" then decide (¬ b.CertificateUrl < a.CertificateUrl)
      else if column = "issued_at" then decide (a.IssuedAt ≤ b.IssuedAt)
      else if column = "enrollment_id" then decide (a.EnrollmentId ≤ b.EnrollmentId)
      else true
    preload := fun r =>
      { r with
        Enrollment :=
          if r.EnrollmentId = 0 then none
          else enrollments.find? (fun e => decide (e.Id = r.EnrollmentId ∧ e.DeletedAt = none)) } }

/-- The table after the `Delete` calls among the calls of a service method,
made at time `now` on a gorm handle, in order: a call with an item without
primary key is refused and changes nothing; every other one soft-deletes the
rows with the primary key of its item. -/
def tableAfterDeletes {α : Type} (S : Schema α) (now : Time) : List (Call α) → List α → List α
  | [], table => table
  | .Delete item :: cs, table =>
    tableAfterDeletes S now cs
      (if S.Id item = 0 then table else softDelete S now (S.Id item) table)
  | _ :: cs, table => tableAfterDeletes S now cs table

/-! ## gorm handles -/

/-- A `*gorm.DB` value: its field `clone` and the address of its `Statement`
in the memory of statements. -/
structure Handle where
  clone : Nat
  Statement : Nat
  deriving DecidableEq, Repr

/-- The statements in memory, by address. -/
abbrev Statements := List Query

/-- A statement without clauses. -/
def emptyStatement : Query :=
  { Model := "" }

/-- gorm's `(*DB).getInstance`: a handle with `clone > 0` (the handle that
`gorm.Open` returns has `clone = 1`) yields a new handle with `clone = 0` that
owns a new statement, empty for `clone = 1` and a copy of the statement of the
receiver otherwise; a handle with `clone = 0` yields itself. -/
def Handle.getInstance (db : Handle) (mem : Statements) : Handle × Statements :=
  if db.clone > 0 then
    if db.clone = 1 then
      ({ clone := 0, Statement := mem.length }, mem ++ [emptyStatement])
    else
      ({ clone := 0, Statement := mem.length }, mem ++ [mem.getD db.Statement emptyStatement])
  else (db, mem)

/-- The shape of gorm's chain methods: `tx = db.getInstance()`, the clause is
written into `tx.Statement`, and `tx` is returned. -/
def Handle.chain (write : Query → Query) (db : Handle) (mem : Statements) :
    Handle × Statements :=
  let tx := (db.getInstance mem).1
  let mem := (db.getInstance mem).2
  (tx, mem.set tx.Statement (write (mem.getD tx.Statement emptyStatement)))

/-- Chain method `Model`. -/
def Handle.Model (db : Handle) (table : String) (mem : Statements) : Handle × Statements :=
  db.chain (fun q => { q with Model := table }) mem

/-- Chain method `Offset`. -/
def Handle.Offset (db : Handle) (offset : Int) (mem : Statements) : Handle × Statements :=
  db.chain (fun q => q.setOffset offset) mem

/-- Chain method `Limit`. -/
def Handle.Limit (db : Handle) (limit : Int) (mem : Statements) : Handle × Statements :=
  db.chain (fun q => q.setLimit limit) mem

/-- Chain method `Order` with a string: an empty value adds nothing. -/
def Handle.Order (db : Handle) (value : String) (mem : Statements) : Handle × Statements :=
  if value ≠ "" then db.chain (fun q => q.addOrder value) mem else db.getInstance mem

/-- The method `applySorting` of every service on handles: the handle that
`query.Order` returns is dropped, the memory of statements is what the call
leaves. -/
def applySorting.run (validSortFields : List (String × String)) (query : Handle)
    (sortBy sortOrder : Option String) (mem : Statements) : Statements :=
  (query.Order (sortField validSortFields sortBy ++ " " ++ sortDirection sortOrder) mem).2

/-- The statement that `query.Find` executes in `GetAll`: the statement of
the handle `query` after `s.DB.Model`, `Offset`, `Limit` and `applySorting`,
for the handle `DB` of the service and the effective page and limit.  (`Count`
restores the clauses it touches.) -/
def GetAll.statement (m : Module) (DB : Handle) (mem : Statements) (page limit : Int)
    (sortBy sortOrder : Option String) : Query :=
  let query := (DB.Model m.TableName mem).1
  let mem := (DB.Model m.TableName mem).2
  let offset := pageOffset page limit
  let afterOffset := query.Offset offset mem
  let afterLimit := afterOffset.1.Limit limit afterOffset.2
  let query := afterLimit.1
  let mem := applySorting.run m.validSortFields query sortBy sortOrder afterLimit.2
  mem.getD query.Statement emptyStatement

/-! ## Controllers -/

/-- The request as a controller reads it from `router.Context`: path
parameters, query parameters (the empty string when absent) and the outcome of
binding the JSON body to a request of type `Req`. -/
structure Context (Req : Type) where
  Param : String → String
  Query : String → String
  ShouldBindJSON : Except GoError Req

/-- A JSON body: `types.ErrorResponse` or a value of type `ρ`. -/
inductive Body (ρ : Type) where
  | ErrorResponse (Error : String)
  | json (value : ρ)

/-- Status code and body written to the client; `none` when only the status
is set. -/
structure Response (ρ : Type) where
  Status : Nat
  Body : Option (Body ρ)

/-- The methods of a service as its controller calls them. -/
structure Service (α Req β : Type) where
  GetById : Nat → Except GoError α
  Update : Nat → Req → Except GoError α
  Delete : Nat → Option GoError
  GetAll : Option Int → Option Int → Option String → Option String →
    Except GoError (PaginatedResponse β)

/-- A call of a controller on its service, with its arguments. -/
inductive ServiceCall (Req : Type) where
  | GetById (id : Nat)
  | Update (id : Nat) (req : Req)
  | Delete (id : Nat)
  | GetAll (page limit : Option Int) (sortBy sortOrder : Option String)

/-- Response of a handler together with the service calls it made. -/
structure Handled (ρ Req : Type) where
  response : Response ρ
  calls : List (ServiceCall Req)

/-- Constant `http.StatusOK`. -/
def StatusOK : Nat := 200

/-- Constant `http.StatusNoContent`. -/
def StatusNoContent : Nat := 204

/-- Constant `http.StatusBadRequest`. -/
def StatusBadRequest : Nat := 400

/-- Constant `http.StatusNotFound`. -/
def StatusNotFound : Nat := 404

/-- Constant `http.StatusInternalServerError`. -/
def StatusInternalServerError : Nat := 500

/-- Handler `Get` of every controller; `toResponse` is `ToResponse` of the model. -/
def Controller.Get {α Req β R : Type} (svc : Service α Req β)
    (toResponse : Option α → Option R) (ctx : Context Req) : Handled (Option R) Req :=
  match ParseUint (ctx.Param "id") 32 with
  | .error _ => ⟨⟨StatusBadRequest, some (.ErrorResponse "Invalid id format")⟩, []⟩
  | .ok id =>
    match svc.GetById id with
    | .error _ => ⟨⟨StatusNotFound, some (.ErrorResponse "Item not found")⟩, [.GetById id]⟩
    | .ok item => ⟨⟨StatusOK, some (.json (toResponse (some item)))⟩, [.GetById id]⟩

/-- Handler `List` of every controller. -/
def Controller.List {α Req β : Type} (render : ValidationErrors → String)
    (svc : Service α Req β) (ctx : Context Req) : Handled (PaginatedResponse β) Req :=
  let pageStr := ctx.Query "page"
  let pageParsed : Except Unit (Option Int) :=
    if pageStr ≠ "" then
      match Atoi pageStr with
      | .ok pageNum => if pageNum > 0 then .ok (some pageNum) else .error ()
      | .error _ => .error ()
    else .ok none
  match pageParsed with
  | .error _ => ⟨⟨StatusBadRequest, some (.ErrorResponse "Invalid page number")⟩, []⟩
  | .ok page =>
    let limitStr := ctx.Query "limit"
    let limitParsed : Except Unit (Option Int) :=
      if limitStr ≠ "" then
        match Atoi limitStr with
        | .ok limitNum => if limitNum > 0 then .ok (some limitNum) else .error ()
        | .error _ => .error ()
      else .ok none
    match limitParsed with
    | .error _ => ⟨⟨StatusBadRequest, some (.ErrorResponse "Invalid limit number")⟩, []⟩
    | .ok limit =>
      let sortStr := ctx.Query "sort"
      let sortBy := if sortStr ≠ "" then some sortStr else none
      let orderStr := ctx.Query "order"
      let orderParsed : Except Unit (Option String) :=
        if orderStr ≠ "" then
          if orderStr = "asc" ∨ orderStr = "desc" then .ok (some orderStr) else .error ()
        else .ok none
      match orderParsed with
      | .error _ =>
        ⟨⟨StatusBadRequest,
          some (.ErrorResponse "Invalid sort order. Use \x27asc\x27 or \x27desc\x27")⟩, []⟩
      | .ok sortOrder =>
        match svc.GetAll page limit sortBy sortOrder with
        | .error err =>
          ⟨⟨StatusInternalServerError,
            some (.ErrorResponse ("Failed to fetch items: " ++ err.Error render))⟩,
            [.GetAll page limit sortBy sortOrder]⟩
        | .ok paginatedResponse =>
          ⟨⟨StatusOK, some (.json paginatedResponse)⟩, [.GetAll page limit sortBy sortOrder]⟩

/-- Handler `Update` of every controller. -/
def Controller.Update {α Req β R : Type} (render : ValidationErrors → String)
    (svc : Service α Req β) (toResponse : Option α → Option R) (ctx : Context Req) :
    Handled (Option R) Req :=
  match ParseUint (ctx.Param "id") 32 with
  | .error _ => ⟨⟨StatusBadRequest, some (.ErrorResponse "Invalid id format")⟩, []⟩
  | .ok id =>
    match ctx.ShouldBindJSON with
    | .error err => ⟨⟨StatusBadRequest, some (.ErrorResponse (err.Error render))⟩, []⟩
    | .ok req =>
      match svc.Update id req with
      | .error err =>
        if Contains (err.Error render) "record not found" then
          ⟨⟨StatusNotFound, some (.ErrorResponse "Item not found")⟩, [.Update id req]⟩
        else
          ⟨⟨StatusInternalServerError,
            some (.ErrorResponse ("Failed to update item: " ++ err.Error render))⟩,
            [.Update id req]⟩
      | .ok item => ⟨⟨StatusOK, some (.json (toResponse (some item)))⟩, [.Update id req]⟩

/-- Handler `Delete` of every controller. -/
def Controller.Delete {α Req β : Type} (render : ValidationErrors → String)
    (svc : Service α Req β) (ctx : Context Req) : Handled Unit Req :=
  match ParseUint (ctx.Param "id") 32 with
  | .error _ => ⟨⟨StatusBadRequest, some (.ErrorResponse "Invalid id format")⟩, []⟩
  | .ok id =>
    match svc.Delete id with
    | some err =>
      if Contains (err.Error render) "record not found" then
        ⟨⟨StatusNotFound, some (.ErrorResponse "Item not found")⟩, [.Delete id]⟩
      else
        ⟨⟨StatusInternalServerError,
          some (.ErrorResponse ("Failed to delete item: " ++ err.Error render))⟩,
          [.Delete id]⟩
    | none => ⟨⟨StatusNoContent, none⟩, [.Delete id]⟩

/-- A Go slice. -/
abbrev Slice (α : Type) := List α

/-- Handler `ListAll` of every controller: `items` is the answer of
`Service.GetAllForSelect`, `toSelectOption` the method `ToSelectOption` of the
model. -/
def Controller.ListAll {α : Type} (render : ValidationErrors → String)
    (items : Except GoError (Slice α)) (toSelectOption : Option α → Option SelectOption) :
    Response (Slice (Option SelectOption)) :=
  match items with
  | .error err =>
    ⟨StatusInternalServerError,
      some (.ErrorResponse ("Failed to fetch select options: " ++ err.Error render))⟩
  | .ok items =>
    let selectOptions : Slice (Option SelectOption) :=
      items.map (fun item => toSelectOption (some item))
    ⟨StatusOK, some (.json selectOptions)⟩

/-! ## Vocabulary of the properties -/

/-- A query parameter that is present and is not an integer greater than 0 in
the reading of `strconv.Atoi`. -/
def badPositive (s : String) : Prop :=
  s ≠ "" ∧ ¬ ∃ n : Int, Atoi s = .ok n ∧ 0 < n

/-- A sort order that is present and is neither "asc" nor "desc". -/
def badOrder (s : String) : Prop :=
  s ≠ "" ∧ s ≠ "asc" ∧ s ≠ "desc"

/-- The integer a query parameter denotes; nil when it is absent or empty. -/
def parsedInt (s : String) : Option Int :=
  if s = "" then none
  else
    match Atoi s with
    | .ok n => some n
    | .error _ => none

/-- A query parameter as a string pointer; nil when it is absent or empty. -/
def parsedString (s : String) : Option String :=
  if s = "" then none else some s

/-- Value of a string of decimal digits. -/
def decimalValue (cs : List Char) : Nat :=
  cs.foldl (fun n c => n * 10 + (c.toNat - 48)) 0

/-- A base-10 unsigned integer that fits in 32 bits: at least one character,
digits only, value at most 4294967295. -/
def isUint32 (s : String) : Prop :=
  s.toList ≠ [] ∧ (∀ c ∈ s.toList, 48 ≤ c.toNat ∧ c.toNat ≤ 57) ∧
    decimalValue s.toList ≤ 4294967295

/-- The characters of a query parameter after an optional leading `+`. -/
def positiveDigits (s : String) : List Char :=
  match s.toList with
  | [] => []
  | c :: cs => if c = '+' then cs else c :: cs

/-- A decimal integer from 1 to 2^63 - 1: an optional `+`, then at least one
character, digits only, with a value in that range. -/
def isPositiveInt (s : String) : Prop :=
  positiveDigits s ≠ [] ∧ (∀ c ∈ positiveDigits s, 48 ≤ c.toNat ∧ c.toNat ≤ 57) ∧
    1 ≤ decimalValue (positiveDigits s) ∧
    decimalValue (positiveDigits s) ≤ 9223372036854775807

instance (s : String) : Decidable (isPositiveInt s) := by
  unfold isPositiveInt; infer_instance

/-- A query parameter that is present and is not a decimal integer from 1 to
2^63 - 1. -/
def notPositiveInt (s : String) : Prop :=
  s ≠ "" ∧ ¬ isPositiveInt s

instance (s : String) : Decidable (notPositiveInt s) := by
  unfold notPositiveInt; infer_instance

/-- The value of a query parameter that is a decimal integer; nil when the
parameter is absent or empty. -/
def positiveValue (s : String) : Option Int :=
  if s = "" then none else some (decimalValue (positiveDigits s) : Int)

/-! ## Sample data -/

/-- A stored lesson. -/
def sampleLesson : Lesson :=
  { Id := 7, CreatedAt := 100, UpdatedAt := 120, DeletedAt := none, Title := "Intro",
    Content := "Welcome", VideoUrl := "", Duration := 30, OrderNumber := 1, CourseId := 3,
    Course := none }

/-- A stored payment. -/
def samplePayment : Payment :=
  { Id := 1, CreatedAt := 100, UpdatedAt := 120, DeletedAt := none, Amount := 100,
    PaymentMethod := "paypal", PaymentStatus := "pending", TransactionId := "tx-1",
    UserId := 8, CourseId := 9, User := none, Course := none }

/-- A handle whose table holds the single row `row`; every call succeeds. -/
def sampleDB {α : Type} (row : α) : DB α :=
  { First := fun _ => .ok row
    Create := fun item => .ok item
    Save := fun item => .ok item
    Delete := fun item => .ok item
    PreloadFirst := fun _ => .ok row
    Count := fun _ => .ok 1
    Find := fun _ => .ok [row] }

/-- A request that changes the title and the duration of a lesson. -/
def sampleUpdateLessonRequest : UpdateLessonRequest :=
  { Title := "Basics", CourseId := 0, Content := "", VideoUrl := "", Duration := 45,
    OrderNumber := 0 }

/-- A request that sets amount, method and status of a payment. -/
def sampleUpdatePaymentRequest : UpdatePaymentRequest :=
  { UserId := 0, CourseId := 0, Amount := 250, PaymentMethod := "credit_card",
    PaymentStatus := "completed", TransactionId := "tx-2" }

/-- A handle on a lessons table that counts 2^53 + 1 rows. -/
def crowdedDB : DB Lesson :=
  { sampleDB sampleLesson with Count := fun _ => .ok 9007199254740993 }

/-- A rendering of validation errors. -/
def sampleRender : ValidationErrors → String :=
  fun _ => "validation failed"

/-- A lesson service whose calls all succeed. -/
def sampleService : Service Lesson UpdateLessonRequest Lesson :=
  { GetById := fun _ => .ok sampleLesson
    Update := fun _ _ => .ok sampleLesson
    Delete := fun _ => none
    GetAll := fun _ _ _ _ =>
      .ok { Data := [some sampleLesson],
            Pagination := { Total := 1, Page := 1, PageSize := 10, TotalPages := some 1 } } }

/-- A lesson service on a database that is down. -/
def failingService : Service Lesson UpdateLessonRequest Lesson :=
  { GetById := fun _ => .error (.message "connection refused")
    Update := fun _ _ => .error (.message "connection refused")
    Delete := fun _ => some (.message "connection refused")
    GetAll := fun _ _ _ _ => .error (.message "connection refused") }

/-- A request for id 1 whose body is not valid JSON. -/
def sampleBadBodyContext : Context UpdateLessonRequest :=
  { Param := fun _ => "1"
    Query := fun _ => ""
    ShouldBindJSON := .error (.message "unexpected end of JSON input") }

/-- A request for id 1 with a body that binds. -/
def sampleContext : Context UpdateLessonRequest :=
  { Param := fun _ => "1"
    Query := fun _ => ""
    ShouldBindJSON := .ok sampleUpdateLessonRequest }

/-- A stored course certificate. -/
def sampleCertificate : CourseCertificate :=
  { Id := 1, CreatedAt := 100, UpdatedAt := 120, DeletedAt := none,
    CertificateUrl := "https://example.org/certificates/1.pdf", IssuedAt := 110,
    EnrollmentId := 5, Enrollment := none }

/-- A second stored course certificate. -/
def otherCertificate : CourseCertificate :=
  { Id := 2, CreatedAt := 130, UpdatedAt := 130, DeletedAt := none,
    CertificateUrl := "https://example.org/certificates/2.pdf", IssuedAt := 125,
    EnrollmentId := 6, Enrollment := none }

/-- A gorm handle on a certificates table that holds the two sample rows. -/
def certificateDB : DB CourseCertificate :=
  gormDB (CourseCertificate.schema []) [sampleCertificate, otherCertificate] 1000
    (sampleDB sampleCertificate)

/-- A stored payment whose user was not loaded. -/
def unloadedPayment : Payment :=
  { samplePayment with User := none, Course := none }

/-- A stored enrollment, completed, with progress 40. -/
def sampleEnrollment : Enrollment :=
  { Id := 5, CreatedAt := 90, UpdatedAt := 95, DeletedAt := none, EnrolledAt := 90,
    Progress := 40, Completed := true, StudentId := 8, CourseId := 9, Student := none,
    Course := none }

/-- A request that sets Completed to false and carries progress 0. -/
def sampleUpdateEnrollmentRequest : UpdateEnrollmentRequest :=
  { StudentId := 0, CourseId := 0, EnrolledAt := 0, Progress := 0, Completed := some false }

/-- A request for a certificate of enrollment 5. -/
def sampleCreateCertificateRequest : CreateCourseCertificateRequest :=
  { EnrollmentId := 5, CertificateUrl := "https://example.org/certificates/1.pdf",
    IssuedAt := 110 }

/-- A request that changes the URL of a certificate. -/
def sampleUpdateCertificateRequest : UpdateCourseCertificateRequest :=
  { EnrollmentId := 0, CertificateUrl := "https://example.org/certificates/1b.pdf",
    IssuedAt := 0 }

/-- A handle whose insert succeeds, the new row getting id 3, and whose reads
fail afterwards. -/
def failedReadDB : DB CourseCertificate :=
  { sampleDB sampleCertificate with
    Create := fun item => .ok { item with Id := 3 }
    PreloadFirst := fun _ => .error (.message "connection refused") }

/-- A list request for page 3 with limit 2^62. -/
def hugeLimitContext : Context UpdateLessonRequest :=
  { Param := fun _ => ""
    Query := fun key =>
      if key = "page" then "3" else if key = "limit" then "4611686018427387904" else ""
    ShouldBindJSON := .error (.message "EOF") }

/-- A list request for page 2 with limit 5. -/
def pagedContext : Context UpdateLessonRequest :=
  { Param := fun _ => ""
    Query := fun key => if key = "page" then "2" else if key = "limit" then "5" else ""
    ShouldBindJSON := .error (.message "EOF") }

/-- A list request for page 2^63. -/
def largePageContext : Context UpdateLessonRequest :=
  { Param := fun _ => ""
    Query := fun key => if key = "page" then "9223372036854775808" else ""
    ShouldBindJSON := .error (.message "EOF") }

/-- A stored certificate whose primary key is 0. -/
def unkeyedCertificate : CourseCertificate :=
  { Id := 0, CreatedAt := 100, UpdatedAt := 120, DeletedAt := none,
    CertificateUrl := "https://example.org/certificates/0.pdf", IssuedAt := 110,
    EnrollmentId := 5, Enrollment := none }

/-! ## Theorems -/

/-- A successful lookup returns the second component of a pair of the list
whose first component is the key. -/
theorem lookup_mem (l : List (String × String)) (s f : String)
    (h : l.lookup s = some f) : (s, f) ∈ l := by
  induction l with
  | nil => simp [List.lookup] at h
  | cons p t ih =>
    obtain ⟨k, v⟩ := p
    by_cases hk : s = k
    · subst hk
      simp [List.lookup] at h
      simp [h]
    · have hb : (s == k) = false := by simpa using hk
      simp only [List.lookup, hb] at h
      exact List.mem_cons_of_mem _ (ih h)

/-- A key that occurs in the list is found by lookup. -/
theorem lookup_isSome_of_mem (l : List (String × String)) (s : String)
    (h : s ∈ l.map Prod.fst) : ∃ f, l.lookup s = some f := by
  induction l with
  | nil => simp at h
  | cons p t ih =>
    obtain ⟨k, v⟩ := p
    by_cases hk : s = k
    · subst hk
      exact ⟨v, by simp [List.lookup]⟩
    · have hb : (s == k) = false := by simpa using hk
      have ht : s ∈ t.map Prod.fst := by
        simpa [hk] using h
      obtain ⟨f, hf⟩ := ih ht
      exact ⟨f, by simp only [List.lookup, hb]; exact hf⟩

/-- Every whitelist maps each of its keys to itself. -/
theorem validSortFields_diag (m : Module) :
    ∀ p ∈ m.validSortFields, p.2 = p.1 := by
  cases m <;> decide

/-- No whitelist has the empty string as a key, and all have the key "id". -/
theorem validSortFields_keys (m : Module) :
    "" ∉ m.validSortFields.map Prod.fst ∧ "id" ∈ m.validSortFields.map Prod.fst := by
  cases m <;> decide

/-- The sort field is the requested one when it is a key of the whitelist and
"id" otherwise. -/
theorem sortField_eq (m : Module) (sortBy : Option String) :
    sortField m.validSortFields sortBy =
      match sortBy with
      | none => "id"
      | some s => if s ∈ m.validSortFields.map Prod.fst then s else "id" := by
  cases sortBy with
  | none => rfl
  | some s =>
    simp only [sortField]
    by_cases hmem : s ∈ m.validSortFields.map Prod.fst
    · have hne : s ≠ "" := by
        intro h0
        exact (validSortFields_keys m).1 (h0 ▸ hmem)
      obtain ⟨f, hf⟩ := lookup_isSome_of_mem _ _ hmem
      have hdiag := validSortFields_diag m _ (lookup_mem _ _ _ hf)
      simp only [ne_eq, hne, not_false_eq_true, if_true, hf, hmem]
      exact hdiag
    · have hnone : m.validSortFields.lookup s = none := by
        cases hl : m.validSortFields.lookup s with
        | none => rfl
        | some f =>
          exfalso
          apply hmem
          have h1 := lookup_mem _ _ _ hl
          exact List.mem_map.mpr ⟨(s, f), h1, rfl⟩
      simp only [hnone, hmem, if_false]
      split <;> rfl

/-- The direction is "asc" for the argument "asc" and "desc" otherwise. -/
theorem sortDirection_eq (sortOrder : Option String) :
    sortDirection sortOrder = (if sortOrder = some "asc" then "asc" else "desc") := by
  cases sortOrder with
  | none => rfl
  | some o =>
    simp only [sortDirection, Option.some.injEq]
    by_cases h1 : o = "asc"
    · simp [h1]
    · by_cases h2 : o = "desc"
      · simp [h2]
      · simp [h1, h2]

/-- C1: for every service and every sortBy argument (nil, empty or any string)
the ORDER value that applySorting adds to the query is the sort field, a space
and the direction, where the sort field is a key of the whitelist of that
service: it is the requested string when that string is a key of
validSortFields and "id" otherwise; the direction is "asc" or "desc", so no
text of the caller outside the whitelist reaches the clause. -/
theorem applySorting_field_whitelisted (m : Module) (query : Query)
    (sortBy sortOrder : Option String) :
    (m.applySorting query sortBy sortOrder).Order =
        query.Order ++ [sortField m.validSortFields sortBy ++ " " ++ sortDirection sortOrder] ∧
      sortField m.validSortFields sortBy ∈ m.validSortFields.map Prod.fst ∧
      sortField m.validSortFields sortBy =
        (match sortBy with
         | none => "id"
         | some s => if s ∈ m.validSortFields.map Prod.fst then s else "id") ∧
      (sortDirection sortOrder = "asc" ∨ sortDirection sortOrder = "desc") := by
  refine ⟨rfl, ?_, sortField_eq m sortBy, ?_⟩
  · rw [sortField_eq]
    cases sortBy with
    | none => exact (validSortFields_keys m).2
    | some s =>
      by_cases hmem : s ∈ m.validSortFields.map Prod.fst
      · simp only [hmem, if_true]
      · simp only [hmem, if_false]
        exact (validSortFields_keys m).2
  · rw [sortDirection_eq]
    by_cases h : sortOrder = some "asc"
    · exact Or.inl (if_pos h)
    · exact Or.inr (if_neg h)

/-- C7: the direction used by applySorting is the sortOrder argument when it
is exactly "asc" or "desc" and "desc" otherwise (nil, empty, other spelling
such as "ASC"); the value passed to Order is the resolved field, one space and
the direction, and nil sortBy with nil sortOrder gives "id desc". -/
theorem applySorting_direction (m : Module) (query : Query)
    (sortBy sortOrder : Option String) :
    sortDirection sortOrder = (if sortOrder = some "asc" then "asc" else "desc") ∧
      (∀ o, (o = "asc" ∨ o = "desc") → sortDirection (some o) = o) ∧
      sortDirection none = "desc" ∧ sortDirection (some "") = "desc" ∧
      sortDirection (some "ASC") = "desc" ∧ sortDirection (some "Desc") = "desc" ∧
      (m.applySorting query sortBy sortOrder).Order =
        query.Order ++ [sortField m.validSortFields sortBy ++ " " ++ sortDirection sortOrder] ∧
      (m.applySorting query none none).Order = query.Order ++ ["id desc"] := by
  refine ⟨sortDirection_eq sortOrder, ?_, by decide, by decide, by decide, by decide, rfl, rfl⟩
  intro o ho
  simp only [sortDirection, ho, if_true]

/-- Extraction of saved items distributes over concatenation. -/
theorem savedItems_append {α : Type} (a b : List (Call α)) :
    savedItems (a ++ b) = savedItems a ++ savedItems b := by
  induction a with
  | nil => rfl
  | cons c cs ih => cases c <;> simp [savedItems, ih]

/-- Method GetById makes one call, the preloading lookup. -/
theorem GetById_calls {α : Type} (db : DB α) (id : Nat) :
    (GetById db id).calls = [.PreloadFirst id] := by
  unfold GetById
  cases db.PreloadFirst id <;> rfl

/-- With a stored row and a valid request, Update calls Save once, on the
stored item after the field assignments. -/
theorem LessonService.Update_savedItems (db : DB Lesson) (id : Nat) (req : UpdateLessonRequest)
    (stored : Lesson) (hfirst : db.First id = .ok stored) (hid : id ≠ 0) :
    savedItems (LessonService.Update db id (some req)).calls =
      [LessonService.Update.fields stored req] := by
  have hv : ValidateLessonUpdateRequest (some req) id = none := by
    simp [ValidateLessonUpdateRequest, ValidateUpdateRequest, hid]
  simp only [LessonService.Update, hfirst, hv]
  cases db.Save (LessonService.Update.fields stored req) with
  | error e => rfl
  | ok saved =>
    simp only []
    cases hres : (GetById db saved.Id).result <;>
      simp [savedItems_append, savedItems, GetById_calls]

/-- C2: when the lesson is found and the request passes validation,
LessonService.Update passes exactly one item to Save; in it each of Title,
CourseId, Content, VideoUrl, Duration and OrderNumber is the value of the
request when that value is non-zero (non-empty string, non-zero number) and the
stored value otherwise, and Id, CreatedAt and DeletedAt are those of the
stored row. -/
theorem LessonService.Update_merges (db : DB Lesson) (id : Nat) (req : UpdateLessonRequest)
    (stored : Lesson) (hfirst : db.First id = .ok stored) (hid : id ≠ 0) :
    ∃ item, savedItems (LessonService.Update db id (some req)).calls = [item] ∧
      item.Title = (if req.Title ≠ "" then req.Title else stored.Title) ∧
      item.CourseId = (if req.CourseId ≠ 0 then req.CourseId else stored.CourseId) ∧
      item.Content = (if req.Content ≠ "" then req.Content else stored.Content) ∧
      item.VideoUrl = (if req.VideoUrl ≠ "" then req.VideoUrl else stored.VideoUrl) ∧
      item.Duration = (if req.Duration ≠ 0 then req.Duration else stored.Duration) ∧
      item.OrderNumber = (if req.OrderNumber ≠ 0 then req.OrderNumber else stored.OrderNumber) ∧
      item.Id = stored.Id ∧ item.CreatedAt = stored.CreatedAt ∧
      item.DeletedAt = stored.DeletedAt := by
  refine ⟨_, LessonService.Update_savedItems db id req stored hfirst hid, ?_⟩
  by_cases h1 : req.Title = "" <;> by_cases h2 : req.CourseId = 0 <;>
    by_cases h3 : req.Content = "" <;> by_cases h4 : req.VideoUrl = "" <;>
    by_cases h5 : req.Duration = 0 <;> by_cases h6 : req.OrderNumber = 0 <;>
    simp [LessonService.Update.fields, h1, h2, h3, h4, h5, h6]

/-- Witness of C2: the stored lesson 7 updated with a new title and duration. -/
theorem LessonService.Update_merges_witness :
    ((sampleDB sampleLesson).First 7 = .ok sampleLesson ∧ 7 ≠ 0) ∧
    ∃ item,
      savedItems (LessonService.Update (sampleDB sampleLesson) 7
        (some sampleUpdateLessonRequest)).calls = [item] ∧
      item.Title = (if sampleUpdateLessonRequest.Title ≠ "" then sampleUpdateLessonRequest.Title
        else sampleLesson.Title) ∧
      item.CourseId = (if sampleUpdateLessonRequest.CourseId ≠ 0
        then sampleUpdateLessonRequest.CourseId else sampleLesson.CourseId) ∧
      item.Content = (if sampleUpdateLessonRequest.Content ≠ ""
        then sampleUpdateLessonRequest.Content else sampleLesson.Content) ∧
      item.VideoUrl = (if sampleUpdateLessonRequest.VideoUrl ≠ ""
        then sampleUpdateLessonRequest.VideoUrl else sampleLesson.VideoUrl) ∧
      item.Duration = (if sampleUpdateLessonRequest.Duration ≠ 0
        then sampleUpdateLessonRequest.Duration else sampleLesson.Duration) ∧
      item.OrderNumber = (if sampleUpdateLessonRequest.OrderNumber ≠ 0
        then sampleUpdateLessonRequest.OrderNumber else sampleLesson.OrderNumber) ∧
      item.Id = sampleLesson.Id ∧ item.CreatedAt = sampleLesson.CreatedAt ∧
      item.DeletedAt = sampleLesson.DeletedAt :=
  ⟨⟨rfl, by decide⟩,
    LessonService.Update_merges (sampleDB sampleLesson) 7 sampleUpdateLessonRequest sampleLesson
      rfl (by decide)⟩

/-- The field assignments of PaymentService.Update leave Amount, PaymentMethod
and PaymentStatus of the stored payment as they are, whatever the request. -/
theorem PaymentService.Update.fields_frame (item : Payment) (req : UpdatePaymentRequest) :
    (PaymentService.Update.fields item req).Amount = item.Amount ∧
      (PaymentService.Update.fields item req).PaymentMethod = item.PaymentMethod ∧
      (PaymentService.Update.fields item req).PaymentStatus = item.PaymentStatus := by
  by_cases h1 : req.UserId = 0 <;> by_cases h2 : req.CourseId = 0 <;>
    by_cases h3 : req.TransactionId = "" <;>
    simp [PaymentService.Update.fields, h1, h2, h3]

/-- C3, at the failing input: payment 1 is stored with amount 100, method
"paypal" and status "pending"; the request carries amount 250, method
"credit_card", status "completed" and transaction "tx-2".  The one item passed
to Save has the new transaction id, and still amount 100, method "paypal" and
status "pending". -/
theorem PaymentService.Update_drops_amount_method_status :
    (savedItems (PaymentService.Update (sampleDB samplePayment) 1
        (some sampleUpdatePaymentRequest)).calls).map
      (fun item => (item.Amount, item.PaymentMethod, item.PaymentStatus, item.TransactionId)) =
      [(100, "paypal", "pending", "tx-2")] := by
  decide

/-- Reduction to the int range does not change an integer of that range. -/
theorem wrapInt_of_isInt64 (x : Int) (h : isInt64 x) : wrapInt x = x := by
  unfold isInt64 at h
  unfold wrapInt
  have h1 : (x + 2 ^ 63) % 2 ^ 64 = x + 2 ^ 63 :=
    Int.emod_eq_of_lt (by omega) (by omega)
  omega

/-- Reduction of a product may be done on the first factor beforehand. -/
theorem wrapInt_mul_left (a b : Int) : wrapInt (wrapInt a * b) = wrapInt (a * b) := by
  unfold wrapInt
  have h : ((a + 2 ^ 63) % 2 ^ 64 - 2 ^ 63) * b + 2 ^ 63 ≡ a * b + 2 ^ 63 [ZMOD 2 ^ 64] := by
    have h1 : (a + 2 ^ 63) % 2 ^ 64 ≡ a + 2 ^ 63 [ZMOD 2 ^ 64] := Int.mod_modEq _ _
    have h2 : (a + 2 ^ 63) % 2 ^ 64 - 2 ^ 63 ≡ a [ZMOD 2 ^ 64] := by
      have := h1.sub_right (2 ^ 63)
      simpa using this
    exact (h2.mul_right b).add_right _
  rw [h.eq]

/-- The offset is the product of page minus one and limit, reduced to the int
range. -/
theorem pageOffset_eq_wrap (page limit : Int) :
    pageOffset page limit = wrapInt ((page - 1) * limit) :=
  wrapInt_mul_left _ _

/-- C5: a nil page is treated as 1 and a nil limit as 10, and a successful
GetAll returns a Pagination whose Page is the effective page, whose PageSize is
the effective limit and whose Total is the count answered by the database. -/
theorem GetAll_pagination {α β : Type} (m : Module) (toListResponse : Option α → Option β)
    (db : DB α) (page limit : Option Int) (sortBy sortOrder : Option String)
    (resp : PaginatedResponse β)
    (h : (GetAll m toListResponse db page limit sortBy sortOrder).result = .ok resp) :
    resp.Pagination.Page = (match page with | none => 1 | some p => p) ∧
      resp.Pagination.PageSize = (match limit with | none => 10 | some l => l) ∧
      db.Count { Model := m.TableName } = .ok resp.Pagination.Total := by
  unfold GetAll at h
  simp only [] at h
  cases hc : db.Count { Model := m.TableName } with
  | error e => rw [hc] at h; simp at h
  | ok total =>
    rw [hc] at h
    simp only [] at h
    split at h
    · simp at h
    · simp only [Result.ok.injEq] at h
      subst h
      cases page <;> cases limit <;> exact ⟨rfl, rfl, rfl⟩

/-- Witness of C5: the defaults on a table of one row. -/
theorem GetAll_pagination_witness :
    (GetAll Module.lessons (fun l : Option Lesson => l) (sampleDB sampleLesson)
        none none none none).result =
      .ok { Data := [some sampleLesson],
            Pagination := { Total := 1, Page := 1, PageSize := 10, TotalPages := totalPages 1 10 } } ∧
    ((1 : Int) = (match (none : Option Int) with | none => 1 | some p => p) ∧
      (10 : Int) = (match (none : Option Int) with | none => 10 | some l => l) ∧
      (sampleDB sampleLesson).Count { Model := Module.lessons.TableName } = .ok 1) :=
  ⟨rfl,
    GetAll_pagination Module.lessons (fun l : Option Lesson => l) (sampleDB sampleLesson)
      none none none none
      { Data := [some sampleLesson],
        Pagination := { Total := 1, Page := 1, PageSize := 10, TotalPages := totalPages 1 10 } }
      rfl⟩

/-- C6, as amended: whenever the count succeeds, GetAll executes one Find, on
a query whose row limit is l and whose offset is (p - 1) * l computed in int
arithmetic (wrapping modulo 2^64), for the effective page p and limit l; that
offset is the product (p - 1) * l whenever the product fits in an int; page 1
gives offset 0 for every limit, and the defaults (nil, nil) give offset 0 and
limit 10. -/
theorem GetAll_offset_limit {α β : Type} (m : Module) (toListResponse : Option α → Option β)
    (db : DB α) (page limit : Option Int) (sortBy sortOrder : Option String) (total : Int)
    (hcount : db.Count { Model := m.TableName } = .ok total) :
    (∃ q, foundQueries (GetAll m toListResponse db page limit sortBy sortOrder).calls = [q] ∧
        q.Offset = some (pageOffset (match page with | none => 1 | some p => p)
          (match limit with | none => 10 | some l => l)) ∧
        q.Limit = some (match limit with | none => 10 | some l => l)) ∧
      (∀ p l : Int, pageOffset p l = wrapInt ((p - 1) * l)) ∧
      (∀ p l : Int, isInt64 ((p - 1) * l) → pageOffset p l = (p - 1) * l) ∧
      (∀ l : Int, pageOffset 1 l = 0) ∧
      (∃ q, foundQueries (GetAll m toListResponse db none none sortBy sortOrder).calls = [q] ∧
        q.Offset = some 0 ∧ q.Limit = some 10) := by
  have hq : ∀ pg lm : Option Int,
      ∃ q, foundQueries (GetAll m toListResponse db pg lm sortBy sortOrder).calls = [q] ∧
        q.Offset = some (pageOffset (match pg with | none => 1 | some p => p)
          (match lm with | none => 10 | some l => l)) ∧
        q.Limit = some (match lm with | none => 10 | some l => l) := by
    intro pg lm
    unfold GetAll
    simp only [hcount]
    split <;> cases pg <;> cases lm <;> exact ⟨_, rfl, rfl, rfl⟩
  have h1 : ∀ l : Int, pageOffset 1 l = 0 := by
    intro l
    rw [pageOffset_eq_wrap]
    simp [wrapInt]
  refine ⟨hq page limit, pageOffset_eq_wrap, ?_, h1, ?_⟩
  · intro p l hr
    rw [pageOffset_eq_wrap, wrapInt_of_isInt64 _ hr]
  · obtain ⟨q, hq1, hq2, hq3⟩ := hq none none
    refine ⟨q, hq1, ?_, hq3⟩
    rw [hq2]
    exact congrArg some (h1 10)

/-- Witness of C6: page 3 with limit 20 on a table of one row. -/
theorem GetAll_offset_limit_witness :
    (sampleDB sampleLesson).Count { Model := Module.lessons.TableName } = .ok 1 ∧
    ((∃ q, foundQueries (GetAll Module.lessons (fun l : Option Lesson => l)
          (sampleDB sampleLesson) (some 3) (some 20) none none).calls = [q] ∧
        q.Offset = some (pageOffset 3 20) ∧ q.Limit = some 20) ∧
      (∀ p l : Int, pageOffset p l = wrapInt ((p - 1) * l)) ∧
      (∀ p l : Int, isInt64 ((p - 1) * l) → pageOffset p l = (p - 1) * l) ∧
      (∀ l : Int, pageOffset 1 l = 0) ∧
      (∃ q, foundQueries (GetAll Module.lessons (fun l : Option Lesson => l)
          (sampleDB sampleLesson) none none none none).calls = [q] ∧
        q.Offset = some 0 ∧ q.Limit = some 10)) :=
  ⟨rfl,
    GetAll_offset_limit Module.lessons (fun l : Option Lesson => l) (sampleDB sampleLesson)
      (some 3) (some 20) none none 1 rfl⟩

/-- C6, counterexample: for page 3 and limit 2^63 - 1, a value Atoi parses,
the product (3 - 1) * (2^63 - 1) is 2^64 - 2, while the query that GetAll
executes has offset -2. -/
theorem GetAll_offset_wraps :
    Atoi "9223372036854775807" = .ok 9223372036854775807 ∧
      ((3 : Int) - 1) * 9223372036854775807 = 18446744073709551614 ∧
      pageOffset 3 9223372036854775807 = -2 ∧
      foundQueries (GetAll Module.lessons (fun l : Option Lesson => l) (sampleDB sampleLesson)
          (some 3) (some 9223372036854775807) none none).calls =
        [{ Model := "lessons", Offset := some (-2), Limit := some 9223372036854775807,
           Order := ["id desc"] }] :=
  ⟨rfl, by decide, by decide, rfl⟩

/-- Reading of a bad positive parameter through the result of Atoi. -/
theorem badPositive_iff (s : String) :
    badPositive s ↔ s ≠ "" ∧ (∀ n, Atoi s = .ok n → ¬ 0 < n) := by
  unfold badPositive
  constructor
  · rintro ⟨h1, h2⟩
    exact ⟨h1, fun n hn hpos => h2 ⟨n, hn, hpos⟩⟩
  · rintro ⟨h1, h2⟩
    exact ⟨h1, fun ⟨n, hn, hpos⟩ => h2 n hn hpos⟩

/-- A bad page ends the List handler with 400 and no service call. -/
theorem Controller.List_bad_page {α Req β : Type} (render : ValidationErrors → String)
    (svc : Service α Req β) (ctx : Context Req) (h : badPositive (ctx.Query "page")) :
    Controller.List render svc ctx =
      ⟨⟨400, some (.ErrorResponse "Invalid page number")⟩, []⟩ := by
  rw [badPositive_iff] at h
  obtain ⟨h1, h2⟩ := h
  unfold Controller.List
  simp only [StatusBadRequest]
  cases hA : Atoi (ctx.Query "page") with
  | error e => simp [h1]
  | ok n => simp [h1, h2 n hA]

/-- The page block of the List handler on a page that is not bad. -/
theorem Controller.List_page_ok (s : String) (h : ¬ badPositive s) :
    (if s ≠ "" then
        match Atoi s with
        | .ok pageNum => if pageNum > 0 then Except.ok (some pageNum) else Except.error ()
        | .error _ => Except.error ()
      else (Except.ok none : Except Unit (Option Int))) = Except.ok (parsedInt s) := by
  rw [badPositive_iff] at h
  unfold parsedInt
  by_cases hs : s = ""
  · simp [hs]
  · cases hA : Atoi s with
    | error e =>
      exfalso
      apply h
      refine ⟨hs, fun n hn => ?_⟩
      rw [hA] at hn
      cases hn
    | ok n =>
      by_cases hn : 0 < n
      · simp [hs, hn]
      · exfalso
        apply h
        refine ⟨hs, fun k hk => ?_⟩
        rw [hA] at hk
        cases hk
        exact hn

/-- A bad limit after a good page ends the List handler with 400 and no
service call. -/
theorem Controller.List_bad_limit {α Req β : Type} (render : ValidationErrors → String)
    (svc : Service α Req β) (ctx : Context Req) (hp : ¬ badPositive (ctx.Query "page"))
    (h : badPositive (ctx.Query "limit")) :
    Controller.List render svc ctx =
      ⟨⟨400, some (.ErrorResponse "Invalid limit number")⟩, []⟩ := by
  rw [badPositive_iff] at h
  obtain ⟨h1, h2⟩ := h
  unfold Controller.List
  simp only [StatusBadRequest]
  rw [Controller.List_page_ok _ hp]
  cases hA : Atoi (ctx.Query "limit") with
  | error e => simp [h1]
  | ok n => simp [h1, h2 n hA]


/-- The order block of the List handler on an order that is not bad. -/
theorem Controller.List_order_ok (s : String) (h : ¬ badOrder s) :
    (if s ≠ "" then
        if s = "asc" ∨ s = "desc" then Except.ok (some s) else Except.error ()
      else (Except.ok none : Except Unit (Option String))) = Except.ok (parsedString s) := by
  unfold badOrder at h
  unfold parsedString
  by_cases hs : s = ""
  · simp [hs]
  · by_cases h1 : s = "asc"
    · simp [h1]
    · by_cases h2 : s = "desc"
      · simp [h2]
      · exact absurd ⟨hs, h1, h2⟩ h

/-- A bad order after a good page and limit ends the List handler with 400
and no service call. -/
theorem Controller.List_bad_order {α Req β : Type} (render : ValidationErrors → String)
    (svc : Service α Req β) (ctx : Context Req) (hp : ¬ badPositive (ctx.Query "page"))
    (hl : ¬ badPositive (ctx.Query "limit")) (h : badOrder (ctx.Query "order")) :
    Controller.List render svc ctx =
      ⟨⟨400, some (.ErrorResponse "Invalid sort order. Use \x27asc\x27 or \x27desc\x27")⟩,
        []⟩ := by
  obtain ⟨h1, h2, h3⟩ := h
  unfold Controller.List
  simp only [StatusBadRequest]
  rw [Controller.List_page_ok _ hp, Controller.List_page_ok _ hl]
  simp [h1, h2, h3]

/-- With good parameters the List handler calls GetAll once, with the parsed
values, and answers 500 or 200. -/
theorem Controller.List_calls_GetAll {α Req β : Type} (render : ValidationErrors → String)
    (svc : Service α Req β) (ctx : Context Req) (hp : ¬ badPositive (ctx.Query "page"))
    (hl : ¬ badPositive (ctx.Query "limit")) (ho : ¬ badOrder (ctx.Query "order")) :
    (Controller.List render svc ctx).calls =
        [.GetAll (parsedInt (ctx.Query "page")) (parsedInt (ctx.Query "limit"))
          (parsedString (ctx.Query "sort")) (parsedString (ctx.Query "order"))] ∧
      ((Controller.List render svc ctx).response.Status = 500 ∨
        (Controller.List render svc ctx).response.Status = 200) := by
  unfold Controller.List
  simp only [StatusInternalServerError, StatusOK]
  rw [Controller.List_page_ok _ hp, Controller.List_page_ok _ hl,
    Controller.List_order_ok _ ho]
  have hsort : (if ctx.Query "sort" ≠ "" then some (ctx.Query "sort") else none) =
      parsedString (ctx.Query "sort") := by
    unfold parsedString
    by_cases h : ctx.Query "sort" = "" <;> simp [h]
  rw [hsort]
  simp only []
  split
  · exact ⟨rfl, Or.inl rfl⟩
  · exact ⟨rfl, Or.inr rfl⟩

/-- The three checks of the List handler in terms of the result of Atoi: 400
"Invalid page number" exactly when page is non-empty and Atoi gives no value
greater than 0; otherwise 400 "Invalid limit number" exactly when this holds
of limit; otherwise 400 "Invalid sort order. Use 'asc' or 'desc'" exactly when
order is non-empty and neither "asc" nor "desc".  In these cases the service
is not called; in every other case GetAll is called once with the parsed
values. -/
theorem Controller.List_validation {α Req β : Type} (render : ValidationErrors → String)
    (svc : Service α Req β) (ctx : Context Req) :
    ((Controller.List render svc ctx).response =
        ⟨400, some (.ErrorResponse "Invalid page number")⟩ ↔
      badPositive (ctx.Query "page")) ∧
    ((Controller.List render svc ctx).response =
        ⟨400, some (.ErrorResponse "Invalid limit number")⟩ ↔
      ¬ badPositive (ctx.Query "page") ∧ badPositive (ctx.Query "limit")) ∧
    ((Controller.List render svc ctx).response =
        ⟨400, some (.ErrorResponse "Invalid sort order. Use \x27asc\x27 or \x27desc\x27")⟩ ↔
      ¬ badPositive (ctx.Query "page") ∧ ¬ badPositive (ctx.Query "limit") ∧
        badOrder (ctx.Query "order")) ∧
    (badPositive (ctx.Query "page") ∨ badPositive (ctx.Query "limit") ∨
        badOrder (ctx.Query "order") →
      (Controller.List render svc ctx).calls = []) ∧
    (¬ badPositive (ctx.Query "page") → ¬ badPositive (ctx.Query "limit") →
        ¬ badOrder (ctx.Query "order") →
      (Controller.List render svc ctx).calls =
        [.GetAll (parsedInt (ctx.Query "page")) (parsedInt (ctx.Query "limit"))
          (parsedString (ctx.Query "sort")) (parsedString (ctx.Query "order"))]) := by
  by_cases hp : badPositive (ctx.Query "page")
  · have h := Controller.List_bad_page render svc ctx hp
    simp [h, hp]
  · by_cases hl : badPositive (ctx.Query "limit")
    · have h := Controller.List_bad_limit render svc ctx hp hl
      simp [h, hp, hl]
    · by_cases ho : badOrder (ctx.Query "order")
      · have h := Controller.List_bad_order render svc ctx hp hl ho
        simp [h, hp, hl, ho]
      · obtain ⟨hc, hs⟩ := Controller.List_calls_GetAll render svc ctx hp hl ho
        have hne : ∀ b, (Controller.List render svc ctx).response ≠ ⟨400, b⟩ := by
          intro b hb
          rw [hb] at hs
          simp at hs
        simp [hp, hl, ho, hc, hne]

/-- The value read by the digit loop never decreases. -/
theorem decimal_foldl_ge (cs : List Char) (n : Nat) :
    n ≤ cs.foldl (fun n c => n * 10 + (c.toNat - 48)) n := by
  induction cs generalizing n with
  | nil => exact Nat.le_refl _
  | cons c cs ih =>
    simp only [List.foldl_cons]
    exact Nat.le_trans (by omega) (ih _)

/-- The digit loop succeeds exactly on digit strings whose value stays within
the maximum. -/
theorem ParseUint.loop_ok_iff (maxVal : Nat) (hmax : maxVal < 2 ^ 64) (cs : List Char)
    (n : Nat) (hn : n ≤ maxVal) (v : Nat) :
    ParseUint.loop maxVal cs n = .ok v ↔
      (∀ c ∈ cs, 48 ≤ c.toNat ∧ c.toNat ≤ 57) ∧
        cs.foldl (fun n c => n * 10 + (c.toNat - 48)) n = v ∧ v ≤ maxVal := by
  induction cs generalizing n with
  | nil =>
    simp only [ParseUint.loop, Except.ok.injEq, List.not_mem_nil, false_implies, implies_true,
      List.foldl_nil, true_and]
    constructor
    · intro h; subst h; exact ⟨rfl, hn⟩
    · intro h; exact h.1
  | cons c cs ih =>
    simp only [ParseUint.loop, List.foldl_cons, List.mem_cons, forall_eq_or_imp]
    by_cases hd : 48 ≤ c.toNat ∧ c.toNat ≤ 57
    · simp only [hd, and_self, if_true, true_and]
      have hge := decimal_foldl_ge cs (n * 10 + (c.toNat - 48))
      by_cases hcut : n ≥ (2 ^ 64 - 1) / 10 + 1
      · simp only [hcut, if_true]
        constructor
        · intro h; cases h
        · rintro ⟨_, h2, h3⟩
          exfalso
          have : (2 ^ 64 - 1) / 10 + 1 = 1844674407370955162 := by norm_num
          rw [this] at hcut
          have h64 : (2 : Nat) ^ 64 = 18446744073709551616 := by norm_num
          omega
      · simp only [hcut, if_false]
        by_cases hov : n * 10 + (c.toNat - 48) ≥ 2 ^ 64 ∨ n * 10 + (c.toNat - 48) > maxVal
        · simp only [hov, if_true]
          constructor
          · intro h; cases h
          · rintro ⟨_, h2, h3⟩
            exfalso
            rcases hov with h | h <;> omega
        · simp only [hov, if_false]
          have hn1 : n * 10 + (c.toNat - 48) ≤ maxVal := by
            by_contra hc
            exact hov (Or.inr (by omega))
          exact ih _ hn1
    · simp only [hd, if_false, false_and]
      constructor
      · intro h; cases h
      · intro h; exact h.elim

/-- ParseUint with 32 bits succeeds exactly on the base-10 unsigned integers
that fit in 32 bits, with their value. -/
theorem ParseUint_32_ok_iff (s : String) (v : Nat) :
    ParseUint s 32 = .ok v ↔ isUint32 s ∧ v = decimalValue s.toList := by
  unfold ParseUint isUint32 decimalValue
  have hl := ParseUint.loop_ok_iff (2 ^ 32 - 1) (by norm_num) s.toList 0 (Nat.zero_le _) v
  have h32 : (2 : Nat) ^ 32 - 1 = 4294967295 := by norm_num
  cases hs : s.toList with
  | nil => simp
  | cons c cs =>
    rw [hs] at hl
    simp only []
    rw [hl, h32]
    constructor
    · rintro ⟨h1, h2, h3⟩
      exact ⟨⟨by simp, h1, by rw [h2]; exact h3⟩, h2.symm⟩
    · rintro ⟨⟨_, h1, h3⟩, h2⟩
      exact ⟨h1, h2.symm, by rw [h2]; exact h3⟩

/-- ParseUint with 32 bits fails exactly on the strings that are not base-10
unsigned integers fitting in 32 bits. -/
theorem ParseUint_32_error_iff (s : String) :
    (∃ e, ParseUint s 32 = .error e) ↔ ¬ isUint32 s := by
  constructor
  · rintro ⟨e, he⟩ hu
    have := (ParseUint_32_ok_iff s _).mpr ⟨hu, rfl⟩
    rw [he] at this
    cases this
  · intro hu
    cases h : ParseUint s 32 with
    | error e => exact ⟨e, rfl⟩
    | ok v => exact absurd ((ParseUint_32_ok_iff s v).mp h).1 hu

/-- C9, counterexample: for the id "1", a base-10 unsigned integer that fits
in 32 bits, and a body that does not bind, the Update handler answers 400
with the message of the binding error and does not call the service. -/
theorem Controller.Update_valid_id_no_call :
    isUint32 (sampleBadBodyContext.Param "id") ∧
      (Controller.Update sampleRender sampleService (fun l : Option Lesson => l)
        sampleBadBodyContext).calls = [] ∧
      (Controller.Update sampleRender sampleService (fun l : Option Lesson => l)
        sampleBadBodyContext).response.Status = 400 := by
  have h1 : isUint32 (sampleBadBodyContext.Param "id") := by
    refine ⟨by decide, by decide, by decide⟩
  have h2 : ParseUint (sampleBadBodyContext.Param "id") 32 = .ok 1 :=
    (ParseUint_32_ok_iff _ _).mpr ⟨h1, by decide⟩
  refine ⟨h1, ?_, ?_⟩ <;>
    · unfold Controller.Update
      rw [h2]
      rfl

/-- C9, as amended: Get and Delete answer 400 "Invalid id format" exactly when
the id parameter is not a base-10 unsigned integer that fits in 32 bits, and
then do not call the service; for every other id they call the service once
with the parsed value.  Update answers 400 "Invalid id format" without calling
the service when the id is not such an integer; for every other id it calls
the service once with the parsed value and the bound request when the body
binds, and answers 400 with the message of the binding error, without calling
the service, when it does not. -/
theorem Controller.id_validation {α Req β R : Type} (render : ValidationErrors → String)
    (svc : Service α Req β) (toResponse : Option α → Option R) (ctx : Context Req) :
    (((Controller.Get svc toResponse ctx).response =
          ⟨400, some (.ErrorResponse "Invalid id format")⟩ ↔ ¬ isUint32 (ctx.Param "id")) ∧
      ((Controller.Delete render svc ctx).response =
          ⟨400, some (.ErrorResponse "Invalid id format")⟩ ↔ ¬ isUint32 (ctx.Param "id"))) ∧
    (¬ isUint32 (ctx.Param "id") →
      (Controller.Get svc toResponse ctx).calls = [] ∧
      (Controller.Delete render svc ctx).calls = [] ∧
      (Controller.Update render svc toResponse ctx).calls = [] ∧
      (Controller.Update render svc toResponse ctx).response =
        ⟨400, some (.ErrorResponse "Invalid id format")⟩) ∧
    (isUint32 (ctx.Param "id") →
      (Controller.Get svc toResponse ctx).calls =
        [.GetById (decimalValue (ctx.Param "id").toList)] ∧
      (Controller.Delete render svc ctx).calls =
        [.Delete (decimalValue (ctx.Param "id").toList)] ∧
      (∀ req, ctx.ShouldBindJSON = .ok req →
        (Controller.Update render svc toResponse ctx).calls =
          [.Update (decimalValue (ctx.Param "id").toList) req]) ∧
      (∀ err, ctx.ShouldBindJSON = .error err →
        (Controller.Update render svc toResponse ctx).calls = [] ∧
        (Controller.Update render svc toResponse ctx).response =
          ⟨400, some (.ErrorResponse (err.Error render))⟩)) := by
  by_cases hu : isUint32 (ctx.Param "id")
  · have hp : ParseUint (ctx.Param "id") 32 = .ok (decimalValue (ctx.Param "id").toList) :=
      (ParseUint_32_ok_iff _ _).mpr ⟨hu, rfl⟩
    refine ⟨⟨?_, ?_⟩, fun h => absurd hu h, fun _ => ⟨?_, ?_, ?_, ?_⟩⟩
    · unfold Controller.Get
      rw [hp]
      simp only [hu, not_true_eq_false, iff_false]
      cases svc.GetById (decimalValue (ctx.Param "id").toList) <;>
        simp [StatusNotFound, StatusOK]
    · unfold Controller.Delete
      rw [hp]
      simp only [hu, not_true_eq_false, iff_false]
      cases svc.Delete (decimalValue (ctx.Param "id").toList) <;>
        simp [StatusNotFound, StatusNoContent, StatusInternalServerError]
      split <;> simp
    · unfold Controller.Get
      rw [hp]
      simp only []
      cases svc.GetById (decimalValue (ctx.Param "id").toList) <;> rfl
    · unfold Controller.Delete
      rw [hp]
      simp only []
      cases svc.Delete (decimalValue (ctx.Param "id").toList) with
      | none => rfl
      | some e => simp only []; split <;> rfl
    · intro req hreq
      unfold Controller.Update
      rw [hp, hreq]
      simp only []
      cases svc.Update (decimalValue (ctx.Param "id").toList) req with
      | ok item => rfl
      | error e => simp only []; split <;> rfl
    · intro err herr
      unfold Controller.Update
      rw [hp, herr]
      exact ⟨rfl, rfl⟩
  · obtain ⟨e, he⟩ := (ParseUint_32_error_iff _).mpr hu
    refine ⟨⟨?_, ?_⟩, fun _ => ⟨?_, ?_, ?_, ?_⟩, fun h => absurd h hu⟩
    · unfold Controller.Get
      rw [he]
      simp [hu, StatusBadRequest]
    · unfold Controller.Delete
      rw [he]
      simp [hu, StatusBadRequest]
    · unfold Controller.Get
      rw [he]
    · unfold Controller.Delete
      rw [he]
    · unfold Controller.Update
      rw [he]
    · unfold Controller.Update
      rw [he]
      rfl

/-- The model of strings.Contains decides the substring relation. -/
theorem Contains_iff (s substr : String) :
    Contains s substr = true ↔ substr.toList <:+: s.toList := by
  simp [Contains]

/-- C10: for every error returned by Service.Update or Service.Delete, the
controller answers 404 with the error body "Item not found" exactly when the
message of the error contains "record not found", and otherwise answers 500
with the message prefixed by "Failed to update item: ", respectively "Failed to
delete item: ". -/
theorem Controller.error_mapping {α Req β R : Type} (render : ValidationErrors → String)
    (svc : Service α Req β) (toResponse : Option α → Option R) (ctx : Context Req) (id : Nat)
    (hid : ParseUint (ctx.Param "id") 32 = .ok id) :
    (∀ req err, ctx.ShouldBindJSON = .ok req → svc.Update id req = .error err →
      ((Controller.Update render svc toResponse ctx).response =
          ⟨404, some (.ErrorResponse "Item not found")⟩ ↔
        "record not found".toList <:+: (err.Error render).toList) ∧
      (¬ "record not found".toList <:+: (err.Error render).toList →
        (Controller.Update render svc toResponse ctx).response =
          ⟨500, some (.ErrorResponse ("Failed to update item: " ++ err.Error render))⟩)) ∧
    (∀ err, svc.Delete id = some err →
      ((Controller.Delete render svc ctx).response =
          ⟨404, some (.ErrorResponse "Item not found")⟩ ↔
        "record not found".toList <:+: (err.Error render).toList) ∧
      (¬ "record not found".toList <:+: (err.Error render).toList →
        (Controller.Delete render svc ctx).response =
          ⟨500, some (.ErrorResponse ("Failed to delete item: " ++ err.Error render))⟩)) := by
  constructor
  · intro req err hreq herr
    unfold Controller.Update
    rw [hid, hreq]
    simp only []
    rw [herr]
    simp only []
    by_cases hc : "record not found".toList <:+: (err.Error render).toList
    · have hb : Contains (err.Error render) "record not found" = true :=
        (Contains_iff _ _).mpr hc
      simp only [hb, if_true]
      exact ⟨⟨fun _ => hc, fun _ => rfl⟩, fun h => absurd hc h⟩
    · have hb : Contains (err.Error render) "record not found" = false := by
        rw [← Bool.not_eq_true, Contains_iff]
        exact hc
      simp only [hb, Bool.false_eq_true, if_false]
      refine ⟨⟨fun h => ?_, fun h => absurd h hc⟩, fun _ => rfl⟩
      have hs := congrArg Response.Status h
      simp [StatusInternalServerError] at hs
  · intro err herr
    unfold Controller.Delete
    rw [hid]
    simp only []
    rw [herr]
    simp only []
    by_cases hc : "record not found".toList <:+: (err.Error render).toList
    · have hb : Contains (err.Error render) "record not found" = true :=
        (Contains_iff _ _).mpr hc
      simp only [hb, if_true]
      exact ⟨⟨fun _ => hc, fun _ => rfl⟩, fun h => absurd hc h⟩
    · have hb : Contains (err.Error render) "record not found" = false := by
        rw [← Bool.not_eq_true, Contains_iff]
        exact hc
      simp only [hb, Bool.false_eq_true, if_false]
      refine ⟨⟨fun h => ?_, fun h => absurd h hc⟩, fun _ => rfl⟩
      have hs := congrArg Response.Status h
      simp [StatusInternalServerError] at hs

/-- The id "1" parses to 1. -/
theorem ParseUint_one : ParseUint "1" 32 = .ok 1 :=
  (ParseUint_32_ok_iff _ _).mpr ⟨⟨by decide, by decide, by decide⟩, by decide⟩

/-- The model of Atoi on sample strings: a sign is accepted, the int range is
enforced, anything else than digits is refused. -/
theorem Atoi_samples :
    Atoi "10" = .ok 10 ∧ Atoi "+3" = .ok 3 ∧ Atoi "007" = .ok 7 ∧ Atoi "0" = .ok 0 ∧
      Atoi "-2" = .ok (-2) ∧ Atoi "" = .error .ErrSyntax ∧ Atoi "+" = .error .ErrSyntax ∧
      Atoi "1.5" = .error .ErrSyntax ∧ Atoi "abc" = .error .ErrSyntax ∧
      Atoi "9223372036854775807" = .ok 9223372036854775807 ∧
      Atoi "9223372036854775808" = .error .ErrRange ∧
      Atoi "-9223372036854775808" = .ok (-9223372036854775808) :=
  ⟨rfl, rfl, rfl, rfl, rfl, rfl, rfl, rfl, rfl, rfl, rfl, rfl⟩

/-- The model of ParseUint with 32 bits on sample strings. -/
theorem ParseUint_samples :
    ParseUint "4294967295" 32 = .ok 4294967295 ∧ ParseUint "4294967296" 32 = .error .ErrRange ∧
      ParseUint "-1" 32 = .error .ErrSyntax ∧ ParseUint "+1" 32 = .error .ErrSyntax ∧
      ParseUint "" 32 = .error .ErrSyntax ∧ ParseUint "12a" 32 = .error .ErrSyntax :=
  ⟨rfl, rfl, rfl, rfl, rfl, rfl⟩

/-- Witness of C10: id 1 on a service whose database is down. -/
theorem Controller.error_mapping_witness :
    ParseUint (sampleContext.Param "id") 32 = .ok 1 ∧
    ((∀ req err, sampleContext.ShouldBindJSON = .ok req →
        failingService.Update 1 req = .error err →
      ((Controller.Update sampleRender failingService (fun l : Option Lesson => l)
            sampleContext).response =
          ⟨404, some (.ErrorResponse "Item not found")⟩ ↔
        "record not found".toList <:+: (err.Error sampleRender).toList) ∧
      (¬ "record not found".toList <:+: (err.Error sampleRender).toList →
        (Controller.Update sampleRender failingService (fun l : Option Lesson => l)
            sampleContext).response =
          ⟨500, some (.ErrorResponse ("Failed to update item: " ++ err.Error sampleRender))⟩)) ∧
    (∀ err, failingService.Delete 1 = some err →
      ((Controller.Delete sampleRender failingService sampleContext).response =
          ⟨404, some (.ErrorResponse "Item not found")⟩ ↔
        "record not found".toList <:+: (err.Error sampleRender).toList) ∧
      (¬ "record not found".toList <:+: (err.Error sampleRender).toList →
        (Controller.Delete sampleRender failingService sampleContext).response =
          ⟨500, some (.ErrorResponse ("Failed to delete item: " ++ err.Error sampleRender))⟩))) :=
  ⟨ParseUint_one,
    Controller.error_mapping sampleRender failingService (fun l : Option Lesson => l)
      sampleContext 1 ParseUint_one⟩

/-- Rounding to even never goes below the floor. -/
theorem floor_le_roundHalfEven (q : ℚ) : ⌊q⌋ ≤ roundHalfEven q := by
  unfold roundHalfEven
  simp only []
  split_ifs <;> omega

/-- Rounding to even never goes above the ceiling. -/
theorem roundHalfEven_le_ceil (q : ℚ) : roundHalfEven q ≤ ⌈q⌉ := by
  unfold roundHalfEven
  simp only []
  have hfc : ⌊q⌋ ≤ ⌈q⌉ := Int.floor_le_ceil q
  have hpos : ∀ _ : ¬ (q - ⌊q⌋ < 1 / 2), ⌊q⌋ + 1 ≤ ⌈q⌉ := by
    intro h
    have h1 : (⌊q⌋ : ℚ) < q := by linarith
    have h2 : ⌊q⌋ < ⌈q⌉ := by
      have h3 : q ≤ ⌈q⌉ := Int.le_ceil q
      have h4 : (⌊q⌋ : ℚ) < ⌈q⌉ := lt_of_lt_of_le h1 h3
      exact_mod_cast h4
    omega
  split_ifs with h1 h2 h3
  · exact hfc
  · exact hpos h1
  · exact hfc
  · exact hpos h1

/-- Rounding to even moves down by at most one half. -/
theorem sub_half_le_roundHalfEven (q : ℚ) : q - 1 / 2 ≤ roundHalfEven q := by
  unfold roundHalfEven
  simp only []
  have hlt : q < ⌊q⌋ + 1 := Int.lt_floor_add_one q
  split_ifs with h1 h2 h3
  · linarith
  · push_cast; linarith
  · have : q - ⌊q⌋ = 1 / 2 := le_antisymm (not_lt.mp h2) (not_lt.mp h1)
    linarith
  · push_cast; linarith

/-- An integer below the argument is below its rounding. -/
theorem le_roundHalfEven_of_le (q : ℚ) (n : Int) (h : (n : ℚ) ≤ q) : n ≤ roundHalfEven q :=
  le_trans (Int.le_floor.mpr h) (floor_le_roundHalfEven q)

/-- An integer above the argument is above its rounding. -/
theorem roundHalfEven_le_of_le (q : ℚ) (n : Int) (h : q ≤ (n : ℚ)) : roundHalfEven q ≤ n :=
  le_trans (roundHalfEven_le_ceil q) (Int.ceil_le.mpr h)

/-- An integer more than one half below the argument is strictly below its
rounding. -/
theorem lt_roundHalfEven_of_lt (q : ℚ) (n : Int) (h : (n : ℚ) + 1 / 2 < q) :
    n < roundHalfEven q := by
  have h1 := sub_half_le_roundHalfEven q
  have h2 : (n : ℚ) < roundHalfEven q := by linarith
  exact_mod_cast h2


/-- The unit in the last place of the binade of a positive rational is positive. -/
theorem ulp_pos (e : Int) : (0 : ℚ) < 2 ^ (e - 52) :=
  zpow_pos (by norm_num) _

/-- Rounding of a positive rational, unfolded. -/
theorem roundFloat64_of_pos (q : ℚ) (hq : 0 < q) :
    roundFloat64 q = roundHalfEven (q / 2 ^ (Int.log 2 q - 52)) * 2 ^ (Int.log 2 q - 52) := by
  unfold roundFloat64
  simp only [ne_of_gt hq, if_false, abs_of_pos hq]

/-- A grid point of the binade below the argument is below its rounding. -/
theorem le_roundFloat64 (q : ℚ) (hq : 0 < q) (n : Int)
    (h : (n : ℚ) * 2 ^ (Int.log 2 q - 52) ≤ q) :
    (n : ℚ) * 2 ^ (Int.log 2 q - 52) ≤ roundFloat64 q := by
  rw [roundFloat64_of_pos q hq]
  have hu := ulp_pos (Int.log 2 q)
  have h1 : (n : ℚ) ≤ q / 2 ^ (Int.log 2 q - 52) := (le_div_iff₀ hu).mpr h
  have h2 := le_roundHalfEven_of_le _ n h1
  have h3 : (n : ℚ) ≤ roundHalfEven (q / 2 ^ (Int.log 2 q - 52)) := by exact_mod_cast h2
  exact mul_le_mul_of_nonneg_right h3 (le_of_lt hu)

/-- A grid point of the binade above the argument is above its rounding. -/
theorem roundFloat64_le (q : ℚ) (hq : 0 < q) (n : Int)
    (h : q ≤ (n : ℚ) * 2 ^ (Int.log 2 q - 52)) :
    roundFloat64 q ≤ (n : ℚ) * 2 ^ (Int.log 2 q - 52) := by
  rw [roundFloat64_of_pos q hq]
  have hu := ulp_pos (Int.log 2 q)
  have h1 : q / 2 ^ (Int.log 2 q - 52) ≤ (n : ℚ) := (div_le_iff₀ hu).mpr h
  have h2 := roundHalfEven_le_of_le _ n h1
  have h3 : (roundHalfEven (q / 2 ^ (Int.log 2 q - 52)) : ℚ) ≤ n := by exact_mod_cast h2
  exact mul_le_mul_of_nonneg_right h3 (le_of_lt hu)

/-- A grid point more than half a unit below the argument is strictly below
its rounding. -/
theorem lt_roundFloat64 (q : ℚ) (hq : 0 < q) (n : Int)
    (h : (n : ℚ) * 2 ^ (Int.log 2 q - 52) + 2 ^ (Int.log 2 q - 52) / 2 < q) :
    (n : ℚ) * 2 ^ (Int.log 2 q - 52) < roundFloat64 q := by
  rw [roundFloat64_of_pos q hq]
  have hu := ulp_pos (Int.log 2 q)
  have h1 : (n : ℚ) + 1 / 2 < q / 2 ^ (Int.log 2 q - 52) := by
    rw [lt_div_iff₀ hu]
    linarith
  have h2 := lt_roundHalfEven_of_lt _ n h1
  have h3 : (n : ℚ) < roundHalfEven (q / 2 ^ (Int.log 2 q - 52)) := by exact_mod_cast h2
  exact mul_lt_mul_of_pos_right h3 hu

/-- The power of two at the bottom of the binade is a grid point. -/
theorem two_zpow_log_eq (e : Int) : ((2 ^ 52 : Int) : ℚ) * 2 ^ (e - 52) = 2 ^ e := by
  have h : ((2 ^ 52 : Int) : ℚ) = (2 : ℚ) ^ (52 : Int) := by norm_num
  rw [h, ← zpow_add₀ (by norm_num : (2 : ℚ) ≠ 0)]
  congr 1
  ring

/-- The rounding of a positive rational is at least the bottom of its binade. -/
theorem two_zpow_log_le_roundFloat64 (q : ℚ) (hq : 0 < q) :
    (2 : ℚ) ^ Int.log 2 q ≤ roundFloat64 q := by
  have h := le_roundFloat64 q hq (2 ^ 52) (by
    rw [two_zpow_log_eq]
    exact_mod_cast Int.zpow_log_le_self (by norm_num : 1 < 2) hq)
  rwa [two_zpow_log_eq] at h

/-- The rounding of a positive rational is positive. -/
theorem roundFloat64_pos (q : ℚ) (hq : 0 < q) : 0 < roundFloat64 q :=
  lt_of_lt_of_le (zpow_pos (by norm_num) _) (two_zpow_log_le_roundFloat64 q hq)

/-- An integer is a grid point of every binade with exponent at most 52. -/
theorem int_on_grid (c : Int) (e : Int) (he : e ≤ 52) :
    ∃ n : Int, (c : ℚ) = (n : ℚ) * 2 ^ (e - 52) := by
  refine ⟨c * 2 ^ (52 - e).toNat, ?_⟩
  have h1 : ((52 - e).toNat : Int) = 52 - e := Int.toNat_of_nonneg (by omega)
  push_cast
  rw [mul_assoc, ← zpow_natCast (2 : ℚ) (52 - e).toNat, h1,
    ← zpow_add₀ (by norm_num : (2 : ℚ) ≠ 0)]
  have : 52 - e + (e - 52) = 0 := by ring
  rw [this, zpow_zero, mul_one]

/-- A positive rational on the grid of its own binade is a float64. -/
theorem roundFloat64_of_grid (q : ℚ) (hq : 0 < q) (n : Int)
    (h : q = (n : ℚ) * 2 ^ (Int.log 2 q - 52)) : roundFloat64 q = q := by
  have h1 := le_roundFloat64 q hq n (le_of_eq h.symm)
  have h2 := roundFloat64_le q hq n (le_of_eq h)
  rw [← h] at h1 h2
  exact le_antisymm h2 h1

/-- A positive rational below 2^53 lies in a binade of exponent at most 52. -/
theorem log_le_52 (q : ℚ) (hq : 0 < q) (h : q < 2 ^ 53) : Int.log 2 q ≤ 52 := by
  have h1 : q < ((2 : ℕ) : ℚ) ^ (53 : Int) := by
    have : (((2 : ℕ) : ℚ)) ^ (53 : Int) = 2 ^ 53 := by norm_num
    rw [this]; exact h
  have h2 := (Int.lt_zpow_iff_log_lt (by norm_num : 1 < 2) hq).mp h1
  omega

/-- A rational that is at least 1 lies in a binade of exponent at least 0. -/
theorem log_nonneg_of_one_le (q : ℚ) (h : 1 ≤ q) : 0 ≤ Int.log 2 q := by
  have hq : 0 < q := lt_of_lt_of_le one_pos h
  have h1 : ((2 : ℕ) : ℚ) ^ (0 : Int) ≤ q := by simpa using h
  exact (Int.zpow_le_iff_le_log (by norm_num : 1 < 2) hq).mp h1

/-- Every integer from 1 to 2^53 is a float64. -/
theorem roundFloat64_int (k : Int) (h0 : 0 < k) (hk : k ≤ 2 ^ 53) :
    roundFloat64 (k : ℚ) = k := by
  have hq : (0 : ℚ) < k := by exact_mod_cast h0
  rcases lt_or_eq_of_le hk with hlt | heq
  · have hltq : (k : ℚ) < 2 ^ 53 := by exact_mod_cast hlt
    obtain ⟨n, hn⟩ := int_on_grid k (Int.log 2 (k : ℚ)) (log_le_52 _ hq hltq)
    exact roundFloat64_of_grid _ hq n hn
  · have hkq : (k : ℚ) = ((2 : ℕ) : ℚ) ^ (53 : Int) := by
      rw [heq]; norm_num
    have hlog : Int.log 2 (k : ℚ) = 53 := by
      rw [hkq]; exact Int.log_zpow (by norm_num) 53
    refine roundFloat64_of_grid _ hq (2 ^ 52) ?_
    rw [two_zpow_log_eq, hlog, hkq]
    norm_num

/-- Conversion of an integer from 0 to 2^53 to float64 is exact. -/
theorem toFloat64_exact (k : Int) (h0 : 0 ≤ k) (hk : k ≤ 2 ^ 53) : toFloat64 k = k := by
  unfold toFloat64
  rcases lt_or_eq_of_le h0 with hlt | heq
  · exact roundFloat64_int k hlt hk
  · rw [← heq]; simp [roundFloat64]

/-- The float64 of a positive integer above 2^53 is at least 2^53. -/
theorem toFloat64_large (l : Int) (hl : 2 ^ 53 < l) : (2 : ℚ) ^ 53 ≤ toFloat64 l := by
  unfold toFloat64
  have hq : (0 : ℚ) < l := by
    have : (0 : Int) < l := lt_trans (by norm_num) hl
    exact_mod_cast this
  have h1 : ((2 : ℕ) : ℚ) ^ (53 : Int) ≤ (l : ℚ) := by
    have : ((2 : ℕ) : ℚ) ^ (53 : Int) = ((2 ^ 53 : Int) : ℚ) := by norm_num
    rw [this]
    exact_mod_cast le_of_lt hl
  have h2 : 53 ≤ Int.log 2 (l : ℚ) := (Int.zpow_le_iff_le_log (by norm_num) hq).mp h1
  have h3 := two_zpow_log_le_roundFloat64 (l : ℚ) hq
  have h4 : (2 : ℚ) ^ (53 : Int) ≤ 2 ^ Int.log 2 (l : ℚ) :=
    zpow_le_zpow_right₀ (by norm_num) h2
  have h5 : (2 : ℚ) ^ (53 : Int) = 2 ^ 53 := by norm_num
  rw [h5] at h4
  exact le_trans h4 h3

/-- The quotient of two integers from 1 to 2^53, rounded to float64, has the
ceiling of the exact quotient. -/
theorem ceil_roundFloat64_div (t l : Int) (ht0 : 0 < t) (ht : t ≤ 2 ^ 53) (hl0 : 0 < l) :
    ⌈roundFloat64 ((t : ℚ) / l)⌉ = ⌈(t : ℚ) / l⌉ := by
  have htq : (0 : ℚ) < t := by exact_mod_cast ht0
  have hlq : (0 : ℚ) < l := by exact_mod_cast hl0
  have hl1 : (1 : ℚ) ≤ l := by exact_mod_cast hl0
  have hx : (0 : ℚ) < (t : ℚ) / l := div_pos htq hlq
  have hxt : (t : ℚ) / l ≤ t := div_le_self (le_of_lt htq) hl1
  have ht53 : (t : ℚ) ≤ 2 ^ 53 := by exact_mod_cast ht
  set x : ℚ := (t : ℚ) / l with hxdef
  set c : Int := ⌈x⌉ with hcdef
  have hxc : x ≤ c := Int.le_ceil x
  have hcx : (c : ℚ) - 1 < x := by
    have := Int.ceil_lt_add_one x
    linarith
  have hc0 : 0 < c := Int.ceil_pos.mpr hx
  have hc53 : c ≤ 2 ^ 53 := Int.ceil_le.mpr (by push_cast; linarith)
  rw [Int.ceil_eq_iff]
  rcases eq_or_lt_of_le hxc with heq | hlt
  · -- the quotient is an integer
    have h := roundFloat64_int c hc0 hc53
    rw [← heq] at h
    rw [h]
    exact ⟨hcx, hxc⟩
  · -- the quotient lies strictly between c - 1 and c
    have hc53q : (c : ℚ) ≤ 2 ^ 53 := by exact_mod_cast hc53
    have he : Int.log 2 x ≤ 52 := log_le_52 x hx (lt_of_lt_of_le hlt hc53q)
    constructor
    · -- lower bound
      rcases eq_or_lt_of_le (show (1 : Int) ≤ c from hc0) with h1 | h1
      · have := roundFloat64_pos x hx
        rw [← h1]
        simpa using this
      · have hx1 : (1 : ℚ) ≤ x := by
          have : (1 : ℚ) ≤ (c : ℚ) - 1 := by
            have : (2 : Int) ≤ c := h1
            have h2 : (2 : ℚ) ≤ c := by exact_mod_cast this
            linarith
          linarith
        have he0 := log_nonneg_of_one_le x hx1
        obtain ⟨n, hn⟩ := int_on_grid (c - 1) (Int.log 2 x) he
        have hn' : (c : ℚ) - 1 = (n : ℚ) * 2 ^ (Int.log 2 x - 52) := by
          rw [← hn]; push_cast; ring
        rw [hn']
        apply lt_roundFloat64 x hx n
        rw [← hn']
        -- the bottom of the binade is an integer not above c - 1
        have hpow : (2 : ℚ) ^ Int.log 2 x = ((2 ^ (Int.log 2 x).toNat : Int) : ℚ) := by
          have h3 : ((Int.log 2 x).toNat : Int) = Int.log 2 x := Int.toNat_of_nonneg he0
          push_cast
          rw [← zpow_natCast (2 : ℚ) (Int.log 2 x).toNat, h3]
        have hle : (2 : ℚ) ^ Int.log 2 x ≤ x := by
          exact_mod_cast Int.zpow_log_le_self (by norm_num : 1 < 2) hx
        have hmc : (2 ^ (Int.log 2 x).toNat : Int) ≤ c - 1 := by
          have h4 : ((2 ^ (Int.log 2 x).toNat : Int) : ℚ) < c := by
            rw [← hpow]; exact lt_of_le_of_lt hle hlt
          have h5 : (2 ^ (Int.log 2 x).toNat : Int) < c := by exact_mod_cast h4
          omega
        have hmcq : (2 : ℚ) ^ Int.log 2 x ≤ (c : ℚ) - 1 := by
          rw [hpow]; exact_mod_cast hmc
        -- (c - 1) * l ≤ t - 1
        have hxl : x * l = t := by
          rw [hxdef]; field_simp
        have hcl : (c - 1) * l < t := by
          have h6 : ((c : ℚ) - 1) * l < x * l := mul_lt_mul_of_pos_right hcx hlq
          rw [hxl] at h6
          exact_mod_cast h6
        have hcl' : ((c : ℚ) - 1) * l ≤ (t : ℚ) - 1 := by
          have h7 : (c - 1) * l ≤ t - 1 := by omega
          exact_mod_cast h7
        -- half a unit in the last place is below 1 / l
        have hhalf : (2 : ℚ) ^ (Int.log 2 x - 52) / 2 * l < 1 := by
          have h8 : (2 : ℚ) ^ Int.log 2 x * l ≤ (t : ℚ) - 1 :=
            le_trans (mul_le_mul_of_nonneg_right hmcq (le_of_lt hlq)) hcl'
          have h9 : (2 : ℚ) ^ Int.log 2 x * l < 2 ^ 53 := by linarith
          have h10 : (2 : ℚ) ^ (Int.log 2 x - 52) / 2 * l =
              (2 : ℚ) ^ Int.log 2 x * l / 2 ^ 53 := by
            rw [zpow_sub₀ (by norm_num : (2 : ℚ) ≠ 0)]
            norm_num
            ring
          rw [h10, div_lt_one (by norm_num)]
          exact h9
        have hgoal : ((c : ℚ) - 1 + 2 ^ (Int.log 2 x - 52) / 2) * l < x * l := by
          rw [hxl, add_mul]
          linarith
        exact lt_of_mul_lt_mul_right hgoal (le_of_lt hlq)
    · -- upper bound
      obtain ⟨n, hn⟩ := int_on_grid c (Int.log 2 x) he
      rw [hn]
      apply roundFloat64_le x hx n
      rw [← hn]
      exact hxc

/-- A quotient of a positive numerator by a denominator that is not smaller,
rounded to float64, has ceiling 1. -/
theorem ceil_roundFloat64_le_one (x : ℚ) (hx : 0 < x) (hx1 : x ≤ 1) :
    ⌈roundFloat64 x⌉ = 1 := by
  rw [Int.ceil_eq_iff]
  constructor
  · have := roundFloat64_pos x hx
    simpa using this
  · have he : Int.log 2 x ≤ 52 := log_le_52 x hx (lt_of_le_of_lt hx1 (by norm_num))
    obtain ⟨n, hn⟩ := int_on_grid 1 (Int.log 2 x) he
    rw [hn]
    apply roundFloat64_le x hx n
    rw [← hn]
    simpa using hx1

/-- Conversion to int of an integer-valued float64 within the int range. -/
theorem float64ToInt_int (c : Int) (hc : isInt64 c) : float64ToInt (c : ℚ) = some c := by
  unfold float64ToInt
  simp only [Int.floor_intCast, Int.ceil_intCast, ite_self, hc, if_true]

/-- For a count from 0 to 2^53 and a positive limit, the page count computed
through float64 is the integer ceiling of count / limit, or 1 for count 0. -/
theorem totalPages_eq (total limit : Int) (h0 : 0 ≤ total) (h53 : total ≤ 2 ^ 53)
    (hl : 0 < limit) :
    totalPages total limit = some (if total = 0 then 1 else ⌈(total : ℚ) / limit⌉) := by
  have hlq : (0 : ℚ) < limit := by exact_mod_cast hl
  have hb : 0 < toFloat64 limit := roundFloat64_pos _ hlq
  have ha : toFloat64 total = total := toFloat64_exact total h0 h53
  unfold totalPages divFloat64 mathCeil
  simp only [ne_of_gt hb, if_false, ha]
  rcases eq_or_lt_of_le h0 with hz | hpos
  · subst hz
    have h1 : roundFloat64 (((0 : Int) : ℚ) / toFloat64 limit) = 0 := by
      simp [roundFloat64]
    rw [h1]
    have h2 : float64ToInt ((⌈(0 : ℚ)⌉ : Int) : ℚ) = some 0 := by
      rw [Int.ceil_zero]
      exact float64ToInt_int 0 (by decide)
    rw [h2]
    simp
  · have hne : total ≠ 0 := ne_of_gt hpos
    have htq : (0 : ℚ) < total := by exact_mod_cast hpos
    have hceil : ⌈roundFloat64 ((total : ℚ) / toFloat64 limit)⌉ = ⌈(total : ℚ) / limit⌉ := by
      rcases le_or_lt limit (2 ^ 53) with hsmall | hlarge
      · rw [toFloat64_exact limit (le_of_lt hl) hsmall]
        exact ceil_roundFloat64_div total limit hpos h53 hl
      · have hbig := toFloat64_large limit hlarge
        have ht53 : (total : ℚ) ≤ 2 ^ 53 := by exact_mod_cast h53
        have h1 : ⌈roundFloat64 ((total : ℚ) / toFloat64 limit)⌉ = 1 := by
          apply ceil_roundFloat64_le_one _ (div_pos htq hb)
          rw [div_le_one hb]
          exact le_trans ht53 hbig
        have h2 : ⌈(total : ℚ) / limit⌉ = 1 := by
          rw [Int.ceil_eq_iff]
          constructor
          · simpa using div_pos htq hlq
          · rw [div_le_iff₀ hlq]
            have : total ≤ limit := le_trans h53 (le_of_lt hlarge)
            have : (total : ℚ) ≤ limit := by exact_mod_cast this
            simpa using this
        rw [h1, h2]
    rw [hceil]
    have hc0 : 0 < ⌈(total : ℚ) / limit⌉ := Int.ceil_pos.mpr (div_pos htq hlq)
    have hc53 : ⌈(total : ℚ) / limit⌉ ≤ 2 ^ 53 := by
      apply Int.ceil_le.mpr
      have h1 : (total : ℚ) / limit ≤ total :=
        div_le_self (le_of_lt htq) (by exact_mod_cast hl)
      have h2 : (total : ℚ) ≤ 2 ^ 53 := by exact_mod_cast h53
      push_cast
      linarith
    have hint : isInt64 ⌈(total : ℚ) / limit⌉ := by
      unfold isInt64
      constructor <;> omega
    rw [float64ToInt_int _ hint]
    simp [hne, ne_of_gt hc0]

/-- The integer ceiling of a quotient brackets the numerator. -/
theorem ceil_div_bounds (total limit : Int) (hl : 0 < limit) :
    (⌈(total : ℚ) / limit⌉ - 1) * limit < total ∧ total ≤ ⌈(total : ℚ) / limit⌉ * limit := by
  have hlq : (0 : ℚ) < limit := by exact_mod_cast hl
  have h1 : (total : ℚ) / limit ≤ ⌈(total : ℚ) / limit⌉ := Int.le_ceil _
  have h2 : (⌈(total : ℚ) / limit⌉ : ℚ) < (total : ℚ) / limit + 1 := Int.ceil_lt_add_one _
  constructor
  · have h3 : ((⌈(total : ℚ) / limit⌉ : ℚ) - 1) * limit < total := by
      have : (⌈(total : ℚ) / limit⌉ : ℚ) - 1 < (total : ℚ) / limit := by linarith
      exact (lt_div_iff₀ hlq).mp this
    exact_mod_cast h3
  · have h3 : (total : ℚ) ≤ ⌈(total : ℚ) / limit⌉ * limit := (div_le_iff₀ hlq).mp h1
    exact_mod_cast h3

/-- The count 2^53 + 1 is converted to the float64 2^53. -/
theorem toFloat64_two_pow_53_succ : toFloat64 9007199254740993 = 9007199254740992 := by
  unfold toFloat64
  have hq : (0 : ℚ) < ((9007199254740993 : Int) : ℚ) := by norm_num
  have hlog : Int.log 2 (((9007199254740993 : Int) : ℚ)) = 53 := by
    have h1 : (((9007199254740993 : Int) : ℚ)) = ((9007199254740993 : ℕ) : ℚ) := by norm_num
    rw [h1, Int.log_natCast]
    have : Nat.log 2 9007199254740993 = 53 := by
      rw [Nat.log_eq_iff (Or.inl (by norm_num))]
      constructor <;> norm_num
    rw [this]
    rfl
  rw [roundFloat64_of_pos _ hq, hlog]
  have hf : ⌊(((9007199254740993 : Int) : ℚ)) / 2 ^ ((53 : Int) - 52)⌋ = 4503599627370496 := by
    rw [Int.floor_eq_iff]
    constructor <;> norm_num
  unfold roundHalfEven
  simp only [hf]
  norm_num

/-- The page count from the quotient and its conversion to int. -/
theorem totalPages_of (total limit : Int) (q : ℚ) (n : Int)
    (hd : divFloat64 (toFloat64 total) (toFloat64 limit) = some q)
    (hn : float64ToInt (mathCeil q) = some n) :
    totalPages total limit = some (if n = 0 then 1 else n) := by
  unfold totalPages
  rw [hd]
  simp only []
  rw [hn]

/-- Division of float64 values by a divisor that is not zero. -/
theorem divFloat64_of (a b : ℚ) (hb : b ≠ 0) : divFloat64 a b = some (roundFloat64 (a / b)) := by
  unfold divFloat64
  rw [if_neg hb]

/-- The page count of 2^53 + 1 rows with limit 1, computed through float64. -/
theorem totalPages_two_pow_53_succ :
    totalPages 9007199254740993 1 = some 9007199254740992 := by
  have h1 : roundFloat64 ((9007199254740992 : ℚ) / ((1 : Int) : ℚ)) = 9007199254740992 := by
    have := roundFloat64_int 9007199254740992 (by norm_num) (by norm_num)
    simpa using this
  have h0 : (((1 : Int) : ℚ)) ≠ 0 := by norm_num
  have hc : ⌈(9007199254740992 : ℚ)⌉ = 9007199254740992 := by
    rw [Int.ceil_eq_iff]
    constructor <;> norm_num
  have hi : isInt64 9007199254740992 := by
    unfold isInt64; constructor <;> norm_num
  have hne : (9007199254740992 : Int) ≠ 0 := by norm_num
  have hd : divFloat64 (toFloat64 9007199254740993) (toFloat64 1) = some 9007199254740992 := by
    rw [toFloat64_two_pow_53_succ, toFloat64_exact 1 (by norm_num) (by norm_num),
      divFloat64_of _ _ h0, h1]
  have hn : float64ToInt (mathCeil 9007199254740992) = some 9007199254740992 := by
    unfold mathCeil
    rw [hc]
    exact float64ToInt_int _ hi
  have h := totalPages_of 9007199254740993 1 9007199254740992 9007199254740992 hd hn
  rw [if_neg hne] at h
  exact h

/-- A successful GetAll reports the page count computed from its own Total and
PageSize. -/
theorem GetAll_reports_totalPages {α β : Type} (m : Module) (toListResponse : Option α → Option β)
    (db : DB α) (page limit : Option Int) (sortBy sortOrder : Option String)
    (resp : PaginatedResponse β)
    (h : (GetAll m toListResponse db page limit sortBy sortOrder).result = .ok resp) :
    resp.Pagination.TotalPages = totalPages resp.Pagination.Total resp.Pagination.PageSize := by
  unfold GetAll at h
  simp only [] at h
  cases hc : db.Count { Model := m.TableName } with
  | error e => rw [hc] at h; simp at h
  | ok total =>
    rw [hc] at h
    simp only [] at h
    split at h
    · simp at h
    · simp only [Result.ok.injEq] at h
      subst h
      rfl

/-- C4, counterexample: on a table that counts 2^53 + 1 rows, GetAll with
limit 1 succeeds with Total 2^53 + 1, PageSize 1 and TotalPages 2^53, while the
integer ceiling of (2^53 + 1) / 1 is 2^53 + 1. -/
theorem GetAll_float64_page_count :
    ∃ resp, (GetAll Module.lessons (fun l : Option Lesson => l) crowdedDB
        (some 1) (some 1) none none).result = .ok resp ∧
      resp.Pagination.Total = 9007199254740993 ∧ resp.Pagination.PageSize = 1 ∧
      resp.Pagination.TotalPages = some 9007199254740992 ∧
      ⌈((9007199254740993 : Int) : ℚ) / ((1 : Int) : ℚ)⌉ = 9007199254740993 := by
  refine ⟨_, rfl, rfl, rfl, totalPages_two_pow_53_succ, ?_⟩
  rw [Int.ceil_eq_iff]
  constructor <;> norm_num

/-- C4, as amended: for every row count total with 0 <= total <= 2^53 and
every effective limit > 0, the TotalPages returned by GetAll is the integer
ceiling of total / limit, except that it is 1 when total is 0; hence it is at
least 1 and, when total > 0, (TotalPages - 1) * limit < total <= TotalPages *
limit. -/
theorem GetAll_totalPages {α β : Type} (m : Module) (toListResponse : Option α → Option β)
    (db : DB α) (page limit : Option Int) (sortBy sortOrder : Option String)
    (resp : PaginatedResponse β)
    (h : (GetAll m toListResponse db page limit sortBy sortOrder).result = .ok resp)
    (h0 : 0 ≤ resp.Pagination.Total) (h53 : resp.Pagination.Total ≤ 2 ^ 53)
    (hl : 0 < resp.Pagination.PageSize) :
    ∃ tp, resp.Pagination.TotalPages = some tp ∧
      tp = (if resp.Pagination.Total = 0 then 1
        else ⌈(resp.Pagination.Total : ℚ) / resp.Pagination.PageSize⌉) ∧
      1 ≤ tp ∧
      (0 < resp.Pagination.Total →
        (tp - 1) * resp.Pagination.PageSize < resp.Pagination.Total ∧
          resp.Pagination.Total ≤ tp * resp.Pagination.PageSize) := by
  refine ⟨_, ?_, rfl, ?_, ?_⟩
  · rw [GetAll_reports_totalPages m toListResponse db page limit sortBy sortOrder resp h]
    exact totalPages_eq _ _ h0 h53 hl
  · split_ifs with hz
    · exact le_refl 1
    · have hpos : (0 : ℚ) < resp.Pagination.Total := by
        have : 0 < resp.Pagination.Total := lt_of_le_of_ne h0 (Ne.symm hz)
        exact_mod_cast this
      have hlq : (0 : ℚ) < resp.Pagination.PageSize := by exact_mod_cast hl
      have := Int.ceil_pos.mpr (div_pos hpos hlq)
      omega
  · intro hpos
    rw [if_neg (ne_of_gt hpos)]
    exact ceil_div_bounds _ _ hl

/-- Witness of C4: 25 rows listed with limit 10. -/
theorem GetAll_totalPages_witness :
    ((GetAll Module.lessons (fun l : Option Lesson => l)
          { sampleDB sampleLesson with Count := fun _ => .ok 25 } none none none none).result =
        .ok { Data := [some sampleLesson],
              Pagination :=
                { Total := 25, Page := 1, PageSize := 10, TotalPages := totalPages 25 10 } } ∧
      (0 : Int) ≤ 25 ∧ (25 : Int) ≤ 2 ^ 53 ∧ (0 : Int) < 10) ∧
    ∃ tp, totalPages 25 10 = some tp ∧
      tp = (if (25 : Int) = 0 then 1 else ⌈((25 : Int) : ℚ) / ((10 : Int) : ℚ)⌉) ∧
      1 ≤ tp ∧ ((0 : Int) < 25 → (tp - 1) * 10 < 25 ∧ 25 ≤ tp * 10) :=
  ⟨⟨rfl, by decide, by decide, by decide⟩,
    GetAll_totalPages Module.lessons (fun l : Option Lesson => l)
      { sampleDB sampleLesson with Count := fun _ => .ok 25 } none none none none
      { Data := [some sampleLesson],
        Pagination := { Total := 25, Page := 1, PageSize := 10, TotalPages := totalPages 25 10 } }
      rfl (by decide) (by decide) (by decide)⟩

/-- The Get handler answers 404 "Item not found" to every error of GetById. -/
theorem Controller.Get_error {α Req β R : Type} (svc : Service α Req β)
    (toResponse : Option α → Option R) (ctx : Context Req) (id : Nat) (err : GoError)
    (hid : ParseUint (ctx.Param "id") 32 = .ok id) (herr : svc.GetById id = .error err) :
    (Controller.Get svc toResponse ctx).response =
      ⟨404, some (.ErrorResponse "Item not found")⟩ := by
  unfold Controller.Get
  rw [hid]
  simp only []
  rw [herr]
  rfl

/-- C11, at the failing input: GetById fails with "connection refused", a
message that does not contain "record not found", and the Get handler answers
404 "Item not found", as it does for a missing row. -/
theorem Controller.Get_database_failure_is_404 :
    failingService.GetById 1 = .error (.message "connection refused") ∧
      Contains ((GoError.message "connection refused").Error sampleRender)
        "record not found" = false ∧
      (Controller.Get failingService (fun l : Option Lesson => l) sampleContext).response =
        ⟨404, some (.ErrorResponse "Item not found")⟩ ∧
      (Controller.Get failingService (fun l : Option Lesson => l) sampleContext).calls =
        [.GetById 1] := by
  refine ⟨rfl, by decide, ?_, ?_⟩
  · exact Controller.Get_error failingService _ sampleContext 1 _ ParseUint_one rfl
  · unfold Controller.Get
    have h : ParseUint (sampleContext.Param "id") 32 = .ok 1 := ParseUint_one
    rw [h]
    rfl

/-- C12, at the failing input: Service.Delete succeeds for id 1 and the Delete
handler answers 204 without a body, not 200 with a SuccessResponse. -/
theorem Controller.Delete_success_is_204 :
    sampleService.Delete 1 = none ∧
      (Controller.Delete sampleRender sampleService sampleContext).response = ⟨204, none⟩ ∧
      (Controller.Delete sampleRender sampleService sampleContext).calls = [.Delete 1] := by
  have h : ParseUint (sampleContext.Param "id") 32 = .ok 1 := ParseUint_one
  refine ⟨rfl, ?_, ?_⟩ <;>
    · unfold Controller.Delete
      rw [h]
      rfl

/-- The update validator of every module: an error exactly for a nil request
or a zero id, the nil request being reported first. -/
theorem ValidateUpdateRequest_spec {R : Type} (req : Option R) (id : Nat) :
    (ValidateUpdateRequest req id ≠ none ↔ req = none ∨ id = 0) ∧
      (req = none → ValidateUpdateRequest req id =
        some (.validation
          [{ Field := "request", Tag := "required", Value := "nil",
             Message := "request cannot be nil" }])) ∧
      (req ≠ none → id = 0 → ValidateUpdateRequest req id =
        some (.validation
          [{ Field := "id", Tag := "required", Value := "0", Message := "id cannot be zero" }])) ∧
      (req ≠ none → id ≠ 0 → ValidateUpdateRequest req id = none) := by
  cases req with
  | none => simp [ValidateUpdateRequest]
  | some r =>
    by_cases h : id = 0
    · simp [ValidateUpdateRequest, h]
    · simp [ValidateUpdateRequest, h]

/-- C13: for every request pointer and id, ValidateCourseCertificateUpdateRequest
and ValidateCourseCategoryUpdateRequest return an error exactly when the
request is nil or the id is 0: for a nil request a single ValidationError with
Field "request" (also when the id is 0), for a non-nil request and id 0 a
single ValidationError with Field "id" and Message "id cannot be zero", and
nil otherwise, whatever the fields of the request. -/
theorem ValidateUpdateRequest_nil_or_zero (req : Option UpdateCourseCertificateRequest)
    (req' : Option UpdateCourseCategoryRequest) (id : Nat) :
    ((ValidateCourseCertificateUpdateRequest req id ≠ none ↔ req = none ∨ id = 0) ∧
      (req = none → ValidateCourseCertificateUpdateRequest req id =
        some (.validation
          [{ Field := "request", Tag := "required", Value := "nil",
             Message := "request cannot be nil" }])) ∧
      (req ≠ none → id = 0 → ValidateCourseCertificateUpdateRequest req id =
        some (.validation
          [{ Field := "id", Tag := "required", Value := "0", Message := "id cannot be zero" }])) ∧
      (req ≠ none → id ≠ 0 → ValidateCourseCertificateUpdateRequest req id = none)) ∧
    ((ValidateCourseCategoryUpdateRequest req' id ≠ none ↔ req' = none ∨ id = 0) ∧
      (req' = none → ValidateCourseCategoryUpdateRequest req' id =
        some (.validation
          [{ Field := "request", Tag := "required", Value := "nil",
             Message := "request cannot be nil" }])) ∧
      (req' ≠ none → id = 0 → ValidateCourseCategoryUpdateRequest req' id =
        some (.validation
          [{ Field := "id", Tag := "required", Value := "0", Message := "id cannot be zero" }])) ∧
      (req' ≠ none → id ≠ 0 → ValidateCourseCategoryUpdateRequest req' id = none)) :=
  ⟨ValidateUpdateRequest_spec req id, ValidateUpdateRequest_spec req' id⟩

/-- C14: ValidateCourseCertificateCreateRequest and
ValidateCourseTagRelationCreateRequest return for a nil request exactly one
ValidationError, with Field "request", Tag "required", Value "nil" and Message
"request cannot be nil", and do not call the shared validator; for a non-nil
request they call it once, on that request, and return its result. -/
theorem ValidateCreateRequest_delegates
    (validate : CreateCourseCertificateRequest → Option GoError)
    (validate' : CreateCourseTagRelationRequest → Option GoError) :
    (ValidateCourseCertificateCreateRequest validate none =
        (some (.validation
          [{ Field := "request", Tag := "required", Value := "nil",
             Message := "request cannot be nil" }]), []) ∧
      ∀ r, ValidateCourseCertificateCreateRequest validate (some r) = (validate r, [r])) ∧
    (ValidateCourseTagRelationCreateRequest validate' none =
        (some (.validation
          [{ Field := "request", Tag := "required", Value := "nil",
             Message := "request cannot be nil" }]), []) ∧
      ∀ r, ValidateCourseTagRelationCreateRequest validate' (some r) = (validate' r, [r])) :=
  ⟨⟨rfl, fun _ => rfl⟩, ⟨rfl, fun _ => rfl⟩⟩

/-- C18: ToSelectOption returns nil for a nil receiver and otherwise the pair
of the model's Id and its display value: Title for Lesson, Course and
CourseResource, Name for CourseTag and CourseCategory, and the text
"<Entity> #<Id>" (the Id in decimal) for Enrollment, CourseProgressLog and
CourseTagRelation. -/
theorem ToSelectOption_display :
    (Lesson.ToSelectOption none = none ∧
      ∀ m : Lesson, Lesson.ToSelectOption (some m) = some { Id := m.Id, Name := m.Title }) ∧
    (Course.ToSelectOption none = none ∧
      ∀ m : Course, Course.ToSelectOption (some m) = some { Id := m.Id, Name := m.Title }) ∧
    (CourseResource.ToSelectOption none = none ∧
      ∀ m : CourseResource,
        CourseResource.ToSelectOption (some m) = some { Id := m.Id, Name := m.Title }) ∧
    (CourseTag.ToSelectOption none = none ∧
      ∀ m : CourseTag, CourseTag.ToSelectOption (some m) = some { Id := m.Id, Name := m.Name }) ∧
    (CourseCategory.ToSelectOption none = none ∧
      ∀ m : CourseCategory,
        CourseCategory.ToSelectOption (some m) = some { Id := m.Id, Name := m.Name }) ∧
    (Enrollment.ToSelectOption none = none ∧
      ∀ m : Enrollment, Enrollment.ToSelectOption (some m) =
        some { Id := m.Id, Name := "Enrollment #" ++ toString m.Id }) ∧
    (CourseProgressLog.ToSelectOption none = none ∧
      ∀ m : CourseProgressLog, CourseProgressLog.ToSelectOption (some m) =
        some { Id := m.Id, Name := "CourseProgressLog #" ++ toString m.Id }) ∧
    (CourseTagRelation.ToSelectOption none = none ∧
      ∀ m : CourseTagRelation, CourseTagRelation.ToSelectOption (some m) =
        some { Id := m.Id, Name := "CourseTagRelation #" ++ toString m.Id }) ∧
    formatId "Enrollment" 42 = "Enrollment #42" := by
  refine ⟨⟨rfl, fun _ => rfl⟩, ⟨rfl, fun _ => rfl⟩, ⟨rfl, fun _ => rfl⟩, ⟨rfl, fun _ => rfl⟩,
    ⟨rfl, fun _ => rfl⟩, ⟨rfl, fun m => ?_⟩, ⟨rfl, fun m => ?_⟩, ⟨rfl, fun m => ?_⟩, by decide⟩
  · simp [Enrollment.ToSelectOption, formatId, String.append_assoc]
  · simp [CourseProgressLog.ToSelectOption, formatId, String.append_assoc]
  · simp [CourseTagRelation.ToSelectOption, formatId, String.append_assoc]

/-- LessonService.Update is the Update of the template for module lessons. -/
theorem LessonService.Update_eq_lessons_template (db : DB Lesson) (id : Nat)
    (req : Option UpdateLessonRequest) :
    LessonService.Update db id req =
      CoursePlatform.Update .lessons ValidateLessonUpdateRequest LessonService.Update.fields
        (fun item => item.Id) db id req := by
  unfold LessonService.Update CoursePlatform.Update
  cases db.First id with
  | error e => rfl
  | ok item =>
    simp only []
    cases ValidateLessonUpdateRequest req id with
    | some e => rfl
    | none =>
      simp only []
      cases req with
      | none => rfl
      | some r =>
        simp only []
        cases db.Save (LessonService.Update.fields item r) with
        | error e => rfl
        | ok saved =>
          simp only []
          cases (GetById db saved.Id).result <;> rfl

/-- PaymentService.Update is the Update of the template for module payments. -/
theorem PaymentService.Update_eq_payments_template (db : DB Payment) (id : Nat)
    (req : Option UpdatePaymentRequest) :
    PaymentService.Update db id req =
      CoursePlatform.Update .payments ValidatePaymentUpdateRequest PaymentService.Update.fields
        (fun item => item.Id) db id req := by
  unfold PaymentService.Update CoursePlatform.Update
  cases db.First id with
  | error e => rfl
  | ok item =>
    simp only []
    cases ValidatePaymentUpdateRequest req id with
    | some e => rfl
    | none =>
      simp only []
      cases req with
      | none => rfl
      | some r =>
        simp only []
        cases db.Save (PaymentService.Update.fields item r) with
        | error e => rfl
        | ok saved =>
          simp only []
          cases (GetById db saved.Id).result <;> rfl

/-- A lookup in a table without a live row of that id fails with
record-not-found. -/
theorem gormFirst_of_no_live {α : Type} (S : Schema α) (table : List α) (id : Nat)
    (h : ∀ r ∈ table, S.Id r = id → S.DeletedAt r ≠ none) :
    gormFirst S table id = .error ErrRecordNotFound := by
  unfold gormFirst
  have hnone : table.find? (fun r => decide (S.Id r = id ∧ S.DeletedAt r = none)) = none := by
    rw [List.find?_eq_none]
    intro r hr
    simp only [decide_eq_true_eq, not_and]
    exact h r hr
  rw [hnone]

/-- A lookup in a table with a live row of that id returns a live row of
that id. -/
theorem gormFirst_of_live {α : Type} (S : Schema α) (table : List α) (id : Nat)
    (h : ∃ r ∈ table, S.Id r = id ∧ S.DeletedAt r = none) :
    ∃ found ∈ table, S.Id found = id ∧ S.DeletedAt found = none ∧
      gormFirst S table id = .ok found := by
  unfold gormFirst
  cases hf : table.find? (fun r => decide (S.Id r = id ∧ S.DeletedAt r = none)) with
  | none =>
    exfalso
    rw [List.find?_eq_none] at hf
    obtain ⟨r, hr, hid, hlive⟩ := h
    exact hf r hr (by simp [hid, hlive])
  | some found =>
    have hp := List.find?_some hf
    simp only [decide_eq_true_eq] at hp
    exact ⟨found, List.mem_of_find?_eq_some hf, hp.1, hp.2, rfl⟩

/-- After a soft delete no row of that id is live. -/
theorem softDelete_no_live {α : Type} (S : Schema α)
    (hDel : ∀ r t, S.DeletedAt (S.setDeletedAt r t) = some t)
    (now : Time) (id : Nat) (table : List α) :
    ∀ r ∈ softDelete S now id table, S.Id r = id → S.DeletedAt r ≠ none := by
  intro r hr hid
  unfold softDelete at hr
  rw [List.mem_map] at hr
  obtain ⟨old, _, hold⟩ := hr
  by_cases hc : S.Id old = id ∧ S.DeletedAt old = none
  · rw [if_pos hc] at hold
    rw [← hold, hDel]
    exact Option.some_ne_none now
  · rw [if_neg hc] at hold
    subst hold
    intro hlive
    exact hc ⟨hid, hlive⟩

/-- A soft delete keeps every row in its place: the live rows of that id get
the time of the deletion, the other rows are as before. -/
theorem softDelete_rows {α : Type} (S : Schema α) (now : Time) (id : Nat) (table : List α) :
    List.Forall₂
      (fun old new =>
        new = if S.Id old = id ∧ S.DeletedAt old = none then S.setDeletedAt old now else old)
      table (softDelete S now id table) := by
  unfold softDelete
  induction table with
  | nil => exact List.Forall₂.nil
  | cons r rs ih => exact List.Forall₂.cons rfl ih

/-- C16, counterexample: on a table whose only row is live and has the
primary key 0, Delete of id 0 finds the row and then fails with "WHERE
conditions required"; the row is not marked deleted, no event is emitted, and
GetById of id 0 still finds it. -/
theorem CourseCertificateService.Delete_refuses_zero_key :
    unkeyedCertificate.Id = 0 ∧ unkeyedCertificate.DeletedAt = none ∧
      (CourseCertificateService.Delete
        (gormDB (CourseCertificate.schema []) [unkeyedCertificate] 1000
          (sampleDB sampleCertificate)) 0).result =
        .err (.message "WHERE conditions required") ∧
      (CourseCertificateService.Delete
        (gormDB (CourseCertificate.schema []) [unkeyedCertificate] 1000
          (sampleDB sampleCertificate)) 0).calls = [.First 0, .Delete unkeyedCertificate] ∧
      tableAfterDeletes (CourseCertificate.schema []) 1000
        (CourseCertificateService.Delete
          (gormDB (CourseCertificate.schema []) [unkeyedCertificate] 1000
            (sampleDB sampleCertificate)) 0).calls [unkeyedCertificate] =
        [unkeyedCertificate] ∧
      (GetById (gormDB (CourseCertificate.schema []) [unkeyedCertificate] 2000
        (sampleDB sampleCertificate)) 0).result = .ok unkeyedCertificate :=
  ⟨rfl, rfl, rfl, rfl, rfl, rfl⟩

/-- C16, as amended: on a certificates table as gorm keeps it, Delete of an
id without a live row returns record-not-found, passes no item to Create,
Save or Delete, leaves the table as it was and emits no event; Delete of an
id other than 0 with a live row returns nil after one Delete call, on that
row; the table this call leaves has every row in its place, the live row of
that id with the time of the deletion as DeletedAt and all other rows as
before, so no live row of that id remains, and on that table GetById, Update
and Delete of that id all return record-not-found. -/
theorem CourseCertificateService.Delete_soft (enrollments : List Enrollment)
    (table : List CourseCertificate) (now : Time) (base : DB CourseCertificate) (id : Nat) :
    ((∀ r ∈ table, r.Id = id → r.DeletedAt ≠ none) →
      (CourseCertificateService.Delete
          (gormDB (CourseCertificate.schema enrollments) table now base) id).result =
        .err (.message "record not found") ∧
      mutations (CourseCertificateService.Delete
          (gormDB (CourseCertificate.schema enrollments) table now base) id).calls = [] ∧
      tableAfterDeletes (CourseCertificate.schema enrollments) now
          (CourseCertificateService.Delete
            (gormDB (CourseCertificate.schema enrollments) table now base) id).calls table =
        table ∧
      emittedEvents (CourseCertificateService.Delete
          (gormDB (CourseCertificate.schema enrollments) table now base) id).calls = []) ∧
    ((∃ r ∈ table, r.Id = id ∧ r.DeletedAt = none) → id ≠ 0 →
      ∃ found ∈ table, found.Id = id ∧ found.DeletedAt = none ∧
        (CourseCertificateService.Delete
            (gormDB (CourseCertificate.schema enrollments) table now base) id).result = .ok () ∧
        mutations (CourseCertificateService.Delete
            (gormDB (CourseCertificate.schema enrollments) table now base) id).calls =
          [.Delete found] ∧
        emittedEvents (CourseCertificateService.Delete
            (gormDB (CourseCertificate.schema enrollments) table now base) id).calls =
          ["coursecertificates.delete"] ∧
        List.Forall₂
          (fun old new =>
            new = if old.Id = id ∧ old.DeletedAt = none then { old with DeletedAt := some now }
              else old)
          table
          (tableAfterDeletes (CourseCertificate.schema enrollments) now
            (CourseCertificateService.Delete
              (gormDB (CourseCertificate.schema enrollments) table now base) id).calls table) ∧
        (∀ r ∈ tableAfterDeletes (CourseCertificate.schema enrollments) now
            (CourseCertificateService.Delete
              (gormDB (CourseCertificate.schema enrollments) table now base) id).calls table,
          r.Id = id → r.DeletedAt ≠ none) ∧
        ∀ (later : Time) (base' : DB CourseCertificate)
          (req : Option UpdateCourseCertificateRequest),
          (GetById (gormDB (CourseCertificate.schema enrollments)
              (tableAfterDeletes (CourseCertificate.schema enrollments) now
                (CourseCertificateService.Delete
                  (gormDB (CourseCertificate.schema enrollments) table now base) id).calls
                table)
              later base') id).result = .err (.message "record not found") ∧
          (CourseCertificateService.Update (gormDB (CourseCertificate.schema enrollments)
              (tableAfterDeletes (CourseCertificate.schema enrollments) now
                (CourseCertificateService.Delete
                  (gormDB (CourseCertificate.schema enrollments) table now base) id).calls
                table)
              later base') id req).result = .err (.message "record not found") ∧
          (CourseCertificateService.Delete (gormDB (CourseCertificate.schema enrollments)
              (tableAfterDeletes (CourseCertificate.schema enrollments) now
                (CourseCertificateService.Delete
                  (gormDB (CourseCertificate.schema enrollments) table now base) id).calls
                table)
              later base') id).result = .err (.message "record not found")) := by
  constructor
  · intro h
    have hf := gormFirst_of_no_live (CourseCertificate.schema enrollments) table id h
    simp [CourseCertificateService.Delete, CoursePlatform.Delete, gormDB, hf, ErrRecordNotFound,
      mutations, emittedEvents, tableAfterDeletes]
  · intro h hid
    obtain ⟨found, hmem, hfid, hlive, hf⟩ :=
      gormFirst_of_live (CourseCertificate.schema enrollments) table id h
    have hfid' : found.Id = id := hfid
    have hne : ¬ (CourseCertificate.schema enrollments).Id found = 0 := by
      rw [hfid]; exact hid
    have hcalls : (CourseCertificateService.Delete
        (gormDB (CourseCertificate.schema enrollments) table now base) id).calls =
        [.First id, .Delete found,
          .Emit "coursecertificates.delete"
            ((CourseCertificate.schema enrollments).setDeletedAt found now)] := by
      simp [CourseCertificateService.Delete, CoursePlatform.Delete, gormDB, hf, hne,
        Module.DeleteEvent]
    have htable : tableAfterDeletes (CourseCertificate.schema enrollments) now
        (CourseCertificateService.Delete
          (gormDB (CourseCertificate.schema enrollments) table now base) id).calls table =
        softDelete (CourseCertificate.schema enrollments) now id table := by
      rw [hcalls]
      simp only [tableAfterDeletes, hne, if_false]
      rw [hfid]
    have hgone := softDelete_no_live (CourseCertificate.schema enrollments) (fun _ _ => rfl)
      now id table
    refine ⟨found, hmem, hfid, hlive, ?_, ?_, ?_, ?_, ?_, ?_⟩
    · simp [CourseCertificateService.Delete, CoursePlatform.Delete, gormDB, hf, hne]
    · rw [hcalls]; rfl
    · rw [hcalls]; rfl
    · rw [htable]
      exact softDelete_rows (CourseCertificate.schema enrollments) now id table
    · rw [htable]
      exact hgone
    · intro later base' req
      rw [htable]
      have hfirst := gormFirst_of_no_live (CourseCertificate.schema enrollments)
        (softDelete (CourseCertificate.schema enrollments) now id table) id hgone
      refine ⟨?_, ?_, ?_⟩
      · simp [GetById, gormDB, hfirst, ErrRecordNotFound]
      · simp [CourseCertificateService.Update, CoursePlatform.Update, gormDB, hfirst,
          ErrRecordNotFound]
      · simp [CourseCertificateService.Delete, CoursePlatform.Delete, gormDB, hfirst,
          ErrRecordNotFound]

/-- Witness of C16: on the table of the two sample certificates, Delete of
id 3 finds no row, Delete of id 1 succeeds with one Delete call, and on the
table it leaves GetById of id 1 fails while the row of id 2 is still found. -/
theorem CourseCertificateService.Delete_soft_witness :
    (CourseCertificateService.Delete certificateDB 3).result =
        .err (.message "record not found") ∧
      (CourseCertificateService.Delete certificateDB 1).result = .ok () ∧
      mutations (CourseCertificateService.Delete certificateDB 1).calls =
        [.Delete sampleCertificate] ∧
      tableAfterDeletes (CourseCertificate.schema []) 1000
          (CourseCertificateService.Delete certificateDB 1).calls
          [sampleCertificate, otherCertificate] =
        [{ sampleCertificate with DeletedAt := some 1000 }, otherCertificate] ∧
      (GetById (gormDB (CourseCertificate.schema [])
          (tableAfterDeletes (CourseCertificate.schema []) 1000
            (CourseCertificateService.Delete certificateDB 1).calls
            [sampleCertificate, otherCertificate])
          2000 (sampleDB sampleCertificate)) 1).result = .err (.message "record not found") ∧
      (GetById (gormDB (CourseCertificate.schema [])
          (tableAfterDeletes (CourseCertificate.schema []) 1000
            (CourseCertificateService.Delete certificateDB 1).calls
            [sampleCertificate, otherCertificate])
          2000 (sampleDB sampleCertificate)) 2).result = .ok otherCertificate := by
  have h := CourseCertificateService.Delete_soft [] [sampleCertificate, otherCertificate] 1000
    (sampleDB sampleCertificate)
  have h3 := (h 3).1 (by
    intro r hr hid
    simp only [List.mem_cons, List.mem_singleton, List.not_mem_nil, or_false] at hr
    rcases hr with rfl | rfl <;> simp [sampleCertificate, otherCertificate] at hid)
  obtain ⟨found, hmem, hid, _, hres, hmut, _, _, _, hafter⟩ :=
    (h 1).2 ⟨sampleCertificate, by simp, rfl, rfl⟩ (by decide)
  have hfound : found = sampleCertificate := by
    simp only [List.mem_cons, List.mem_singleton, List.not_mem_nil, or_false] at hmem
    rcases hmem with rfl | rfl
    · rfl
    · simp [otherCertificate] at hid
  subst hfound
  exact ⟨h3.1, hres, hmut, rfl, (hafter 2000 (sampleDB sampleCertificate) none).1, rfl⟩

/-- C17: on the table of the two sample certificates, whose CertificateUrl
are not empty, GetAllForSelect returns the two rows with only Id filled in
(the query selects the column "id" alone), and ListAll answers 200 with the
select options of ids 1 and 2 whose Name is the empty string, not the
CertificateUrl of the certificate. -/
theorem CourseCertificateController.ListAll_names_empty :
    sampleCertificate.CertificateUrl = "https://example.org/certificates/1.pdf" ∧
      otherCertificate.CertificateUrl = "https://example.org/certificates/2.pdf" ∧
      foundQueries (CourseCertificateService.GetAllForSelect certificateDB).calls =
        [{ Model := "course_certificates", Select := some "id", Order := ["id ASC"] }] ∧
      (CourseCertificateService.GetAllForSelect certificateDB).result =
        .ok [{ Id := 1, CreatedAt := 0, UpdatedAt := 0, DeletedAt := none, CertificateUrl := "",
               IssuedAt := 0, EnrollmentId := 0, Enrollment := none },
             { Id := 2, CreatedAt := 0, UpdatedAt := 0, DeletedAt := none, CertificateUrl := "",
               IssuedAt := 0, EnrollmentId := 0, Enrollment := none }] ∧
      Controller.ListAll sampleRender
          (.ok [{ Id := 1, CreatedAt := 0, UpdatedAt := 0, DeletedAt := none,
                  CertificateUrl := "", IssuedAt := 0, EnrollmentId := 0, Enrollment := none },
                { Id := 2, CreatedAt := 0, UpdatedAt := 0, DeletedAt := none,
                  CertificateUrl := "", IssuedAt := 0, EnrollmentId := 0, Enrollment := none }])
          CourseCertificate.ToSelectOption =
        ⟨200, some (.json [some { Id := 1, Name := "" }, some { Id := 2, Name := "" }])⟩ ∧
      CourseCertificate.ToSelectOption (some sampleCertificate) =
        some { Id := 1, Name := "https://example.org/certificates/1.pdf" } :=
  ⟨rfl, rfl, rfl, rfl, rfl, rfl⟩

/-- Reading the last statement of the memory. -/
theorem getD_length_append (mem : Statements) (q d : Query) :
    (mem ++ [q]).getD mem.length d = q := by
  induction mem with
  | nil => rfl
  | cons x xs ih => simp

/-- Writing the last statement of the memory. -/
theorem set_length_append (mem : Statements) (q w : Query) :
    (mem ++ [q]).set mem.length w = mem ++ [w] := by
  induction mem with
  | nil => rfl
  | cons x xs ih => simp

/-- The value applySorting passes to Order is not empty. -/
theorem orderClause_ne_empty (f d : String) : f ++ " " ++ d ≠ "" := by
  intro h
  have hl := congrArg String.length h
  simp [String.length_append] at hl
  exact absurd hl.1.2 (by decide)

/-- The chain of GetAll on handles: started from a handle of the service with
clone = 1, the statement that Find executes carries the table, the offset,
the limit and the ORDER value of applySorting. -/
theorem GetAll.statement_eq (m : Module) (a : Nat) (mem : Statements) (page limit : Int)
    (sortBy sortOrder : Option String) :
    GetAll.statement m { clone := 1, Statement := a } mem page limit sortBy sortOrder =
      m.applySorting
        ((({ Model := m.TableName } : Query).setOffset (pageOffset page limit)).setLimit limit)
        sortBy sortOrder := by
  simp only [GetAll.statement, Handle.Model, Handle.Offset, Handle.Limit, applySorting.run,
    Handle.Order, Handle.chain, Handle.getInstance, orderClause_ne_empty, ne_eq,
    not_false_eq_true, if_true, Nat.lt_irrefl, if_false, Nat.zero_lt_one, gt_iff_lt,
    getD_length_append, set_length_append]
  rfl

/-- The sort field is a key of the whitelist. -/
theorem sortField_mem (m : Module) (sortBy : Option String) :
    sortField m.validSortFields sortBy ∈ m.validSortFields.map Prod.fst := by
  rw [sortField_eq]
  cases sortBy with
  | none => exact (validSortFields_keys m).2
  | some s =>
    by_cases hmem : s ∈ m.validSortFields.map Prod.fst
    · simp only [hmem, if_true]
    · simp only [hmem, if_false]
      exact (validSortFields_keys m).2

/-- The ORDER values of applySorting parse into their field and direction. -/
theorem parseOrder_whitelisted (m : Module) :
    ∀ f ∈ m.validSortFields.map Prod.fst,
      parseOrder (f ++ " " ++ "asc") = (f, false) ∧
        parseOrder (f ++ " " ++ "desc") = (f, true) := by
  cases m <;> decide

/-- The ORDER value of applySorting parses into the sort field and whether
the direction is "desc". -/
theorem parseOrder_orderClause (m : Module) (sortBy sortOrder : Option String) :
    parseOrder (sortField m.validSortFields sortBy ++ " " ++ sortDirection sortOrder) =
      (sortField m.validSortFields sortBy, decide (sortDirection sortOrder = "desc")) := by
  have h := parseOrder_whitelisted m _ (sortField_mem m sortBy)
  rw [sortDirection_eq]
  by_cases ho : sortOrder = some "asc"
  · rw [if_pos ho, h.1]
    rfl
  · rw [if_neg ho, h.2]
    rfl

/-- Under a single ORDER value, a row may come before another exactly when
the column puts them in the direction of the value. -/
theorem orderLE_single {α : Type} (S : Schema α) (value : String) (a b : α) :
    orderLE S [value] a b =
      if (parseOrder value).2 then S.le (parseOrder value).1 b a
      else S.le (parseOrder value).1 a b := by
  simp only [orderLE]
  cases hd : (parseOrder value).2 <;>
    simp only [Bool.false_eq_true, if_false, if_true] <;>
    split_ifs with h <;> simp_all

/-- The rows a query with one ORDER value and no SELECT list finds are in the
order of that value, whatever its offset and limit. -/
theorem gormFind_sorted {α : Type} (S : Schema α)
    (hTotal : ∀ c a b, S.le c a b = true ∨ S.le c b a = true)
    (hTrans : ∀ c a b d, S.le c a b = true → S.le c b d = true → S.le c a d = true)
    (table : List α) (q : Query) (value : String) (hq : q.Order = [value])
    (hs : q.Select = none) :
    (gormFind S table q).Pairwise (fun a b => orderLE S [value] a b = true) := by
  have htotal : IsTotal α (fun a b => orderLE S [value] a b = true) := by
    constructor
    intro a b
    simp only [orderLE_single]
    cases (parseOrder value).2
    · simpa using hTotal _ a b
    · simpa using hTotal _ b a
  have htrans : IsTrans α (fun a b => orderLE S [value] a b = true) := by
    constructor
    intro a b d
    simp only [orderLE_single]
    cases (parseOrder value).2
    · simpa using hTrans _ a b d
    · simpa using fun h1 h2 => hTrans _ d b a h2 h1
  have hsorted := List.sorted_insertionSort (fun a b => orderLE S [value] a b = true)
    (table.filter (fun r => decide (S.DeletedAt r = none)))
  unfold gormFind
  simp only [hq, hs]
  have hdrop : ∀ l : List α, l.Pairwise (fun a b => orderLE S [value] a b = true) →
      (match q.Offset with
        | some o => if o > 0 then l.drop o.toNat else l
        | none => l).Pairwise (fun a b => orderLE S [value] a b = true) := by
    intro l hl
    cases q.Offset with
    | none => exact hl
    | some o =>
      simp only []
      split_ifs
      · exact hl.sublist (List.drop_sublist _ _)
      · exact hl
  have htake : ∀ l : List α, l.Pairwise (fun a b => orderLE S [value] a b = true) →
      (match q.Limit with
        | some n => if n ≥ 0 then l.take n.toNat else l
        | none => l).Pairwise (fun a b => orderLE S [value] a b = true) := by
    intro l hl
    cases q.Limit with
    | none => exact hl
    | some n =>
      simp only []
      split_ifs
      · exact hl.sublist (List.take_sublist _ _)
      · exact hl
  exact htake _ (hdrop _ hsorted)

/-- The columns of table course_certificates compare any two rows. -/
theorem CourseCertificate.schema_le_total (enrollments : List CoursePlatform.Enrollment)
    (c : String) (a b : CourseCertificate) :
    (CourseCertificate.schema enrollments).le c a b = true ∨
      (CourseCertificate.schema enrollments).le c b a = true := by
  simp only [CourseCertificate.schema]
  split_ifs <;> simp only [decide_eq_true_eq, not_lt, or_self] <;> exact le_total _ _

/-- The columns of table course_certificates compare rows transitively. -/
theorem CourseCertificate.schema_le_trans (enrollments : List CoursePlatform.Enrollment)
    (c : String) (a b d : CourseCertificate)
    (h1 : (CourseCertificate.schema enrollments).le c a b = true)
    (h2 : (CourseCertificate.schema enrollments).le c b d = true) :
    (CourseCertificate.schema enrollments).le c a d = true := by
  simp only [CourseCertificate.schema] at h1 h2 ⊢
  split_ifs at h1 h2 ⊢ <;> simp only [decide_eq_true_eq, not_lt] at h1 h2 ⊢ <;>
    exact le_trans h1 h2

/-- C20: the statement that Find executes in GetAll, computed on gorm handles
with applySorting dropping the handle that Order returns, is the query GetAll
passes to Find, and its ORDER clause is the value of applySorting: the handle
GetAll gives to applySorting comes from Model, so Order writes into its own
statement.  On a table whose columns compare rows totally and transitively,
GetAll returns the list responses of the rows found by that query, and these
rows are in the order of the resolved sort field: descending for the
direction "desc", ascending otherwise. -/
theorem GetAll_rows_ordered {α β : Type} (S : Schema α)
    (hTotal : ∀ c a b, S.le c a b = true ∨ S.le c b a = true)
    (hTrans : ∀ c a b d, S.le c a b = true → S.le c b d = true → S.le c a d = true)
    (m : Module) (toListResponse : Option α → Option β) (table : List α) (now : Time)
    (base : DB α) (page limit : Option Int) (sortBy sortOrder : Option String)
    (address : Nat) (mem : Statements) :
    ∃ (q : Query) (rows : List α) (resp : PaginatedResponse β),
      GetAll.statement m { clone := 1, Statement := address } mem
          (match page with | none => 1 | some p => p)
          (match limit with | none => 10 | some l => l) sortBy sortOrder = q ∧
        q.Order = [sortField m.validSortFields sortBy ++ " " ++ sortDirection sortOrder] ∧
        foundQueries
            (GetAll m toListResponse (gormDB S table now base) page limit sortBy
              sortOrder).calls = [q] ∧
        (GetAll m toListResponse (gormDB S table now base) page limit sortBy sortOrder).result =
          .ok resp ∧
        rows = gormFind S table q ∧
        resp.Data = rows.map (fun r => toListResponse (some r)) ∧
        rows.Pairwise (fun x y =>
          if sortDirection sortOrder = "desc" then
            S.le (sortField m.validSortFields sortBy) y x = true
          else S.le (sortField m.validSortFields sortBy) x y = true) := by
  refine ⟨_, _,
    { Data := (gormFind S table
          (m.applySorting
            ((({ Model := m.TableName } : Query).setOffset
              (pageOffset (match page with | none => 1 | some p => p)
                (match limit with | none => 10 | some l => l))).setLimit
              (match limit with | none => 10 | some l => l)) sortBy sortOrder)).map
          (fun r => toListResponse (some r))
      Pagination :=
        { Total := ((table.filter (fun r => decide (S.DeletedAt r = none))).length : Int)
          Page := match page with | none => 1 | some p => p
          PageSize := match limit with | none => 10 | some l => l
          TotalPages :=
            totalPages ((table.filter (fun r => decide (S.DeletedAt r = none))).length : Int)
              (match limit with | none => 10 | some l => l) } },
    GetAll.statement_eq m address mem _ _ sortBy sortOrder, rfl, ?_, ?_, rfl, ?_, ?_⟩
  · cases page <;> cases limit <;> rfl
  · cases page <;> cases limit <;> rfl
  · rfl
  · have h := gormFind_sorted S hTotal hTrans table
      (m.applySorting
        ((({ Model := m.TableName } : Query).setOffset
          (pageOffset (match page with | none => 1 | some p => p)
            (match limit with | none => 10 | some l => l))).setLimit
          (match limit with | none => 10 | some l => l)) sortBy sortOrder)
      (sortField m.validSortFields sortBy ++ " " ++ sortDirection sortOrder) rfl rfl
    refine h.imp ?_
    intro x y hxy
    rw [orderLE_single, parseOrder_orderClause] at hxy
    by_cases hd : sortDirection sortOrder = "desc"
    · rw [if_pos hd]
      simpa [hd] using hxy
    · rw [if_neg hd]
      simpa [hd] using hxy

/-- Witness of C20: the two sample certificates, stored in the order of their
ids, come back with id 2 first under the default sorting "id desc". -/
theorem GetAll_rows_ordered_witness :
    (∀ c a b, (CourseCertificate.schema []).le c a b = true ∨
        (CourseCertificate.schema []).le c b a = true) ∧
      (∀ c a b d, (CourseCertificate.schema []).le c a b = true →
        (CourseCertificate.schema []).le c b d = true →
        (CourseCertificate.schema []).le c a d = true) ∧
      (∃ (q : Query) (rows : List CourseCertificate)
          (resp : PaginatedResponse CourseCertificateListResponse),
        GetAll.statement .course_certificates { clone := 1, Statement := 0 } []
            (match (none : Option Int) with | none => 1 | some p => p)
            (match (none : Option Int) with | none => 10 | some l => l) none none = q ∧
          q.Order = [sortField Module.course_certificates.validSortFields none ++ " " ++
            sortDirection none] ∧
          foundQueries
              (GetAll .course_certificates CourseCertificate.ToListResponse
                (gormDB (CourseCertificate.schema []) [sampleCertificate, otherCertificate]
                  1000 (sampleDB sampleCertificate)) none none none none).calls = [q] ∧
          (GetAll .course_certificates CourseCertificate.ToListResponse
              (gormDB (CourseCertificate.schema []) [sampleCertificate, otherCertificate]
                1000 (sampleDB sampleCertificate)) none none none none).result = .ok resp ∧
          rows = gormFind (CourseCertificate.schema []) [sampleCertificate, otherCertificate] q ∧
          resp.Data = rows.map (fun r => CourseCertificate.ToListResponse (some r)) ∧
          rows.Pairwise (fun x y =>
            if sortDirection none = "desc" then
              (CourseCertificate.schema []).le
                (sortField Module.course_certificates.validSortFields none) y x = true
            else
              (CourseCertificate.schema []).le
                (sortField Module.course_certificates.validSortFields none) x y = true)) ∧
      gormFind (CourseCertificate.schema []) [sampleCertificate, otherCertificate]
          { Model := "course_certificates", Offset := some 0, Limit := some 10,
            Order := ["id desc"] } = [otherCertificate, sampleCertificate] :=
  ⟨CourseCertificate.schema_le_total [], CourseCertificate.schema_le_trans [],
    GetAll_rows_ordered (CourseCertificate.schema []) (CourseCertificate.schema_le_total [])
      (CourseCertificate.schema_le_trans []) .course_certificates
      CourseCertificate.ToListResponse [sampleCertificate, otherCertificate] 1000
      (sampleDB sampleCertificate) none none none none 0 [],
    rfl⟩

/-- A handle with clone = 1, such as the handle of the service itself, gets a
new statement from Order: applySorting on such a handle leaves the statement
of the handle as it was. -/
theorem applySorting.run_on_fresh_handle (validSortFields : List (String × String))
    (address : Nat) (mem : Statements) (sortBy sortOrder : Option String)
    (h : address < mem.length) :
    (applySorting.run validSortFields { clone := 1, Statement := address } sortBy sortOrder
        mem)[address]? = mem[address]? := by
  simp only [applySorting.run, Handle.Order, Handle.chain, Handle.getInstance,
    orderClause_ne_empty, ne_eq, not_false_eq_true, if_true, Nat.zero_lt_one, gt_iff_lt,
    getD_length_append, set_length_append]
  rw [List.getElem?_append_left h]

/-- C21, counterexample: on the table of the two sample certificates, Update
of id 0 with a non-nil request returns record-not-found after the lookup,
although the validator rejects id 0 for that request. -/
theorem CourseCertificateService.Update_zero_looks_up_first :
    (CourseCertificateService.Update certificateDB 0
        (some sampleUpdateCertificateRequest)).result = .err (.message "record not found") ∧
      (CourseCertificateService.Update certificateDB 0
        (some sampleUpdateCertificateRequest)).calls = [.First 0] ∧
      ValidateCourseCertificateUpdateRequest (some sampleUpdateCertificateRequest) 0 =
        some (.validation
          [{ Field := "id", Tag := "required", Value := "0", Message := "id cannot be zero" }]) :=
  ⟨rfl, rfl, rfl⟩

/-- C21, as amended: Update looks the row up before it validates.  For every
non-nil request, Update of id 0 makes one database call, the lookup of id 0,
and saves nothing; when the lookup fails it returns the error of the lookup,
which is record-not-found on a table without a row of id 0; only when the
lookup finds a row does it return the validation error with Field "id" and
Message "id cannot be zero". -/
theorem CourseCertificateService.Update_zero_id (db : DB CourseCertificate)
    (req : UpdateCourseCertificateRequest) :
    (CourseCertificateService.Update db 0 (some req)).calls = [.First 0] ∧
      savedItems (CourseCertificateService.Update db 0 (some req)).calls = [] ∧
      mutations (CourseCertificateService.Update db 0 (some req)).calls = [] ∧
      (∀ e, db.First 0 = .error e →
        (CourseCertificateService.Update db 0 (some req)).result = .err e) ∧
      (∀ item, db.First 0 = .ok item →
        (CourseCertificateService.Update db 0 (some req)).result =
          .err (.validation
            [{ Field := "id", Tag := "required", Value := "0",
               Message := "id cannot be zero" }])) ∧
      (∀ (enrollments : List Enrollment) (table : List CourseCertificate) (now : Time)
          (base : DB CourseCertificate), (∀ r ∈ table, r.Id ≠ 0) →
        (CourseCertificateService.Update
            (gormDB (CourseCertificate.schema enrollments) table now base) 0
            (some req)).result = .err (.message "record not found")) := by
  have hv : ValidateCourseCertificateUpdateRequest (some req) 0 =
      some (.validation
        [{ Field := "id", Tag := "required", Value := "0", Message := "id cannot be zero" }]) :=
    rfl
  have hcalls : (CourseCertificateService.Update db 0 (some req)).calls = [.First 0] := by
    simp only [CourseCertificateService.Update, CoursePlatform.Update, hv]
    cases db.First 0 <;> rfl
  refine ⟨hcalls, by rw [hcalls]; rfl, by rw [hcalls]; rfl, ?_, ?_, ?_⟩
  · intro e he
    simp only [CourseCertificateService.Update, CoursePlatform.Update, he]
  · intro item hitem
    simp only [CourseCertificateService.Update, CoursePlatform.Update, hitem, hv]
  · intro enrollments table now base hrows
    have hf := gormFirst_of_no_live (CourseCertificate.schema enrollments) table 0
      (fun r hr hid => absurd hid (hrows r hr))
    simp [CourseCertificateService.Update, CoursePlatform.Update, gormDB, hf, ErrRecordNotFound]

/-- C22, counterexample: on the table of the two sample certificates, Create
of a nil request makes no database call and returns neither a model nor an
error: it dereferences the nil request. -/
theorem CourseCertificateService.Create_nil_request :
    (CourseCertificateService.Create certificateDB none).result = .nilDereference ∧
      (CourseCertificateService.Create certificateDB none).calls = [] ∧
      (∀ v, (CourseCertificateService.Create certificateDB none).result ≠ .ok v) ∧
      (∀ e, (CourseCertificateService.Create certificateDB none).result ≠ .err e) :=
  ⟨rfl, rfl, fun _ h => Result.noConfusion h, fun _ h => Result.noConfusion h⟩

/-- Method GetById returns a model or an error. -/
theorem GetById_model_or_error {α : Type} (db : DB α) (id : Nat) :
    (∃ v, (GetById db id).result = .ok v) ∨ ∃ e, (GetById db id).result = .err e := by
  unfold GetById
  cases db.PreloadFirst id with
  | error e => exact Or.inr ⟨e, rfl⟩
  | ok v => exact Or.inl ⟨v, rfl⟩

/-- C22, as amended: Create does not check for a nil request: for a nil
request it dereferences the request before any database call, so no row is
inserted and neither a model nor an error is returned; for every non-nil
request Create returns either a model or an error.  The nil check is in
ValidateCourseCertificateCreateRequest, which Create does not call. -/
theorem CourseCertificateService.Create_model_or_error (db : DB CourseCertificate)
    (validate : CreateCourseCertificateRequest → Option GoError) :
    (CourseCertificateService.Create db none).result = .nilDereference ∧
      (CourseCertificateService.Create db none).calls = [] ∧
      (∀ req : CreateCourseCertificateRequest,
        (∃ v, (CourseCertificateService.Create db (some req)).result = .ok v) ∨
          ∃ e, (CourseCertificateService.Create db (some req)).result = .err e) ∧
      (ValidateCourseCertificateCreateRequest validate none).1 =
        some (.validation
          [{ Field := "request", Tag := "required", Value := "nil",
             Message := "request cannot be nil" }]) := by
  refine ⟨rfl, rfl, ?_, rfl⟩
  intro req
  simp only [CourseCertificateService.Create, CoursePlatform.Create]
  cases db.Create (CourseCertificateService.Create.item req) with
  | error e => exact Or.inr ⟨e, rfl⟩
  | ok created => exact GetById_model_or_error db created.Id

/-- With a stored row and a valid request, EnrollmentService.Update calls
Save once, on the stored item after the field assignments. -/
theorem EnrollmentService.Update_saves_fields (db : DB Enrollment) (id : Nat)
    (req : UpdateEnrollmentRequest) (stored : Enrollment)
    (hfirst : db.First id = .ok stored) (hid : id ≠ 0) :
    savedItems (EnrollmentService.Update db id (some req)).calls =
      [EnrollmentService.Update.fields stored req] := by
  have hv : ValidateEnrollmentUpdateRequest (some req) id = none := by
    simp [ValidateEnrollmentUpdateRequest, ValidateUpdateRequest, hid]
  simp only [EnrollmentService.Update, CoursePlatform.Update, hfirst, hv]
  cases db.Save (EnrollmentService.Update.fields stored req) with
  | error e => rfl
  | ok saved =>
    simp only []
    cases hres : (GetById db saved.Id).result <;>
      simp [savedItems_append, savedItems, GetById_calls]

/-- C23: when the enrollment is found and the request passes validation,
EnrollmentService.Update passes exactly one item to Save; its Completed is the
value the request points to when the pointer is not nil (false included) and
the stored value when it is nil, while Progress, StudentId and CourseId are
those of the request only when these are not zero and the stored ones
otherwise, so a stored Progress that is not 0 is never saved as 0. -/
theorem EnrollmentService.Update_completed_progress (db : DB Enrollment) (id : Nat)
    (req : UpdateEnrollmentRequest) (stored : Enrollment)
    (hfirst : db.First id = .ok stored) (hid : id ≠ 0) :
    ∃ item, savedItems (EnrollmentService.Update db id (some req)).calls = [item] ∧
      item.Completed =
        (match req.Completed with
         | some completed => completed
         | none => stored.Completed) ∧
      (req.Completed = some false → item.Completed = false) ∧
      item.Progress = (if req.Progress ≠ 0 then req.Progress else stored.Progress) ∧
      item.StudentId = (if req.StudentId ≠ 0 then req.StudentId else stored.StudentId) ∧
      item.CourseId = (if req.CourseId ≠ 0 then req.CourseId else stored.CourseId) ∧
      (req.Progress = 0 → item.Progress = stored.Progress) ∧
      (stored.Progress ≠ 0 → item.Progress ≠ 0) := by
  refine ⟨_, EnrollmentService.Update_saves_fields db id req stored hfirst hid, ?_⟩
  cases hc : req.Completed <;>
    by_cases h1 : req.StudentId = 0 <;> by_cases h2 : req.CourseId = 0 <;>
    by_cases h3 : req.EnrolledAt.IsZero = true <;> by_cases h4 : req.Progress = 0 <;>
    simp [EnrollmentService.Update.fields, hc, h1, h2, h3, h4]

/-- Witness of C23: the stored enrollment 5, completed with progress 40,
updated with Completed false and Progress 0, is saved with Completed false
and progress 40. -/
theorem EnrollmentService.Update_completed_progress_witness :
    ((sampleDB sampleEnrollment).First 5 = .ok sampleEnrollment ∧ 5 ≠ 0) ∧
      savedItems (EnrollmentService.Update (sampleDB sampleEnrollment) 5
        (some sampleUpdateEnrollmentRequest)).calls =
        [{ sampleEnrollment with Completed := false }] ∧
    ∃ item,
      savedItems (EnrollmentService.Update (sampleDB sampleEnrollment) 5
        (some sampleUpdateEnrollmentRequest)).calls = [item] ∧
      item.Completed =
        (match sampleUpdateEnrollmentRequest.Completed with
         | some completed => completed
         | none => sampleEnrollment.Completed) ∧
      (sampleUpdateEnrollmentRequest.Completed = some false → item.Completed = false) ∧
      item.Progress = (if sampleUpdateEnrollmentRequest.Progress ≠ 0
        then sampleUpdateEnrollmentRequest.Progress else sampleEnrollment.Progress) ∧
      item.StudentId = (if sampleUpdateEnrollmentRequest.StudentId ≠ 0
        then sampleUpdateEnrollmentRequest.StudentId else sampleEnrollment.StudentId) ∧
      item.CourseId = (if sampleUpdateEnrollmentRequest.CourseId ≠ 0
        then sampleUpdateEnrollmentRequest.CourseId else sampleEnrollment.CourseId) ∧
      (sampleUpdateEnrollmentRequest.Progress = 0 → item.Progress = sampleEnrollment.Progress) ∧
      (sampleEnrollment.Progress ≠ 0 → item.Progress ≠ 0) :=
  ⟨⟨rfl, by decide⟩, rfl,
    EnrollmentService.Update_completed_progress (sampleDB sampleEnrollment) 5
      sampleUpdateEnrollmentRequest sampleEnrollment rfl (by decide)⟩

/-- C27, counterexample: the insert succeeds, the new row getting id 3, and
the read that follows fails with "connection refused"; Create returns that
error after the row was inserted and the create event emitted. -/
theorem CourseCertificateService.Create_error_after_event :
    failedReadDB.Create (CourseCertificateService.Create.item sampleCreateCertificateRequest) =
        .ok { CourseCertificateService.Create.item sampleCreateCertificateRequest with
              Id := 3 } ∧
      (CourseCertificateService.Create failedReadDB
        (some sampleCreateCertificateRequest)).result =
        .err (.message "connection refused") ∧
      (CourseCertificateService.Create failedReadDB
        (some sampleCreateCertificateRequest)).calls =
        [.Create (CourseCertificateService.Create.item sampleCreateCertificateRequest),
          .Emit "coursecertificates.create"
            { CourseCertificateService.Create.item sampleCreateCertificateRequest with
              Id := 3 },
          .PreloadFirst 3] ∧
      emittedEvents (CourseCertificateService.Create failedReadDB
        (some sampleCreateCertificateRequest)).calls = ["coursecertificates.create"] :=
  ⟨rfl, rfl, rfl, rfl⟩

/-- C27, as amended: whenever Create returns an error, either the insert
failed, and then the failed insert is the only call, no create event has been
emitted and no new row is stored, or the insert succeeded and the read that
follows failed, and then the insert is not undone: it is the only call that
changes the table. -/
theorem Create_error_cases {α C : Type} (m : Module) (build : C → α) (getId : α → Nat)
    (db : DB α) (req : C) :
    (∀ e, db.Create (build req) = .error e →
      (CoursePlatform.Create m build getId db (some req)).result = .err e ∧
        (CoursePlatform.Create m build getId db (some req)).calls = [.Create (build req)] ∧
        emittedEvents (CoursePlatform.Create m build getId db (some req)).calls = []) ∧
    (∀ created e, db.Create (build req) = .ok created →
        db.PreloadFirst (getId created) = .error e →
      (CoursePlatform.Create m build getId db (some req)).result = .err e ∧
        mutations (CoursePlatform.Create m build getId db (some req)).calls =
          [.Create (build req)]) ∧
    (∀ e, (CoursePlatform.Create m build getId db (some req)).result = .err e →
      db.Create (build req) = .error e ∨
        ∃ created, db.Create (build req) = .ok created ∧
          db.PreloadFirst (getId created) = .error e) := by
  refine ⟨?_, ?_, ?_⟩
  · intro e he
    simp [CoursePlatform.Create, he, emittedEvents]
  · intro created e hc hp
    simp [CoursePlatform.Create, hc, GetById, hp, mutations]
  · intro e h
    unfold CoursePlatform.Create at h
    simp only [] at h
    cases hc : db.Create (build req) with
    | error e1 =>
      rw [hc] at h
      simp only [Result.err.injEq] at h
      exact Or.inl (by rw [h])
    | ok created =>
      rw [hc] at h
      simp only [GetById] at h
      cases hp : db.PreloadFirst (getId created) with
      | error e1 =>
        rw [hp] at h
        simp only [Result.err.injEq] at h
        exact Or.inr ⟨created, rfl, by rw [← h]; exact hp⟩
      | ok v => rw [hp] at h; simp at h

/-- Witness of C27: on the handle whose reads fail, Create returns the error
of the read and its only call that changes the table is the insert. -/
theorem Create_error_cases_witness :
    (CourseCertificateService.Create failedReadDB
        (some sampleCreateCertificateRequest)).result =
        .err (.message "connection refused") ∧
      mutations (CourseCertificateService.Create failedReadDB
        (some sampleCreateCertificateRequest)).calls =
        [.Create (CourseCertificateService.Create.item sampleCreateCertificateRequest)] :=
  (Create_error_cases .course_certificates CourseCertificateService.Create.item
    (fun item => item.Id) failedReadDB sampleCreateCertificateRequest).2.1
    { CourseCertificateService.Create.item sampleCreateCertificateRequest with Id := 3 }
    (.message "connection refused") rfl rfl

/-- A query parameter that is not bad and denotes an integer denotes a
positive one. -/
theorem parsedInt_pos (s : String) (h : ¬ badPositive s) (n : Int)
    (hn : parsedInt s = some n) : 0 < n := by
  unfold parsedInt at hn
  by_cases he : s = ""
  · simp [he] at hn
  · rw [if_neg he] at hn
    unfold badPositive at h
    have hex : ∃ k : Int, Atoi s = .ok k ∧ 0 < k := by
      by_contra hcon
      exact h ⟨he, hcon⟩
    obtain ⟨k, hk, hpos⟩ := hex
    rw [hk] at hn
    simp only [Option.some.injEq] at hn
    rw [← hn]
    exact hpos

/-- The float64 of a positive int is positive, so a division by it is
defined. -/
theorem divFloat64_toFloat64_pos (total limit : Int) (hl : 0 < limit) :
    0 < toFloat64 limit ∧
      divFloat64 (toFloat64 total) (toFloat64 limit) =
        some (roundFloat64 (toFloat64 total / toFloat64 limit)) := by
  have hb : 0 < toFloat64 limit := roundFloat64_pos _ (by exact_mod_cast hl)
  exact ⟨hb, divFloat64_of _ _ (ne_of_gt hb)⟩

/-- C26: the List handler calls the service only when no parameter is bad,
and then once: GetAll with a page that is nil or greater than 0 and a limit
that is nil or greater than 0.  The effective limit of that call (10 for nil)
is at least 1, its float64 is positive, and the division of the page count is
defined for every row count. -/
theorem Controller.List_passes_positive {α Req β : Type} (render : ValidationErrors → String)
    (svc : Service α Req β) (ctx : Context Req) :
    (badPositive (ctx.Query "page") ∨ badPositive (ctx.Query "limit") ∨
        badOrder (ctx.Query "order") →
      (Controller.List render svc ctx).calls = []) ∧
    (¬ badPositive (ctx.Query "page") → ¬ badPositive (ctx.Query "limit") →
        ¬ badOrder (ctx.Query "order") →
      ∃ (page limit : Option Int) (sortBy sortOrder : Option String),
        (Controller.List render svc ctx).calls = [.GetAll page limit sortBy sortOrder] ∧
        (page = none ∨ ∃ p, page = some p ∧ 0 < p) ∧
        (limit = none ∨ ∃ l, limit = some l ∧ 0 < l) ∧
        1 ≤ (match limit with | none => (10 : Int) | some l => l) ∧
        0 < toFloat64 (match limit with | none => (10 : Int) | some l => l) ∧
        ∀ total : Int,
          divFloat64 (toFloat64 total)
              (toFloat64 (match limit with | none => (10 : Int) | some l => l)) =
            some (roundFloat64 (toFloat64 total /
              toFloat64 (match limit with | none => (10 : Int) | some l => l)))) := by
  constructor
  · intro hbad
    by_cases hp : badPositive (ctx.Query "page")
    · exact (congrArg Handled.calls (Controller.List_bad_page render svc ctx hp))
    · by_cases hl : badPositive (ctx.Query "limit")
      · exact (congrArg Handled.calls (Controller.List_bad_limit render svc ctx hp hl))
      · have ho : badOrder (ctx.Query "order") := by
          rcases hbad with h | h | h
          · exact absurd h hp
          · exact absurd h hl
          · exact h
        exact (congrArg Handled.calls (Controller.List_bad_order render svc ctx hp hl ho))
  · intro hp hl ho
    refine ⟨parsedInt (ctx.Query "page"), parsedInt (ctx.Query "limit"),
      parsedString (ctx.Query "sort"), parsedString (ctx.Query "order"),
      (Controller.List_calls_GetAll render svc ctx hp hl ho).1, ?_, ?_, ?_⟩
    · cases h : parsedInt (ctx.Query "page") with
      | none => exact Or.inl rfl
      | some p => exact Or.inr ⟨p, rfl, parsedInt_pos _ hp p h⟩
    · cases h : parsedInt (ctx.Query "limit") with
      | none => exact Or.inl rfl
      | some l => exact Or.inr ⟨l, rfl, parsedInt_pos _ hl l h⟩
    · have hpos : 0 < (match parsedInt (ctx.Query "limit") with
          | none => (10 : Int) | some l => l) := by
        cases h : parsedInt (ctx.Query "limit") with
        | none => decide
        | some l => exact parsedInt_pos _ hl l h
      exact ⟨hpos, (divFloat64_toFloat64_pos 0 _ hpos).1,
        fun total => (divFloat64_toFloat64_pos total _ hpos).2⟩

/-- Witness of C26: the request for page 2 with limit 5 reaches GetAll with
these two values. -/
theorem Controller.List_passes_positive_witness :
    (¬ badPositive (pagedContext.Query "page") ∧ ¬ badPositive (pagedContext.Query "limit") ∧
      ¬ badOrder (pagedContext.Query "order")) ∧
    (Controller.List sampleRender sampleService pagedContext).calls =
      [.GetAll (some 2) (some 5) none none] ∧
    ∃ (page limit : Option Int) (sortBy sortOrder : Option String),
      (Controller.List sampleRender sampleService pagedContext).calls =
        [.GetAll page limit sortBy sortOrder] ∧
      (page = none ∨ ∃ p, page = some p ∧ 0 < p) ∧
      (limit = none ∨ ∃ l, limit = some l ∧ 0 < l) ∧
      1 ≤ (match limit with | none => (10 : Int) | some l => l) ∧
      0 < toFloat64 (match limit with | none => (10 : Int) | some l => l) ∧
      ∀ total : Int,
        divFloat64 (toFloat64 total)
            (toFloat64 (match limit with | none => (10 : Int) | some l => l)) =
          some (roundFloat64 (toFloat64 total /
            toFloat64 (match limit with | none => (10 : Int) | some l => l))) :=
  have hp : ¬ badPositive (pagedContext.Query "page") :=
    fun h => h.2 ⟨2, rfl, by decide⟩
  have hl : ¬ badPositive (pagedContext.Query "limit") :=
    fun h => h.2 ⟨5, rfl, by decide⟩
  have ho : ¬ badOrder (pagedContext.Query "order") := fun h => h.1 rfl
  ⟨⟨hp, hl, ho⟩, rfl,
    (Controller.List_passes_positive sampleRender sampleService pagedContext).2 hp hl ho⟩

/-- C25, counterexample: the parameters page=3 and
limit=4611686018427387904 (2^62) are parsed by Atoi as positive ints, the List
handler passes them to GetAll, and the offset (3 - 1) * 2^62, which is 2^63
as a product of integers, is -2^63 in int arithmetic; the query that Find
executes carries that negative offset. -/
theorem GetAll_offset_overflow :
    Atoi (hugeLimitContext.Query "page") = .ok 3 ∧
      Atoi (hugeLimitContext.Query "limit") = .ok 4611686018427387904 ∧
      (Controller.List sampleRender sampleService hugeLimitContext).calls =
        [.GetAll (some 3) (some 4611686018427387904) none none] ∧
      ((3 : Int) - 1) * 4611686018427387904 = 9223372036854775808 ∧
      pageOffset 3 4611686018427387904 = -9223372036854775808 ∧
      foundQueries (GetAll .course_certificates CourseCertificate.ToListResponse certificateDB
          (some 3) (some 4611686018427387904) none none).calls =
        [{ Model := "course_certificates", Offset := some (-9223372036854775808),
           Limit := some 4611686018427387904, Order := ["id desc"] }] ∧
      gormFind (CourseCertificate.schema []) [sampleCertificate, otherCertificate]
          { Model := "course_certificates", Offset := some (-9223372036854775808),
            Limit := some 4611686018427387904, Order := ["id desc"] } =
        [otherCertificate, sampleCertificate] :=
  ⟨rfl, rfl, rfl, by decide, by decide, rfl, rfl⟩

/-- C25, as amended: for every page >= 1 and limit >= 1 whose product
(page - 1) * limit is less than 2^63, which covers all pages and limits up to
2^31, the offset GetAll computes in int arithmetic equals that product and is
not negative, and it is the offset of the query that Find executes. -/
theorem GetAll_offset_exact {α β : Type} (m : Module) (toListResponse : Option α → Option β)
    (db : DB α) (page limit : Int) (sortBy sortOrder : Option String) (total : Int)
    (hp : 1 ≤ page) (hl : 1 ≤ limit) (hfit : (page - 1) * limit < 2 ^ 63)
    (hcount : db.Count { Model := m.TableName } = .ok total) :
    pageOffset page limit = (page - 1) * limit ∧ 0 ≤ pageOffset page limit ∧
      (∃ q, foundQueries
          (GetAll m toListResponse db (some page) (some limit) sortBy sortOrder).calls = [q] ∧
        q.Offset = some ((page - 1) * limit)) ∧
      (∀ p l : Int, 1 ≤ p → 1 ≤ l → p ≤ 2 ^ 31 → l ≤ 2 ^ 31 → (p - 1) * l < 2 ^ 63) := by
  have hnonneg : 0 ≤ (page - 1) * limit := mul_nonneg (by omega) (by omega)
  have ho : pageOffset page limit = (page - 1) * limit := by
    rw [pageOffset_eq_wrap]
    exact wrapInt_of_isInt64 _ ⟨by omega, hfit⟩
  refine ⟨ho, by rw [ho]; exact hnonneg, ?_, ?_⟩
  · unfold GetAll
    simp only [hcount]
    split
    · exact ⟨_, rfl, congrArg some ho⟩
    · exact ⟨_, rfl, congrArg some ho⟩
  · intro p l hp1 hl1 hp2 hl2
    have h1 : (p - 1) * l ≤ 2 ^ 31 * 2 ^ 31 :=
      mul_le_mul (by omega) hl2 (by omega) (by norm_num)
    have h2 : (2 : Int) ^ 31 * 2 ^ 31 < 2 ^ 63 := by norm_num
    exact lt_of_le_of_lt h1 h2

/-- Witness of C25: page 3 with limit 20 on a table of one row gives the
offset 40. -/
theorem GetAll_offset_exact_witness :
    ((1 : Int) ≤ 3 ∧ (1 : Int) ≤ 20 ∧ ((3 : Int) - 1) * 20 < 2 ^ 63 ∧
      (sampleDB sampleLesson).Count { Model := Module.lessons.TableName } = .ok 1) ∧
    pageOffset 3 20 = 40 ∧
    (pageOffset 3 20 = (3 - 1) * 20 ∧ 0 ≤ pageOffset 3 20 ∧
      (∃ q, foundQueries
          (GetAll Module.lessons (fun l : Option Lesson => l) (sampleDB sampleLesson)
            (some 3) (some 20) none none).calls = [q] ∧
        q.Offset = some ((3 - 1) * 20)) ∧
      (∀ p l : Int, 1 ≤ p → 1 ≤ l → p ≤ 2 ^ 31 → l ≤ 2 ^ 31 → (p - 1) * l < 2 ^ 63)) :=
  ⟨⟨by decide, by decide, by decide, rfl⟩, by decide,
    GetAll_offset_exact Module.lessons (fun l : Option Lesson => l) (sampleDB sampleLesson)
      3 20 none none 1 (by decide) (by decide) (by decide) rfl⟩

/-- A query without SELECT list and with a limit that is not negative finds at
most that many rows. -/
theorem gormFind_length_le {α : Type} (S : Schema α) (table : List α) (q : Query) (l : Int)
    (hs : q.Select = none) (hl : q.Limit = some l) (h0 : 0 ≤ l) :
    ((gormFind S table q).length : Int) ≤ l := by
  unfold gormFind
  simp only [hs, hl, ge_iff_le, h0, if_true]
  have h1 : ∀ rows : List α, ((rows.take l.toNat).length : Int) ≤ l := by
    intro rows
    have h2 : (rows.take l.toNat).length ≤ l.toNat := by
      rw [List.length_take]
      exact Nat.min_le_left _ _
    have h3 : (l.toNat : Int) = l := Int.toNat_of_nonneg h0
    omega
  exact h1 _

/-- A query without SELECT list whose offset is at least the number of live
rows finds no row. -/
theorem gormFind_eq_nil {α : Type} (S : Schema α) (table : List α) (q : Query) (o : Int)
    (hs : q.Select = none) (ho : q.Offset = some o)
    (hlen : ((table.filter (fun r => decide (S.DeletedAt r = none))).length : Int) ≤ o) :
    gormFind S table q = [] := by
  unfold gormFind
  simp only [hs, ho]
  have hsorted : ((table.filter (fun r => decide (S.DeletedAt r = none))).insertionSort
      (fun a b => orderLE S q.Order a b = true)).length =
      (table.filter (fun r => decide (S.DeletedAt r = none))).length :=
    List.length_insertionSort _ _
  have hskip : (if o > 0 then
      ((table.filter (fun r => decide (S.DeletedAt r = none))).insertionSort
        (fun a b => orderLE S q.Order a b = true)).drop o.toNat
      else (table.filter (fun r => decide (S.DeletedAt r = none))).insertionSort
        (fun a b => orderLE S q.Order a b = true)) = [] := by
    split_ifs with hpos
    · apply List.drop_eq_nil_of_le
      rw [hsorted]
      have h3 : (o.toNat : Int) = o := Int.toNat_of_nonneg (le_of_lt hpos)
      omega
    · apply List.eq_nil_of_length_eq_zero
      rw [hsorted]
      omega
  rw [hskip]
  cases q.Limit with
  | none => rfl
  | some l =>
    simp only []
    split_ifs <;> simp

/-- A page beyond the last page starts at or after the end of the rows. -/
theorem offset_beyond_last (total limit page : Int) (hl : 0 < limit)
    (hp : (if total = 0 then 1 else ⌈(total : ℚ) / limit⌉) < page) :
    total ≤ (page - 1) * limit := by
  by_cases ht : total = 0
  · rw [if_pos ht] at hp
    rw [ht]
    exact mul_nonneg (by omega) (le_of_lt hl)
  · rw [if_neg ht] at hp
    have h1 := (ceil_div_bounds total limit hl).2
    have h2 : ⌈(total : ℚ) / limit⌉ ≤ page - 1 := by omega
    exact le_trans h1 (mul_le_mul_of_nonneg_right h2 (le_of_lt hl))

/-- The query of GetAll for a page whose offset fits in an int and is at least
the number of live rows finds no row. -/
theorem GetAll_query_finds_nothing {α : Type} (S : Schema α) (table : List α) (m : Module)
    (p l : Int) (sortBy sortOrder : Option String) (hfit : isInt64 ((p - 1) * l))
    (hlen : ((table.filter (fun r => decide (S.DeletedAt r = none))).length : Int) ≤
      (p - 1) * l) :
    gormFind S table
        (m.applySorting ((({ Model := m.TableName } : Query).setOffset (pageOffset p l)).setLimit l)
          sortBy sortOrder) = [] := by
  have ho : pageOffset p l = (p - 1) * l := by
    rw [pageOffset_eq_wrap, wrapInt_of_isInt64 _ hfit]
  exact gormFind_eq_nil S table _ (pageOffset p l) rfl rfl (by rw [ho]; exact hlen)

/-- Two rows with limit 2^32 make one page. -/
theorem totalPages_two_rows : totalPages 2 4294967296 = some 1 := by
  rw [totalPages_eq 2 4294967296 (by norm_num) (by norm_num) (by norm_num)]
  have hc : ⌈(((2 : Int) : ℚ)) / ((4294967296 : Int) : ℚ)⌉ = 1 := by
    rw [Int.ceil_eq_iff]
    constructor <;> norm_num
  rw [hc]
  rfl

/-- C24, counterexample: on the table of the two sample certificates, page
2^32 + 1 with limit 2^32 is beyond the only page, yet its offset 2^32 * 2^32
wraps to 0 in int arithmetic and GetAll returns both rows. -/
theorem GetAll_page_beyond_last_not_empty :
    pageOffset 4294967297 4294967296 = 0 ∧
      ∃ resp, (GetAll .course_certificates CourseCertificate.ToListResponse certificateDB
          (some 4294967297) (some 4294967296) none none).result = .ok resp ∧
        resp.Pagination.Total = 2 ∧ resp.Pagination.TotalPages = some 1 ∧
        resp.Pagination.Page = 4294967297 ∧
        resp.Data = [CourseCertificate.ToListResponse (some otherCertificate),
          CourseCertificate.ToListResponse (some sampleCertificate)] :=
  ⟨by decide,
    { Data := [CourseCertificate.ToListResponse (some otherCertificate),
        CourseCertificate.ToListResponse (some sampleCertificate)]
      Pagination := { Total := 2, Page := 4294967297, PageSize := 4294967296,
                      TotalPages := totalPages 2 4294967296 } },
    rfl, rfl, totalPages_two_rows, rfl, rfl⟩

/-- C24, as amended: on success GetAll returns a Data list with the length
and order of the rows found by the query, element i being ToListResponse of
row i, which for a certificate carries its scalar fields and no related
entity; on a table as gorm keeps it, with an effective limit l > 0 the list
has at most l elements, and a page p beyond the last one whose offset
(p - 1) * l fits in an int yields an empty list while Page in the response is
still p. -/
theorem GetAll_data {α β : Type} (m : Module) (toListResponse : Option α → Option β)
    (db : DB α) (S : Schema α) (table : List α) (now : Time) (base : DB α)
    (page limit : Option Int) (sortBy sortOrder : Option String) :
    (∀ resp, (GetAll m toListResponse db page limit sortBy sortOrder).result = .ok resp →
      ∃ q rows,
        foundQueries (GetAll m toListResponse db page limit sortBy sortOrder).calls = [q] ∧
        db.Find q = .ok rows ∧
        resp.Data = rows.map (fun r => toListResponse (some r)) ∧
        resp.Data.length = rows.length ∧
        (∀ i : Nat, resp.Data[i]? = rows[i]?.map (fun r => toListResponse (some r))) ∧
        resp.Pagination.Page = (match page with | none => 1 | some p => p)) ∧
    (∃ resp,
      (GetAll m toListResponse (gormDB S table now base) page limit sortBy sortOrder).result =
        .ok resp ∧
      resp.Pagination.Page = (match page with | none => 1 | some p => p) ∧
      resp.Pagination.Total =
        ((table.filter (fun r => decide (S.DeletedAt r = none))).length : Int) ∧
      (0 < (match limit with | none => (10 : Int) | some l => l) →
        (resp.Data.length : Int) ≤ (match limit with | none => (10 : Int) | some l => l)) ∧
      (0 < (match limit with | none => (10 : Int) | some l => l) →
        isInt64 (((match page with | none => (1 : Int) | some p => p) - 1) *
          (match limit with | none => (10 : Int) | some l => l)) →
        ((table.filter (fun r => decide (S.DeletedAt r = none))).length : Int) ≤
          ((match page with | none => (1 : Int) | some p => p) - 1) *
            (match limit with | none => (10 : Int) | some l => l) →
        resp.Data = [])) ∧
    (∀ total l p : Int, 0 < l →
      (if total = 0 then 1 else ⌈(total : ℚ) / l⌉) < p → total ≤ (p - 1) * l) ∧
    (∀ c : CourseCertificate, CourseCertificate.ToListResponse (some c) =
      some { Id := c.Id, CreatedAt := c.CreatedAt, UpdatedAt := c.UpdatedAt,
             DeletedAt := c.DeletedAt, CertificateUrl := c.CertificateUrl,
             IssuedAt := c.IssuedAt }) := by
  refine ⟨?_, ?_, fun total l p hl hp => offset_beyond_last total l p hl hp, fun _ => rfl⟩
  · intro resp h
    unfold GetAll at h ⊢
    simp only [] at h ⊢
    cases hc : db.Count { Model := m.TableName } with
    | error e => rw [hc] at h; simp at h
    | ok total =>
      rw [hc] at h
      simp only [] at h ⊢
      split at h
      · simp at h
      · next items hf =>
        simp only [Result.ok.injEq] at h
        subst h
        refine ⟨_, items, ?_, hf, rfl, by simp, ?_, rfl⟩
        · rfl
        · intro i
          simp
  · refine ⟨
      { Data := (gormFind S table
            (m.applySorting
              ((({ Model := m.TableName } : Query).setOffset
                (pageOffset (match page with | none => 1 | some p => p)
                  (match limit with | none => 10 | some l => l))).setLimit
                (match limit with | none => 10 | some l => l)) sortBy sortOrder)).map
            (fun r => toListResponse (some r))
        Pagination :=
          { Total := ((table.filter (fun r => decide (S.DeletedAt r = none))).length : Int)
            Page := match page with | none => 1 | some p => p
            PageSize := match limit with | none => 10 | some l => l
            TotalPages :=
              totalPages ((table.filter (fun r => decide (S.DeletedAt r = none))).length : Int)
                (match limit with | none => 10 | some l => l) } }, ?_, rfl, rfl, ?_, ?_⟩
    · cases page <;> cases limit <;> rfl
    · intro hl
      simp only [List.length_map]
      exact gormFind_length_le S table _ _ rfl rfl (le_of_lt hl)
    · intro _ hfit hlen
      rw [GetAll_query_finds_nothing S table m _ _ sortBy sortOrder hfit hlen]
      rfl

/-- Witness of C24: on the table of the two sample certificates, page 2 with
limit 10 yields an empty list with Page 2, and page 1 with limit 1 yields one
element. -/
theorem GetAll_data_witness :
    (∃ resp, (GetAll .course_certificates CourseCertificate.ToListResponse certificateDB
        (some 2) (some 10) none none).result = .ok resp ∧
      resp.Pagination.Page = 2 ∧ resp.Pagination.Total = 2 ∧ resp.Data = []) ∧
    (GetAll .course_certificates CourseCertificate.ToListResponse certificateDB
        (some 1) (some 1) none none).result =
      .ok { Data := [CourseCertificate.ToListResponse (some otherCertificate)]
            Pagination := { Total := 2, Page := 1, PageSize := 1,
                            TotalPages := totalPages 2 1 } } := by
  obtain ⟨resp, hres, hpage, htotal, _, hnil⟩ :=
    (GetAll_data .course_certificates CourseCertificate.ToListResponse certificateDB
      (CourseCertificate.schema []) [sampleCertificate, otherCertificate] 1000
      (sampleDB sampleCertificate) (some 2) (some 10) none none).2.1
  exact ⟨⟨resp, hres, hpage, htotal, hnil (by decide) (by decide) (by decide)⟩, rfl⟩

/-- The unsigned branch of ParseInt returns a value greater than 0 exactly on
the digit strings with a value from 1 to 2^63 - 1. -/
theorem ParseInt_unsigned_pos (body : List Char) (n : Int) :
    ((match ParseUint.loop (2 ^ 64 - 1) body 0 with
        | .error e => (Except.error e : Except NumError Int)
        | .ok un => if un ≥ 2 ^ 63 then .error .ErrRange else .ok (un : Int)) = .ok n ∧
      0 < n) ↔
      ((∀ c ∈ body, 48 ≤ c.toNat ∧ c.toNat ≤ 57) ∧ 1 ≤ decimalValue body ∧
        decimalValue body ≤ 9223372036854775807) ∧ n = (decimalValue body : Int) := by
  have hloop := fun (v : Nat) =>
    ParseUint.loop_ok_iff (2 ^ 64 - 1) (by norm_num) body 0 (Nat.zero_le _) v
  have h63 : (2 : Nat) ^ 63 = 9223372036854775808 := by norm_num
  have h64 : (2 : Nat) ^ 64 - 1 = 18446744073709551615 := by norm_num
  unfold decimalValue
  constructor
  · rintro ⟨h1, h2⟩
    cases hl : ParseUint.loop (2 ^ 64 - 1) body 0 with
    | error e => rw [hl] at h1; cases h1
    | ok un =>
      rw [hl] at h1
      obtain ⟨hdig, hval, _⟩ := (hloop un).mp hl
      simp only [] at h1
      split at h1
      · cases h1
      · rename_i hbig
        simp only [Except.ok.injEq] at h1
        rw [hval]
        exact ⟨⟨hdig, by omega, by omega⟩, h1.symm⟩
  · rintro ⟨⟨hdig, h1, h2⟩, h3⟩
    have hl := (hloop _).mpr ⟨hdig, rfl, by rw [h64]; omega⟩
    rw [hl]
    simp only []
    rw [if_neg (by omega)]
    exact ⟨by rw [h3], by omega⟩

/-- Function Atoi returns a value greater than 0 exactly on the decimal
integers from 1 to 2^63 - 1, and the value is the one the digits denote. -/
theorem Atoi_pos_iff (s : String) (n : Int) :
    (Atoi s = .ok n ∧ 0 < n) ↔
      (isPositiveInt s ∧ n = (decimalValue (positiveDigits s) : Int)) := by
  unfold Atoi ParseInt isPositiveInt positiveDigits
  cases hs : s.toList with
  | nil => simp
  | cons c cs =>
    simp only []
    by_cases hplus : c = '+'
    · subst hplus
      simp only [true_or, if_true]
      cases hcs : cs with
      | nil => simp
      | cons d ds =>
        have hbody := ParseInt_unsigned_pos (d :: ds) n
        have hne : ¬ (('+' : Char) = '-') := by decide
        simp only []
        cases hl : ParseUint.loop (2 ^ 64 - 1) (d :: ds) 0 with
        | error e => rw [hl] at hbody; simpa using hbody
        | ok un => rw [hl] at hbody; simpa [hne] using hbody
    · by_cases hminus : c = '-'
      · subst hminus
        simp only [or_true, if_true, hplus, if_false]
        have hnd : ¬ (48 ≤ ('-' : Char).toNat ∧ ('-' : Char).toNat ≤ 57) := by decide
        constructor
        · rintro ⟨h1, h2⟩
          exfalso
          cases hcs : cs with
          | nil => rw [hcs] at h1; simp at h1
          | cons d ds =>
            rw [hcs] at h1
            simp only [] at h1
            cases hl : ParseUint.loop (2 ^ 64 - 1) (d :: ds) 0 with
            | error e => rw [hl] at h1; simp at h1
            | ok un =>
              rw [hl] at h1
              simp only [not_true_eq_false, false_and, if_false, true_and, if_true] at h1
              split at h1
              · cases h1
              · simp only [Except.ok.injEq] at h1
                omega
        · rintro ⟨⟨_, hdig, _⟩, _⟩
          exact absurd (hdig '-' (List.mem_cons_self _ _)) hnd
      · have hbody := ParseInt_unsigned_pos (c :: cs) n
        simp only [hplus, hminus, or_self, if_false]
        cases hl : ParseUint.loop (2 ^ 64 - 1) (c :: cs) 0 with
        | error e => rw [hl] at hbody; simpa using hbody
        | ok un => rw [hl] at hbody; simpa [hminus] using hbody

/-- A parameter is bad for the handler exactly when it is present and is not
a decimal integer from 1 to 2^63 - 1. -/
theorem badPositive_iff_notPositiveInt (s : String) : badPositive s ↔ notPositiveInt s := by
  unfold badPositive notPositiveInt
  have h : (∃ n : Int, Atoi s = .ok n ∧ 0 < n) ↔ isPositiveInt s := by
    constructor
    · rintro ⟨n, hn⟩
      exact ((Atoi_pos_iff s n).mp hn).1
    · intro hp
      exact ⟨_, (Atoi_pos_iff s _).mpr ⟨hp, rfl⟩⟩
  rw [h]

/-- The integer the handler parses from a parameter that is not bad is the
value of its digits. -/
theorem parsedInt_eq_positiveValue (s : String) (h : ¬ badPositive s) :
    parsedInt s = positiveValue s := by
  unfold parsedInt positiveValue
  by_cases he : s = ""
  · rw [if_pos he, if_pos he]
  · rw [if_neg he, if_neg he]
    have hp : isPositiveInt s := by
      by_contra hcon
      exact h ((badPositive_iff_notPositiveInt s).mpr ⟨he, hcon⟩)
    rw [((Atoi_pos_iff s _).mpr ⟨hp, rfl⟩).1]

/-- C8, counterexample: the page parameter "9223372036854775808" consists of
digits and denotes 2^63, an integer greater than 0, yet the List handler
answers 400 "Invalid page number" and does not call the service: Atoi
reports a range error for it. -/
theorem Controller.List_rejects_integer_beyond_int :
    largePageContext.Query "page" = "9223372036854775808" ∧
      (∀ c ∈ (largePageContext.Query "page").toList, 48 ≤ c.toNat ∧ c.toNat ≤ 57) ∧
      decimalValue (largePageContext.Query "page").toList = 9223372036854775808 ∧
      0 < decimalValue (largePageContext.Query "page").toList ∧
      Atoi (largePageContext.Query "page") = .error .ErrRange ∧
      (Controller.List sampleRender sampleService largePageContext).response =
        ⟨400, some (.ErrorResponse "Invalid page number")⟩ ∧
      (Controller.List sampleRender sampleService largePageContext).calls = [] :=
  ⟨rfl, by decide, by decide, by decide, rfl, rfl, rfl⟩

/-- C8, as amended: the List handler answers 400 "Invalid page number"
exactly when page is non-empty and is not a decimal integer from 1 to
2^63 - 1 (digits, optionally after "+"); otherwise 400 "Invalid limit number"
exactly when limit is non-empty and is not such an integer; otherwise 400
"Invalid sort order. Use 'asc' or 'desc'" exactly when order is non-empty and
neither "asc" nor "desc".  In these cases the service is not called; in every
other case GetAll is called once with the values the digits denote, an absent
or empty parameter being nil and a non-empty sort string passed as it is. -/
theorem Controller.List_rejects_bad_parameters {α Req β : Type}
    (render : ValidationErrors → String) (svc : Service α Req β) (ctx : Context Req) :
    ((Controller.List render svc ctx).response =
        ⟨400, some (.ErrorResponse "Invalid page number")⟩ ↔
      notPositiveInt (ctx.Query "page")) ∧
    ((Controller.List render svc ctx).response =
        ⟨400, some (.ErrorResponse "Invalid limit number")⟩ ↔
      ¬ notPositiveInt (ctx.Query "page") ∧ notPositiveInt (ctx.Query "limit")) ∧
    ((Controller.List render svc ctx).response =
        ⟨400, some (.ErrorResponse "Invalid sort order. Use \x27asc\x27 or \x27desc\x27")⟩ ↔
      ¬ notPositiveInt (ctx.Query "page") ∧ ¬ notPositiveInt (ctx.Query "limit") ∧
        badOrder (ctx.Query "order")) ∧
    (notPositiveInt (ctx.Query "page") ∨ notPositiveInt (ctx.Query "limit") ∨
        badOrder (ctx.Query "order") →
      (Controller.List render svc ctx).calls = []) ∧
    (¬ notPositiveInt (ctx.Query "page") → ¬ notPositiveInt (ctx.Query "limit") →
        ¬ badOrder (ctx.Query "order") →
      (Controller.List render svc ctx).calls =
        [.GetAll (positiveValue (ctx.Query "page")) (positiveValue (ctx.Query "limit"))
          (parsedString (ctx.Query "sort")) (parsedString (ctx.Query "order"))]) := by
  obtain ⟨h1, h2, h3, h4, h5⟩ := Controller.List_validation render svc ctx
  simp only [badPositive_iff_notPositiveInt] at h1 h2 h3 h4
  refine ⟨h1, h2, h3, h4, ?_⟩
  intro hp hl ho
  have hp1 : ¬ badPositive (ctx.Query "page") := fun h =>
    hp ((badPositive_iff_notPositiveInt _).mp h)
  have hl1 : ¬ badPositive (ctx.Query "limit") := fun h =>
    hl ((badPositive_iff_notPositiveInt _).mp h)
  rw [h5 hp1 hl1 ho, parsedInt_eq_positiveValue _ hp1, parsedInt_eq_positiveValue _ hl1]

/-- Witness of C8: the request for page 2 with limit 5 passes the checks and
reaches GetAll with the values 2 and 5. -/
theorem Controller.List_rejects_bad_parameters_witness :
    isPositiveInt "2" ∧ isPositiveInt "+5" ∧ ¬ isPositiveInt "0" ∧ ¬ isPositiveInt "-3" ∧
      ¬ isPositiveInt "1.5" ∧ ¬ isPositiveInt "" ∧ ¬ isPositiveInt "9223372036854775808" ∧
      isPositiveInt "9223372036854775807" ∧
      (Controller.List sampleRender sampleService pagedContext).calls =
        [.GetAll (some 2) (some 5) none none] := by
  have hp : ¬ notPositiveInt (pagedContext.Query "page") := fun h => h.2 (by decide)
  have hl : ¬ notPositiveInt (pagedContext.Query "limit") := fun h => h.2 (by decide)
  have ho : ¬ badOrder (pagedContext.Query "order") := fun h => h.1 rfl
  have h := (Controller.List_rejects_bad_parameters sampleRender sampleService
    pagedContext).2.2.2.2 hp hl ho
  refine ⟨by decide, by decide, by decide, by decide, by decide, by decide, by decide,
    by decide, ?_⟩
  rw [h]
  rfl

end CoursePlatform
